import Mathlib

/-!
Shallow embedding of the osgEarth terrain tile factory (OSGTileFactory.cpp).

The C++ factory is embedded as pure Lean functions.

* Nullable pointers are `Option`.
* A dereference of a null pointer is the fault `Fault.nullDereference`; functions that
  contain such a dereference return `Except Fault _`.
* `double` quantities are rationals.
* The terrain registry is passed explicitly: every function that registers a tile
  returns the terrain it leaves behind.
* Collaborators whose code lives outside the factory file (layers, the map's heightfield
  compositor, the bounding-sphere computation, the blacklist of the registry, the L2
  cache, the floating-point cone computation) are function-valued fields, so every
  theorem holds for all of their behaviours.
* Data produced by library calls (`createReferenceHeightField`, `createSubSample`,
  `GeoLocator::createForKey`, ...) is recorded symbolically by constructors that name
  the call and its arguments.
* Locks, logging and `setDataVariance` have no effect on the modelled state and are
  left out.
-/

namespace OsgEarth

/-! ## Data model -/

/-- Fault of the embedding: a C++ dereference of a null pointer. -/
inductive Fault where
  | nullDereference
deriving DecidableEq, Repr

/-- Modelled from the spec: the quadtree address `(level, column, row, profile)` of
`TileKey`, whose class is not part of the factory file. The profile is an identifier;
`none` is the profile of `TileKey::INVALID`. -/
structure TileKey where
  lod : Nat
  x : Nat
  y : Nat
  profile : Option Nat
deriving DecidableEq, Repr

/-- Result of `key.getTileId()`: the identifier under which the terrain registers a tile. -/
structure TileId where
  level : Nat
  x : Nat
  y : Nat
deriving DecidableEq, Repr

/-- Geospatial extents, recorded by the call that produced them. -/
inductive GeoExtent where
  /-- an extent given by its bounds in the SRS with the given identifier -/
  | bounds (srs : Nat) (xmin ymin xmax ymax : ℚ)
  /-- the value of `key.getGeoExtent()` -/
  | ofKey (key : TileKey)
  /-- the value of `e.transform( e.getSRS()->getGeographicSRS() )` -/
  | toGeographic (e : GeoExtent)
deriving DecidableEq, Repr

/-- Raster payload of an image. -/
inductive Image where
  /-- pixels delivered by a layer, named by an identifier -/
  | pixels (id : Nat)
  /-- the value of `ImageUtils::createEmptyImage()`: the transparent placeholder -/
  | emptyImage
deriving DecidableEq, Repr

/-- A `GeoImage`: an image, its extent, and whether its SRS is Mercator. -/
structure GeoImage where
  image : Image
  extent : GeoExtent
  isMercator : Bool
deriving DecidableEq, Repr

/-- Where the samples of a heightfield come from. -/
inductive HeightFieldSource where
  /-- samples composed by `Map::createHeightField`, named by an identifier -/
  | mapData (id : Nat)
  /-- the value of `createReferenceHeightField( extent, numCols, numRows )` -/
  | reference (extent : GeoExtent) (numCols numRows : Nat)
  /-- the value of `HeightFieldUtils::createSubSample( src, srcExtent, dstExtent )` -/
  | subSample (src : HeightFieldSource) (srcExtent dstExtent : GeoExtent)
deriving DecidableEq, Repr

/-- An `osg::HeightField`: its samples, the skirt height last written with
`setSkirtHeight` (`none` when never written; the heightfield keeps it as a `float`,
which is what `getSkirtHeight` reads back) and how many times
`scaleHeightFieldToDegrees` was applied to it. -/
structure HeightField where
  source : HeightFieldSource
  skirtHeight : Option ℚ
  scaledToDegrees : Nat
deriving DecidableEq, Repr

/-- Locators, recorded by the call that produced them. -/
inductive LocatorKind where
  /-- the value of `GeoLocator::createForKey( key, map )` -/
  | forKey (key : TileKey)
  /-- the value of `srs->createLocator( bounds of extent, plateCarre )`; the flag is
  `none` when the call leaves it at its default -/
  | fromExtent (extent : GeoExtent) (plateCarre : Option Bool)
  /-- the value of `new MercatorLocator( base, imageExtent )` -/
  | mercator (base : LocatorKind) (imageExtent : GeoExtent)
deriving DecidableEq, Repr

/-- A `GeoLocator` with the flag written by `setCoordinateSystemType( GEOCENTRIC )`. -/
structure GeoLocator where
  kind : LocatorKind
  geocentricSet : Bool
deriving DecidableEq, Repr

/-- Per-layer cache, consulted by `isCached`. -/
structure Cache where
  isCached : TileKey → String → String → Bool

/-- An image or heightfield layer of the map, seen through the calls the factory makes. -/
structure MapLayer where
  name : String
  isKeyValid : TileKey → Bool
  createImage : TileKey → Option GeoImage
  useMercatorFastPath : Option Bool
  maxLevel : Option Int
  minFilter : Nat
  magFilter : Nat
  profile : Nat
  getIntersectingTiles : TileKey → List TileKey
  cache : Option Cache
  cacheFormat : String

/-- Values of `Map::CoordinateSystemType`. -/
inductive CoordinateSystemType where
  | CSTYPE_GEOCENTRIC
  | CSTYPE_GEOCENTRIC_CUBE
  | CSTYPE_PROJECTED
deriving DecidableEq, Repr

/-- Values of the elevation interpolation option handed to `Map::createHeightField`. -/
inductive ElevationInterpolation where
  | INTERP_AVERAGE
  | INTERP_NEAREST
  | INTERP_BILINEAR
  | INTERP_TRIANGULATE
deriving DecidableEq, Repr

/-- The map, seen through the calls the factory makes. `createHeightField key fallback
interpolation` is `Map::createHeightField`; `isGeocentric` is `Map::isGeocentric()`;
`srsIsGeographic` is `getProfile()->getSRS()->isGeographic()` and `srsIsMercator` is
`isMercator()` of the same SRS, which is the SRS of the extents of the map's keys;
`isEquivalentTo p` is `map->getProfile()->isEquivalentTo( p )` for the profile `p` of a
layer, which by default compares the profile identifiers. -/
structure Map where
  imageMapLayers : List MapLayer
  heightFieldMapLayers : List MapLayer
  coordinateSystemType : CoordinateSystemType
  isGeocentric : Bool
  srsIsGeographic : Bool
  srsIsMercator : Bool
  profile : Nat
  createHeightField : TileKey → Bool → ElevationInterpolation → Option HeightField
  isEquivalentTo : Nat → Bool := fun layerProfile => decide (layerProfile = profile)

/-- Values of `LoadingPolicy::Mode`. -/
inductive LoadingPolicyMode where
  | MODE_STANDARD
  | MODE_SEQUENTIAL
  | MODE_PREEMPTIVE
deriving DecidableEq, Repr

/-- The options of `OSGTerrainOptions` that the factory reads. -/
structure OSGTerrainOptions where
  verticalScale : ℚ
  normalizeEdges : Bool
  minTileRangeFactor : ℚ
  heightFieldSkirtRatio : ℚ
  loadingPolicyMode : LoadingPolicyMode
  maxLOD : Nat
  elevationInterpolation : ElevationInterpolation

/-- An `osgTerrain::HeightFieldLayer`. -/
structure HeightFieldLayer where
  locator : Option GeoLocator
  heightField : Option HeightField
deriving DecidableEq, Repr

/-- A `TransparentLayer` as built for a colour slot: the image, the map layer it was
built for, and the attributes written by the factory. -/
structure TransparentLayer where
  image : Image
  mapLayer : MapLayer
  levelOfDetail : Nat
  name : String
  locator : Option GeoLocator
  minFilter : Nat
  magFilter : Nat

/-- An `osg::ClusterCullingCallback`: the cone handed to `set`. -/
structure ClusterCullingCallback where
  heightOffset : ℚ
  minDotProduct : ℚ
  radius : ℚ
deriving DecidableEq, Repr

/-- A `CustomTile`. An optional attribute is `none` until the factory writes it. -/
structure CustomTile where
  key : TileKey
  keyLocator : GeoLocator
  locator : Option GeoLocator
  terrainTechnique : Option Nat
  verticalScale : Option ℚ
  requiresNormals : Bool
  elevationLayer : Option HeightFieldLayer
  colorLayers : List (Option TransparentLayer)
  elevationLOD : Int
  edgeNormalizer : Bool
  cullCallback : Option ClusterCullingCallback
  useLayerRequests : Bool
  hasElevationHint : Option Bool
  terrainRevision : Option Nat

/-- An `osg::BoundingSphere`. -/
structure BoundingSphere where
  center : ℚ × ℚ × ℚ
  radius : ℚ
deriving DecidableEq, Repr

/-- Cull callbacks that the factory attaches to a paged LOD. -/
inductive CullCallback where
  | tileImageBackfill
  | clusterCulling (ccc : Option ClusterCullingCallback)
deriving DecidableEq, Repr

/-- An `osg::PagedLOD`: children, their ranges, the file names per slot (the empty
string for a slot without one) and the cull callbacks. -/
structure PagedLOD where
  center : ℚ × ℚ × ℚ
  children : List CustomTile
  rangeList : List (ℚ × ℚ)
  fileNames : List String
  cullCallbacks : List CullCallback

/-- Scene nodes returned by the factory. A group records the arguments of its
`addChild` calls in call order. -/
inductive Node where
  | pagedLOD (plod : PagedLOD)
  | tile (t : CustomTile)
  | group (children : List (Option Node))

/-- The terrain tile that a node returned by a tile build carries: the node itself, or
child 0 of the paged LOD that wraps it. -/
def Node.getTile (node : Node) : Option CustomTile :=
  match node with
  | Node.pagedLOD plod => plod.children.head?
  | Node.tile t => some t
  | Node.group _ => none

/-- Modelled from the spec: the tile registry of `CustomTerrain` (its class is not part
of the factory file): the registered tiles, the revision counter and the identifier of
the technique prototype. -/
structure CustomTerrain where
  tiles : List CustomTile
  revision : Nat
  terrainTechniquePrototype : Nat

/-- The factory object: engine id, options, the optional L2 cache
(`_L2cache->createImage( layer, key )`), and the collaborators reached through global
or library calls: `keyStr` is `TileKey::str()`, `isBlacklisted` is
`Registry::instance()->isBlacklisted`, `getBound` is `tile->getBound()`, `clusterCone`
is the floating-point sample loop of `createClusterCullingCallback`, and
`emptyNumCols`, `emptyNumRows` are the default arguments that the header gives
`createEmptyHeightField`, and `initialElevationLOD` is the elevation LOD that the
`CustomTile` constructor gives a tile for a key. -/
structure OSGTileFactory where
  engineId : Nat
  terrainOptions : OSGTerrainOptions
  L2cache : Option (MapLayer → TileKey → Option GeoImage)
  keyStr : TileKey → String
  isBlacklisted : String → Bool
  getBound : CustomTile → BoundingSphere
  clusterCone : HeightField → Option ℚ → Option ClusterCullingCallback
  emptyNumCols : Nat
  emptyNumRows : Nat
  initialElevationLOD : TileKey → Int

/-- What a tile build hands back: the returned node (`none` for `NULL`), the value
written to the `validData` reference, and the terrain after the call. -/
structure TileResult where
  node : Option Node
  validData : Bool
  terrain : CustomTerrain

/-! ## TileKey -/

/-- Modelled from the spec: `TileKey::INVALID`, the key without a profile. -/
def TileKey.INVALID : TileKey :=
  { lod := 0, x := 0, y := 0, profile := none }

/-- Modelled from the spec: `valid()`; a key is valid when it has a profile. -/
def TileKey.valid (key : TileKey) : Bool :=
  key.profile.isSome

/-- Accessor `getLevelOfDetail()`. -/
def TileKey.getLevelOfDetail (key : TileKey) : Nat :=
  key.lod

/-- Accessor `getTileId()`. -/
def TileKey.getTileId (key : TileKey) : TileId :=
  { level := key.lod, x := key.x, y := key.y }

/-- Accessor `getGeoExtent()`. -/
def TileKey.getGeoExtent (key : TileKey) : GeoExtent :=
  GeoExtent.ofKey key

/-- Modelled from the spec: `createParentKey()` returns the containing key one level
up, or an invalid key at level 0. -/
def TileKey.createParentKey (key : TileKey) : TileKey :=
  if key.lod = 0 then TileKey.INVALID
  else { lod := key.lod - 1, x := key.x / 2, y := key.y / 2, profile := key.profile }

/-- Modelled from the spec: `createChildKey( quadrant )` returns the key one level
deeper in the given quadrant (bit 0 of the quadrant selects the column, bit 1 the row). -/
def TileKey.createChildKey (key : TileKey) (quadrant : Nat) : TileKey :=
  { lod := key.lod + 1
    x := key.x * 2 + (if quadrant = 1 ∨ quadrant = 3 then 1 else 0)
    y := key.y * 2 + (if quadrant = 2 ∨ quadrant = 3 then 1 else 0)
    profile := key.profile }

/-- The key number `i` of the chain key, parent(key), parent(parent(key)), ...: the key
reached from `key` by `i` calls of `createParentKey`. -/
def TileKey.ancestorKey (key : TileKey) (i : Nat) : TileKey :=
  Nat.iterate TileKey.createParentKey i key

/-! ## Library containers -/

/-- Write of slot `i` in a vector that is first resized to `i + 1` entries (filled
with `d`) when it is shorter: the behaviour of `TerrainTile::setColorLayer`,
`LOD::setRange` and `PagedLOD::setFileName`. -/
def setSlot {α : Type} (d : α) (xs : List α) (i : Nat) (v : α) : List α :=
  if i < xs.length then xs.set i v
  else xs ++ List.replicate (i - xs.length) d ++ [v]

/-- The call `tile->setColorLayer( i, layer )`. -/
def CustomTile.setColorLayer (tile : CustomTile) (i : Nat) (layer : Option TransparentLayer) :
    CustomTile :=
  { tile with colorLayers := setSlot none tile.colorLayers i layer }

/-- The call `tile->getColorLayer( i )`: null beyond the last slot. -/
def CustomTile.getColorLayer (tile : CustomTile) (i : Nat) : Option TransparentLayer :=
  (tile.colorLayers.get? i).join

/-- The call `tile->getNumColorLayers()`. -/
def CustomTile.getNumColorLayers (tile : CustomTile) : Nat :=
  tile.colorLayers.length

/-- The constructor `CustomTile( key, locator )`. -/
def CustomTile.create (f : OSGTileFactory) (key : TileKey) (keyLocator : GeoLocator) : CustomTile :=
  { key := key
    keyLocator := keyLocator
    locator := none
    terrainTechnique := none
    verticalScale := none
    requiresNormals := false
    elevationLayer := none
    colorLayers := []
    elevationLOD := f.initialElevationLOD key
    edgeNormalizer := false
    cullCallback := none
    useLayerRequests := false
    hasElevationHint := none
    terrainRevision := none }

/-- The call `hf->setSkirtHeight( h )`. -/
def HeightField.setSkirtHeight (hf : HeightField) (h : ℚ) : HeightField :=
  { hf with skirtHeight := some h }

/-- The call `HeightFieldUtils::scaleHeightFieldToDegrees( hf )`. -/
def scaleHeightFieldToDegrees (hf : HeightField) : HeightField :=
  { hf with scaledToDegrees := hf.scaledToDegrees + 1 }

/-- The call `HeightFieldUtils::createSubSample( src, srcExtent, dstExtent )`. -/
def createSubSample (src : HeightField) (srcExtent dstExtent : GeoExtent) : HeightField :=
  { source := HeightFieldSource.subSample src.source srcExtent dstExtent
    skirtHeight := none
    scaledToDegrees := 0 }

/-- The call `GeoLocator::createForKey( key, map )`. -/
def GeoLocator.createForKey (key : TileKey) : GeoLocator :=
  { kind := LocatorKind.forKey key, geocentricSet := false }

/-- The constant `FLT_MAX`. -/
def FLT_MAX : ℚ := 340282346638528859811704183484516925440

/-- Modelled from the spec: `terrain->getCustomTile( tileId, out )` looks the tile up in
the registry; null when none is registered under the id. -/
def CustomTerrain.getCustomTile (terrain : CustomTerrain) (id : TileId) : Option CustomTile :=
  terrain.tiles.find? (fun t => decide (t.key.getTileId = id))

/-- Modelled from the spec: `terrain->registerTile( tile )` is a no-op if a tile for
that key is already registered (first writer wins). -/
def CustomTerrain.registerTile (terrain : CustomTerrain) (tile : CustomTile) : CustomTerrain :=
  match terrain.getCustomTile tile.key.getTileId with
  | some _ => terrain
  | none => { terrain with tiles := terrain.tiles ++ [tile] }

/-! ## OSGTileFactory -/

namespace OSGTileFactory

/-- Source lines 105-113: `createURI`. -/
def createURI (f : OSGTileFactory) (id : Nat) (key : TileKey) : String :=
  f.keyStr key ++ "." ++ toString id ++ ".osgearth_osgterrain_tile"

/-- Source lines 203-211: the `while` loop of `createValidGeoImage`, run for at most
`fuel` iterations. The outer `none` means that the iterations were used up before the
loop was left; `some r` is the value `r` returned by the function. -/
def createValidGeoImageLoop (layer : MapLayer) : Nat → TileKey → Option (Option GeoImage)
  | 0, image_key => if image_key.valid then none else some none
  | fuel + 1, image_key =>
    if image_key.valid then
      if layer.isKeyValid image_key then
        match layer.createImage image_key with
        | some geo_image => some (some geo_image)
        | none => createValidGeoImageLoop layer fuel image_key.createParentKey
      else createValidGeoImageLoop layer fuel image_key.createParentKey
    else some none

/-- Source lines 192-213: `createValidGeoImage`. The loop gets `level + 1` iterations,
which `createValidGeoImageLoop_terminates` shows to be enough. -/
def createValidGeoImage (layer : MapLayer) (key : TileKey) : Option GeoImage :=
  match createValidGeoImageLoop layer (key.lod + 1) key with
  | some r => r
  | none => none

/-- Source lines 315-321: `createEmptyHeightField( key, numCols, numRows )`. -/
def createEmptyHeightField (key : TileKey) (numCols numRows : Nat) : HeightField :=
  { source := HeightFieldSource.reference key.getGeoExtent numCols numRows
    skirtHeight := none
    scaledToDegrees := 0 }

/-- The call `createEmptyHeightField( key )` with the default arguments of the header. -/
def createEmptyHeightFieldDefault (f : OSGTileFactory) (key : TileKey) : HeightField :=
  createEmptyHeightField key f.emptyNumCols f.emptyNumRows

/-- Source lines 997-1090: `createClusterCullingCallback`. The grid is read through the
elevation layer, which is dereferenced unchecked; without a grid the result is null;
the sample loop itself is floating-point and stands behind `clusterCone`. -/
def createClusterCullingCallback (f : OSGTileFactory) (tile : CustomTile) :
    Except Fault (Option ClusterCullingCallback) :=
  match tile.elevationLayer with
  | none => Except.error Fault.nullDereference
  | some layer =>
    match layer.heightField with
    | none => Except.ok none
    | some grid => Except.ok (f.clusterCone grid tile.verticalScale)

/-- Source lines 587, 468 and 930: the local `isProjected`. -/
def isProjected (map : Map) : Bool :=
  decide (map.coordinateSystemType = CoordinateSystemType.CSTYPE_PROJECTED)

/-- Source lines 588, 469 and 931: the local `isPlateCarre`. -/
def isPlateCarre (map : Map) : Bool :=
  isProjected map && map.srsIsGeographic

/-- Source lines 589, 470 and 932: the local `isGeocentric`, which is not the call
`map->isGeocentric()`. -/
def isGeocentric (map : Map) : Bool :=
  !isProjected map

/-- Source lines 569 and 836: the local `isCube`. -/
def isCube (map : Map) : Bool :=
  decide (map.coordinateSystemType = CoordinateSystemType.CSTYPE_GEOCENTRIC_CUBE)

/-- Source lines 606-620: the image requested from one layer for the key; nothing is
requested when the key is not valid for the layer. -/
def createLayerImage (f : OSGTileFactory) (key : TileKey) (layer : MapLayer) : Option GeoImage :=
  if layer.isKeyValid key then
    match f.L2cache with
    | some cache => cache layer key
    | none => layer.createImage key
  else none

/-- Source lines 606-620: `image_tiles` after the first loop over the image layers. -/
def createLayerImages (f : OSGTileFactory) (imageMapLayers : List MapLayer) (key : TileKey) :
    List (Option GeoImage) :=
  imageMapLayers.map (createLayerImage f key)

/-- Source lines 603 and 621-623: `useMercatorLocator` starts out true and is cleared by
every layer whose `useMercatorFastPath` is set to false. -/
def useMercatorLocator (imageMapLayers : List MapLayer) : Bool :=
  imageMapLayers.foldl
    (fun acc layer => if layer.useMercatorFastPath = some false then false else acc) true

/-- Source lines 629-640: the heightfield before the validity test: asked from the map
without fallback when there are heightfield layers, and synthesized on a geocentric
map at level 0 or 1 when there is none. -/
def firstHeightField (f : OSGTileFactory) (map : Map) (key : TileKey) : Option HeightField :=
  let hf : Option HeightField :=
    if map.heightFieldMapLayers.length > 0 then
      map.createHeightField key false f.terrainOptions.elevationInterpolation
    else none
  if map.isGeocentric && decide (key.getLevelOfDetail ≤ 1) && !hf.isSome then
    some (createEmptyHeightFieldDefault f key)
  else hf

/-- Source lines 644-648: `numValidImages`. -/
def countValidImages (image_tiles : List (Option GeoImage)) : Nat :=
  image_tiles.foldl (fun n image => if image.isSome then n + 1 else n) 0

/-- Source lines 671-689: one pass of the fill-in loop; a slot that has an image is
left alone. -/
def fillMissingImage (map : Map) (key : TileKey) (layer : MapLayer) (slot : Option GeoImage) :
    Option GeoImage :=
  match slot with
  | some image => some image
  | none =>
    let image : Option GeoImage :=
      if layer.isKeyValid key then createValidGeoImage layer key else none
    match image with
    | some image => some image
    | none =>
      some { image := Image.emptyImage, extent := key.getGeoExtent, isMercator := map.srsIsMercator }

/-- Source lines 669-690: the fill-in loop over slot `i` of `imageMapLayers` and
`image_tiles`. -/
def fillMissingImages (map : Map) (key : TileKey) (image_tiles : List (Option GeoImage)) :
    List (Option GeoImage) :=
  List.zipWith (fillMissingImage map key) map.imageMapLayers image_tiles

/-- Source lines 693-714: the heightfield and `hasElevation` after the fill-in. -/
def fillMissingHeightField (f : OSGTileFactory) (map : Map) (key : TileKey)
    (hf : Option HeightField) (hasElevation : Bool) : Option HeightField × Bool :=
  match hf with
  | some h => (some h, hasElevation)
  | none =>
    if map.heightFieldMapLayers.length = 0 then
      (some (createEmptyHeightFieldDefault f key), hasElevation)
    else
      match map.createHeightField key true f.terrainOptions.elevationInterpolation with
      | none => (some (createEmptyHeightFieldDefault f key), hasElevation)
      | some h => (some h, true)

/-- Source lines 776-792: the locator of one image. -/
def imageLocatorKind (map : Map) (isPlateCarre mercatorEnabled : Bool) (geo_image : GeoImage) :
    LocatorKind :=
  if map.srsIsGeographic && geo_image.isMercator && mercatorEnabled then
    LocatorKind.mercator
      (LocatorKind.fromExtent (GeoExtent.toGeographic geo_image.extent) none)
      geo_image.extent
  else LocatorKind.fromExtent geo_image.extent (some isPlateCarre)

/-- Source lines 772-802: the colour layer built for one image of one map layer. -/
def createImageLayerFor (map : Map) (key : TileKey) (isPlateCarre isGeocentric mercatorEnabled : Bool)
    (layer : MapLayer) (geo_image : GeoImage) : TransparentLayer :=
  let img_locator : GeoLocator :=
    { kind := imageLocatorKind map isPlateCarre mercatorEnabled geo_image
      geocentricSet := isGeocentric }
  { image := geo_image.image
    mapLayer := layer
    levelOfDetail := key.getLevelOfDetail
    name := layer.name
    locator := some img_locator
    minFilter := layer.minFilter
    magFilter := layer.magFilter }

/-- Source lines 767-814: the body of the colour-layer loop for one slot: the state is
the tile and the counter `layer`. The unit-per-pixel bookkeeping of lines 804-810 feeds
only the disabled branch of line 824 and is left out. -/
def addImageLayer (map : Map) (key : TileKey) (isPlateCarre isGeocentric mercatorEnabled : Bool)
    (state : CustomTile × Nat) (slot : MapLayer × Option GeoImage) : CustomTile × Nat :=
  match slot.2 with
  | none => state
  | some geo_image =>
    let img_layer :=
      createImageLayerFor map key isPlateCarre isGeocentric mercatorEnabled slot.1 geo_image
    (state.1.setColorLayer state.2 (some img_layer), state.2 + 1)

/-- Source lines 751 and 765-815: the colour-layer loop, with `layer` starting at 0. -/
def addImageLayers (map : Map) (key : TileKey) (isPlateCarre isGeocentric mercatorEnabled : Bool)
    (tile : CustomTile) (image_tiles : List (Option GeoImage)) : CustomTile :=
  ((List.zip map.imageMapLayers image_tiles).foldl
    (addImageLayer map key isPlateCarre isGeocentric mercatorEnabled) (tile, 0)).1

/-- Source lines 867-901: the node handed back for the finished tile. -/
def wrapPopulatedTile (f : OSGTileFactory) (key : TileKey) (tile : CustomTile)
    (bs : BoundingSphere) (min_range max_range : ℚ) (wrapInPagedLOD validData : Bool) : Node :=
  if wrapInPagedLOD then
    let filename := createURI f f.engineId key
    let isBlacklisted := f.isBlacklisted filename
    let rangeList : List (ℚ × ℚ) := [(min_range, max_range)]
    let plod : PagedLOD :=
      if !isBlacklisted && decide (key.getLevelOfDetail < f.terrainOptions.maxLOD) && validData then
        { center := bs.center
          children := [tile]
          rangeList := setSlot ((0 : ℚ), (0 : ℚ)) rangeList 1 (0, min_range)
          fileNames := setSlot "" [""] 1 filename
          cullCallbacks := [] }
      else
        { center := bs.center
          children := [tile]
          rangeList := setSlot ((0 : ℚ), (0 : ℚ)) rangeList 0 (0, FLT_MAX)
          fileNames := [""]
          cullCallbacks := [] }
    Node.pagedLOD
      { plod with
        cullCallbacks :=
          if tile.useLayerRequests then [CullCallback.tileImageBackfill] else [] }
  else Node.tile tile

/-- Source lines 723-741: the heightfield layer and the new tile that carries it. -/
def newPopulatedTile (f : OSGTileFactory) (terrain : CustomTerrain) (key : TileKey)
    (hf : Option HeightField) (hasElevation : Bool) : CustomTile :=
  let locator := GeoLocator.createForKey key
  let hf_layer : HeightFieldLayer := { locator := some locator, heightField := hf }
  let tile : CustomTile :=
    { CustomTile.create f key locator with
      terrainTechnique := some terrain.terrainTechniquePrototype
      verticalScale := some f.terrainOptions.verticalScale
      locator := some locator
      elevationLayer := some hf_layer
      requiresNormals := true }
  if hasElevation && f.terrainOptions.normalizeEdges then { tile with edgeNormalizer := true }
  else tile

/-- A write through a heightfield pointer that the tile's elevation layer shares: the
layer of the tile sees the written heightfield. -/
def withHeightField (tile : CustomTile) (hf : HeightField) : CustomTile :=
  { tile with
    elevationLayer := tile.elevationLayer.map (fun layer => { layer with heightField := some hf }) }

/-- Source lines 835-842: the cluster culler of a populated tile, installed on a
geocentric map that is not a cube. -/
def setClusterCulling (f : OSGTileFactory) (map : Map) (tile : CustomTile) :
    Except Fault CustomTile :=
  if isGeocentric map && !isCube map then
    match createClusterCullingCallback f tile with
    | Except.error e => Except.error e
    | Except.ok ccc => Except.ok { tile with cullCallback := ccc }
  else Except.ok tile

/-- Source lines 853-862: the terrain revision and the layer-request marks. -/
def stampPopulatedTile (f : OSGTileFactory) (terrain : CustomTerrain) (key : TileKey)
    (hasElevation : Bool) (tile : CustomTile) : CustomTile :=
  let tile : CustomTile := { tile with terrainRevision := some terrain.revision }
  if decide (f.terrainOptions.loadingPolicyMode ≠ LoadingPolicyMode.MODE_STANDARD)
      && decide (key.getLevelOfDetail ≠ 0) then
    { tile with useLayerRequests := true, hasElevationHint := some hasElevation }
  else tile

/-- Source lines 723-815: the new tile with its heightfield layer and its colour
layers. -/
def assemblePopulatedTile (f : OSGTileFactory) (map : Map) (terrain : CustomTerrain)
    (key : TileKey) (image_tiles : List (Option GeoImage)) (hf : Option HeightField)
    (hasElevation : Bool) : CustomTile :=
  addImageLayers map key (isPlateCarre map) (isGeocentric map)
    (useMercatorLocator map.imageMapLayers)
    (newPopulatedTile f terrain key hf hasElevation) image_tiles

/-- Source lines 817-903: ranges, skirt, cluster culler, registration and wrapping of
the assembled tile. The skirt is written through the pointer `hf`, which is
dereferenced unchecked. The terrain keeps a pointer to the tile, so the tile it
registers is the tile in its final state. -/
def sealPopulatedTile (f : OSGTileFactory) (map : Map) (terrain : CustomTerrain)
    (key : TileKey) (wrapInPagedLOD validData hasElevation : Bool) (tile : CustomTile)
    (hf : Option HeightField) : Except Fault TileResult :=
  let bs := f.getBound tile
  let max_range : ℚ := 10000000000
  let radius := bs.radius
  let min_range := radius * f.terrainOptions.minTileRangeFactor
  match hf with
  | none => Except.error Fault.nullDereference
  | some h =>
    let tile := withHeightField tile (h.setSkirtHeight (radius * f.terrainOptions.heightFieldSkirtRatio))
    match setClusterCulling f map tile with
    | Except.error e => Except.error e
    | Except.ok tile =>
      let tile := stampPopulatedTile f terrain key hasElevation tile
      Except.ok
        { node := some (wrapPopulatedTile f key tile bs min_range max_range wrapInPagedLOD validData)
          validData := validData
          terrain := terrain.registerTile tile }

/-- Source lines 668-903: the part of `createPopulatedTile` after the validity test. -/
def finishPopulatedTile (f : OSGTileFactory) (map : Map) (terrain : CustomTerrain)
    (key : TileKey) (wrapInPagedLOD : Bool) (image_tiles : List (Option GeoImage))
    (hf : Option HeightField) (hasElevation validData : Bool) : Except Fault TileResult :=
  let image_tiles := fillMissingImages map key image_tiles
  let filled := fillMissingHeightField f map key hf hasElevation
  let hasElevation := filled.2
  let hf : Option HeightField :=
    if isPlateCarre map then filled.1.map scaleHeightFieldToDegrees else filled.1
  let tile := assemblePopulatedTile f map terrain key image_tiles hf hasElevation
  sealPopulatedTile f map terrain key wrapInPagedLOD validData hasElevation tile hf

/-- Source lines 600-652: the test "couldn't create any imagery or heightfields" of
line 652, with `empty_map` of line 600. -/
def couldNotCreateAny (f : OSGTileFactory) (map : Map) (key : TileKey) : Bool :=
  let empty_map :=
    decide (map.imageMapLayers.length = 0) && decide (map.heightFieldMapLayers.length = 0)
  let image_tiles := createLayerImages f map.imageMapLayers key
  let hf := firstHeightField f map key
  let numValidImages := countValidImages image_tiles
  !hf.isSome && decide (numValidImages = 0) && !empty_map

/-- Source lines 582-904: `createPopulatedTile`. -/
def createPopulatedTile (f : OSGTileFactory) (map : Map) (terrain : CustomTerrain)
    (key : TileKey) (wrapInPagedLOD fallback : Bool) : Except Fault TileResult :=
  let image_tiles := createLayerImages f map.imageMapLayers key
  let hf := firstHeightField f map key
  let hasElevation := hf.isSome
  if couldNotCreateAny f map key then
    if !fallback then
      Except.ok { node := none, validData := false, terrain := terrain }
    else
      finishPopulatedTile f map terrain key wrapInPagedLOD image_tiles hf hasElevation false
  else
    finishPopulatedTile f map terrain key wrapInPagedLOD image_tiles hf hasElevation true

/-- Source lines 339-359: `addPlaceholderImageLayers`. -/
def addPlaceholderImageLayers (tile : CustomTile) (ancestorTile : Option CustomTile) : CustomTile :=
  match ancestorTile with
  | none => tile
  | some ancestor =>
    (List.range ancestor.getNumColorLayers).foldl
      (fun t j => t.setColorLayer j (ancestor.getColorLayer j)) tile

/-- Source lines 371-390: the layer built from the ancestor's heightfield, when the
ancestor has one; the state is the tile and `newHFLayer`. -/
def inheritHeightfieldLayer (tile : CustomTile) (ancestorTile : Option CustomTile)
    (defaultLocator : GeoLocator) (key ancestorKey : TileKey) :
    CustomTile × Option HeightFieldLayer :=
  match ancestorTile with
  | none => (tile, none)
  | some ancestor =>
    if ancestorKey.valid then
      match ancestor.elevationLayer with
      | none => (tile, none)
      | some ancestorLayer =>
        match ancestorLayer.heightField with
        | none => (tile, none)
        | some ancestorHF =>
          let newHF := createSubSample ancestorHF ancestorKey.getGeoExtent key.getGeoExtent
          let newHFLayer : HeightFieldLayer :=
            { heightField := some newHF, locator := some defaultLocator }
          ({ tile with elevationLayer := some newHFLayer, elevationLOD := ancestor.elevationLOD },
            some newHFLayer)
    else (tile, none)

/-- Source lines 362-404: `addPlaceholderHeightfieldLayer`. -/
def addPlaceholderHeightfieldLayer (tile : CustomTile) (ancestorTile : Option CustomTile)
    (defaultLocator : GeoLocator) (key ancestorKey : TileKey) : CustomTile :=
  let inherited := inheritHeightfieldLayer tile ancestorTile defaultLocator key ancestorKey
  let state : CustomTile × Option HeightFieldLayer :=
    match inherited.2 with
    | some layer => (inherited.1, some layer)
    | none =>
      ({ inherited.1 with elevationLOD := -1 },
        some { heightField := some (createEmptyHeightField key 8 8), locator := some defaultLocator })
  match state.2 with
  | some layer => { state.1 with elevationLayer := some layer }
  | none => state.1

/-- Source lines 453-458: the ancestor search of `createPlaceholderTile`, run for at most
`fuel` iterations; the state is `ancestorTile` and `ancestorKey`. The outer `none`
means that the iterations were used up before the loop was left. -/
def findAncestorLoop (terrain : CustomTerrain) :
    Nat → Option CustomTile → TileKey → Option (Option CustomTile × TileKey)
  | 0, ancestorTile, ancestorKey =>
    if !ancestorTile.isSome && ancestorKey.valid then none else some (ancestorTile, ancestorKey)
  | fuel + 1, ancestorTile, ancestorKey =>
    if !ancestorTile.isSome && ancestorKey.valid then
      match terrain.getCustomTile ancestorKey.getTileId with
      | some found => findAncestorLoop terrain fuel (some found) ancestorKey
      | none => findAncestorLoop terrain fuel none ancestorKey.createParentKey
    else some (ancestorTile, ancestorKey)

/-- Source lines 451-458: the nearest registered ancestor and its key. The loop gets
`level + 1` iterations, which `findAncestorLoop_terminates` shows to be enough. -/
def findAncestor (terrain : CustomTerrain) (key : TileKey) : Option CustomTile × TileKey :=
  match findAncestorLoop terrain (key.lod + 1) none key.createParentKey with
  | some r => r
  | none => (none, TileKey.INVALID)

/-- Source lines 485-497: the empty tile of a placeholder build. -/
def newPlaceholderTile (f : OSGTileFactory) (map : Map) (terrain : CustomTerrain)
    (key : TileKey) : CustomTile :=
  let hasElevation := decide (map.heightFieldMapLayers.length > 0)
  let locator := GeoLocator.createForKey key
  let tile : CustomTile :=
    { CustomTile.create f key locator with
      terrainTechnique := some terrain.terrainTechniquePrototype
      verticalScale := some f.terrainOptions.verticalScale
      requiresNormals := true
      locator := some locator }
  if hasElevation && f.terrainOptions.normalizeEdges then { tile with edgeNormalizer := true }
  else tile

/-- Source lines 525-536: the layer-request marks and the terrain revision of a
placeholder tile. -/
def stampPlaceholderTile (f : OSGTileFactory) (map : Map) (terrain : CustomTerrain)
    (tile : CustomTile) : CustomTile :=
  let hasElevation := decide (map.heightFieldMapLayers.length > 0)
  let tile : CustomTile :=
    if decide (f.terrainOptions.loadingPolicyMode ≠ LoadingPolicyMode.MODE_STANDARD) then
      { tile with useLayerRequests := true, hasElevationHint := some hasElevation }
    else tile
  { tile with terrainRevision := some terrain.revision }

/-- Source lines 543-566: the paged LOD of a placeholder tile with its backfill
callback. -/
def placeholderPagedLOD (f : OSGTileFactory) (key : TileKey) (tile : CustomTile)
    (bs : BoundingSphere) (min_range max_range : ℚ) : PagedLOD :=
  let rangeList : List (ℚ × ℚ) := [(min_range, max_range)]
  if key.getLevelOfDetail < f.terrainOptions.maxLOD then
    { center := bs.center
      children := [tile]
      rangeList := setSlot ((0 : ℚ), (0 : ℚ)) rangeList 1 (0, min_range)
      fileNames := setSlot "" [""] 1 (createURI f f.engineId key)
      cullCallbacks := [CullCallback.tileImageBackfill] }
  else
    { center := bs.center
      children := [tile]
      rangeList := setSlot ((0 : ℚ), (0 : ℚ)) rangeList 0 (0, FLT_MAX)
      fileNames := [""]
      cullCallbacks := [CullCallback.tileImageBackfill] }

/-- Source lines 568-574: the cluster culler of a placeholder, added to the paged LOD on
a geocentric map that is not a cube. -/
def addClusterCulling (f : OSGTileFactory) (map : Map) (tile : CustomTile) (plod : PagedLOD) :
    Except Fault PagedLOD :=
  if isGeocentric map && !isCube map then
    match createClusterCullingCallback f tile with
    | Except.error e => Except.error e
    | Except.ok ccc =>
      Except.ok
        { plod with cullCallbacks := plod.cullCallbacks ++ [CullCallback.clusterCulling ccc] }
  else Except.ok plod

/-- Source lines 445-580: `createPlaceholderTile`; the result is the returned node and
the terrain after the call. -/
def createPlaceholderTile (f : OSGTileFactory) (map : Map) (terrain : CustomTerrain)
    (key : TileKey) : Except Fault (Option Node × CustomTerrain) :=
  let found := findAncestor terrain key
  let ancestorKey := found.2
  match found.1 with
  | none => Except.ok (none, terrain)
  | some ancestorTile =>
    let locator := GeoLocator.createForKey key
    let tile := newPlaceholderTile f map terrain key
    let tile := addPlaceholderImageLayers tile (some ancestorTile)
    let tile := addPlaceholderHeightfieldLayer tile (some ancestorTile) locator key ancestorKey
    let bs := f.getBound tile
    let max_range : ℚ := 10000000000
    let radius := bs.radius
    let min_range := radius * f.terrainOptions.minTileRangeFactor
    match tile.elevationLayer with
    | none => Except.error Fault.nullDereference
    | some hfLayer =>
      match hfLayer.heightField with
      | none => Except.error Fault.nullDereference
      | some hf =>
        let hf := hf.setSkirtHeight (radius * f.terrainOptions.heightFieldSkirtRatio)
        let hf := if isPlateCarre map then scaleHeightFieldToDegrees hf else hf
        let tile := withHeightField tile hf
        let tile := stampPlaceholderTile f map terrain tile
        let plod := placeholderPagedLOD f key tile bs min_range max_range
        match addClusterCulling f map tile plod with
        | Except.error e => Except.error e
        | Except.ok plod => Except.ok (some (Node.pagedLOD plod), terrain.registerTile tile)

/-- Source lines 428-441: `createTile`; the `validData` reference is the field of the
result. -/
def createTile (f : OSGTileFactory) (map : Map) (terrain : CustomTerrain) (key : TileKey)
    (populateLayers wrapInPagedLOD fallback : Bool) : Except Fault TileResult :=
  if populateLayers then
    createPopulatedTile f map terrain key wrapInPagedLOD fallback
  else
    let validData := true
    match createPlaceholderTile f map terrain key with
    | Except.error e => Except.error e
    | Except.ok r => Except.ok { node := r.1, validData := validData, terrain := r.2 }

/-- Source lines 165-183: one quadrant of the fallback pass: a quadrant whose node is
null is built again with `fallback = true`; the state is the node and the terrain. -/
def retryQuadrant (f : OSGTileFactory) (map : Map) (populateLayers : Bool) (k : TileKey)
    (q : Option Node) (terrain : CustomTerrain) : Except Fault (Option Node × CustomTerrain) :=
  match q with
  | some node => Except.ok (some node, terrain)
  | none =>
    match createTile f map terrain k populateLayers true true with
    | Except.error e => Except.error e
    | Except.ok r => Except.ok (r.node, r.terrain)

/-- Source lines 130-190: `createSubTiles`; the result is the returned node and the
terrain after the call. -/
def createSubTiles (f : OSGTileFactory) (map : Map) (terrain : CustomTerrain) (key : TileKey)
    (populateLayers : Bool) : Except Fault (Option Node × CustomTerrain) := do
  let k0 := key.createChildKey 0
  let k1 := key.createChildKey 1
  let k2 := key.createChildKey 2
  let k3 := key.createChildKey 3
  let hasValidData := false
  let fallback := false
  let r0 ← createTile f map terrain k0 populateLayers true fallback
  let hasValidData := if !hasValidData && r0.validData then true else hasValidData
  let r1 ← createTile f map r0.terrain k1 populateLayers true fallback
  let hasValidData := if !hasValidData && r1.validData then true else hasValidData
  let r2 ← createTile f map r1.terrain k2 populateLayers true fallback
  let hasValidData := if !hasValidData && r2.validData then true else hasValidData
  let r3 ← createTile f map r2.terrain k3 populateLayers true fallback
  let hasValidData := if !hasValidData && r3.validData then true else hasValidData
  if !hasValidData then
    pure (none, r3.terrain)
  else
    let q0 ← retryQuadrant f map populateLayers k0 r0.node r3.terrain
    let q1 ← retryQuadrant f map populateLayers k1 r1.node q0.2
    let q2 ← retryQuadrant f map populateLayers k2 r2.node q1.2
    let q3 ← retryQuadrant f map populateLayers k3 r3.node q2.2
    pure (some (Node.group [q0.1, q1.1, q2.1, q3.1]), q3.2)

/-- Source lines 260-269 and 290-299: the keys of a layer that cover the key: the key
itself when the map's profile is equivalent to the layer's, otherwise the layer
profile's intersecting tiles. -/
def layerKeys (map : Map) (layer : MapLayer) (key : TileKey) : List TileKey :=
  if map.isEquivalentTo layer.profile then [key]
  else layer.getIntersectingTiles key

/-- Source lines 271-280 and 301-310: the loop over the keys of one layer; `false` is
the `return false` of the loop, `true` means that the loop ran to its end. -/
def keysCached (layer : MapLayer) (cache : Cache) : List TileKey → Bool
  | [] => true
  | k :: rest =>
    if layer.isKeyValid k then
      if !cache.isCached k layer.name layer.cacheFormat then false
      else keysCached layer cache rest
    else keysCached layer cache rest

/-- Source lines 254-281 and 284-311: the loop over a layer list; `false` is a
`return false` inside the loop, `true` means that the loop ran to its end. -/
def layersCached (map : Map) (key : TileKey) : List MapLayer → Bool
  | [] => true
  | layer :: rest =>
    match layer.cache with
    | none => false
    | some cache =>
      if keysCached layer cache (layerKeys map layer key) then layersCached map key rest
      else false

/-- Source lines 246-313: `isCached`: the imagery layers, then the elevation layers. -/
def isCached (map : Map) (key : TileKey) : Bool :=
  if layersCached map key map.imageMapLayers then
    layersCached map key map.heightFieldMapLayers
  else false

/-- The fixed suffix of a child URI (source line 109). -/
def uriSuffix : String := ".osgearth_osgterrain_tile"

/-- The number written by a string of decimal digits. -/
def digitsValue (cs : List Char) : Nat :=
  cs.foldl (fun acc c => acc * 10 + (c.toNat - 48)) 0

/-- Modelled from the spec: the decoding of a child URI, whose code (the pager plugin)
is not part of the factory file: strip the fixed suffix, split at the last remaining
dot, read the engine id after it and the key string before it. -/
def decodeURI (uri : String) : Option (Nat × String) :=
  let cs := uri.data
  let n := uriSuffix.data.length
  if cs.drop (cs.length - n) = uriSuffix.data then
    let body := (cs.take (cs.length - n)).reverse
    match body.dropWhile (fun c => c != '.') with
    | [] => none
    | _ :: keyReversed =>
      some (digitsValue (body.takeWhile (fun c => c != '.')).reverse,
        String.mk keyReversed.reverse)
  else none

/-- Source lines 485-505: the placeholder tile with the imagery and elevation layers
inherited from the ancestor, as it is when its bound is taken. -/
def inheritedPlaceholderTile (f : OSGTileFactory) (map : Map) (terrain : CustomTerrain)
    (key : TileKey) (ancestorTile : CustomTile) (ancestorKey : TileKey) : CustomTile :=
  addPlaceholderHeightfieldLayer
    (addPlaceholderImageLayers (newPlaceholderTile f map terrain key) (some ancestorTile))
    (some ancestorTile) (GeoLocator.createForKey key) key ancestorKey

/-- Source lines 606-815: the tile of a populated build as it is when its bound is
taken (line 817): assembled from the filled-in images and the filled-in heightfield. -/
def assembledPopulatedTile (f : OSGTileFactory) (map : Map) (terrain : CustomTerrain)
    (key : TileKey) : CustomTile :=
  let filled := fillMissingHeightField f map key (firstHeightField f map key)
    (firstHeightField f map key).isSome
  assemblePopulatedTile f map terrain key
    (fillMissingImages map key (createLayerImages f map.imageMapLayers key))
    (if isPlateCarre map then filled.1.map scaleHeightFieldToDegrees else filled.1) filled.2

/-- Rounding of a rational to the nearest integer, a tie going to the even one. -/
def roundHalfEven (q : ℚ) : ℤ :=
  let f := ⌊q⌋
  let r := q - f
  if r < 1 / 2 then f
  else if 1 / 2 < r then f + 1
  else if f % 2 = 0 then f else f + 1

/-- The exponent of the spacing of the `float` values around `q`: 24 significant bits
in the normal range, and the fixed spacing `2 ^ (-149)` of the subnormal range below
`2 ^ (-126)`. -/
def floatUlpExponent (q : ℚ) : ℤ :=
  max (Int.log 2 |q| - 23) (-149)

/-- The conversion of a `double` to `float` (IEEE 754 binary32, round to nearest, ties
to even) that a `float` parameter applies to its argument. Values beyond the `float`
range, which the conversion maps to infinity, have no counterpart among the rationals
and are left as they round. -/
def narrowToFloat (q : ℚ) : ℚ :=
  (roundHalfEven (q / 2 ^ floatUlpExponent q) : ℚ) * 2 ^ floatUlpExponent q

/-- The call `hf->getSkirtHeight()`. The skirt height of an `osg::HeightField` is a
`float` member written by `setSkirtHeight( float )`: what is read back is the `float`
nearest to the value last passed in, and the 0 of the constructor when none was. -/
def getSkirtHeight (hf : HeightField) : ℚ :=
  narrowToFloat (hf.skirtHeight.getD 0)

/-- Source lines 407-426: `createPlaceholderHeightfieldLayer`; the ancestor heightfield
is dereferenced unchecked. The quotient `ancestorHF->getSkirtHeight() / 2.0` is a
`double`, in which the half of a `float` is exact; the `float` parameter of
`setSkirtHeight` narrows it. -/
def createPlaceholderHeightfieldLayer (ancestorHF : Option HeightField)
    (ancestorKey key : TileKey) (keyLocator : Option GeoLocator) :
    Except Fault HeightFieldLayer :=
  match ancestorHF with
  | none => Except.error Fault.nullDereference
  | some ancestor =>
    let newHF := createSubSample ancestor ancestorKey.getGeoExtent key.getGeoExtent
    let newHF := newHF.setSkirtHeight (narrowToFloat (getSkirtHeight ancestor / 2))
    Except.ok { heightField := some newHF, locator := keyLocator }

/-- The conversion of an `int` to `unsigned int` that C++ applies to `maxLevel` when it
is compared with the unsigned level of a key. -/
def toUnsigned (m : Int) : Nat :=
  (m % 4294967296).toNat

/-- Source lines 223-230 and 233-240: the loop over a layer list of `hasMoreLevels`;
`true` is the `break` with `more_levels = true`, `false` means that the loop ran to
its end. -/
def moreLevelsIn (key : TileKey) : List MapLayer → Bool
  | [] => false
  | layer :: rest =>
    match layer.maxLevel with
    | none => true
    | some m =>
      if key.getLevelOfDetail < toUnsigned m then true
      else moreLevelsIn key rest

/-- Source lines 215-244: `hasMoreLevels`. -/
def hasMoreLevels (map : Map) (key : TileKey) : Bool :=
  let more_levels := moreLevelsIn key map.imageMapLayers
  if !more_levels then moreLevelsIn key map.heightFieldMapLayers
  else more_levels

/-- Source lines 965-995: `createHeightFieldLayer`. -/
def createHeightFieldLayer (f : OSGTileFactory) (map : Map) (key : TileKey)
    (exactOnly : Bool) : Option HeightFieldLayer :=
  let hf := map.createHeightField key (!exactOnly) f.terrainOptions.elevationInterpolation
  let filled : Option HeightField :=
    match hf with
    | some h => some h
    | none => if exactOnly then none else some (createEmptyHeightFieldDefault f key)
  match filled with
  | none => none
  | some h =>
    let h := if isPlateCarre map then scaleHeightFieldToDegrees h else h
    some { heightField := some h, locator := some (GeoLocator.createForKey key) }

end OSGTileFactory

/-! ## Sample inputs -/

namespace Sample

/-- Terrain options of the samples: standard loading policy, levels up to 23. -/
def options : OSGTerrainOptions :=
  { verticalScale := 1
    normalizeEdges := false
    minTileRangeFactor := 6
    heightFieldSkirtRatio := 0
    loadingPolicyMode := LoadingPolicyMode.MODE_STANDARD
    maxLOD := 23
    elevationInterpolation := ElevationInterpolation.INTERP_BILINEAR }

/-- A factory without L2 cache and without blacklisted names. -/
def factory : OSGTileFactory :=
  { engineId := 1
    terrainOptions := options
    L2cache := none
    keyStr := fun k => toString k.lod ++ "_" ++ toString k.x ++ "_" ++ toString k.y
    isBlacklisted := fun _ => false
    getBound := fun _ => { center := (0, 0, 0), radius := 100 }
    clusterCone := fun _ _ => none
    emptyNumCols := 8
    emptyNumRows := 8
    initialElevationLOD := fun k => k.lod }

/-- A terrain without registered tiles. -/
def emptyTerrain : CustomTerrain :=
  { tiles := [], revision := 0, terrainTechniquePrototype := 0 }

/-- An image layer that has data down to level 1 only: keys of level 2 and deeper are
not valid for it, and every valid key gets an image named after its level. -/
def shallowLayer : MapLayer :=
  { name := "shallow"
    isKeyValid := fun k => decide (k.lod ≤ 1)
    createImage := fun k =>
      some { image := Image.pixels k.lod, extent := GeoExtent.ofKey k, isMercator := false }
    useMercatorFastPath := none
    maxLevel := some 1
    minFilter := 0
    magFilter := 0
    profile := 0
    getIntersectingTiles := fun k => [k]
    cache := none
    cacheFormat := "" }

/-- An image layer for which no key is valid, so that it never delivers an image. -/
def silentLayer : MapLayer :=
  { name := "silent"
    isKeyValid := fun _ => false
    createImage := fun _ => none
    useMercatorFastPath := none
    maxLevel := none
    minFilter := 0
    magFilter := 0
    profile := 0
    getIntersectingTiles := fun k => [k]
    cache := none
    cacheFormat := "" }

/-- A projected map whose only layer is `shallowLayer`. -/
def shallowMap : Map :=
  { imageMapLayers := [shallowLayer]
    heightFieldMapLayers := []
    coordinateSystemType := CoordinateSystemType.CSTYPE_PROJECTED
    isGeocentric := false
    srsIsGeographic := false
    srsIsMercator := true
    profile := 0
    createHeightField := fun _ _ _ => none }

/-- A geocentric map whose only layer is `silentLayer`. -/
def silentGlobe : Map :=
  { imageMapLayers := [silentLayer]
    heightFieldMapLayers := []
    coordinateSystemType := CoordinateSystemType.CSTYPE_GEOCENTRIC
    isGeocentric := true
    srsIsGeographic := true
    srsIsMercator := false
    profile := 0
    createHeightField := fun _ _ _ => none }

/-- A geocentric map with two image layers and no heightfield layer. -/
def twoLayerGlobe : Map :=
  { imageMapLayers := [shallowLayer, silentLayer]
    heightFieldMapLayers := []
    coordinateSystemType := CoordinateSystemType.CSTYPE_GEOCENTRIC
    isGeocentric := true
    srsIsGeographic := true
    srsIsMercator := false
    profile := 0
    createHeightField := fun _ _ _ => none }

/-- A geocentric map without any layer. -/
def emptyGlobe : Map :=
  { imageMapLayers := []
    heightFieldMapLayers := []
    coordinateSystemType := CoordinateSystemType.CSTYPE_GEOCENTRIC
    isGeocentric := true
    srsIsGeographic := true
    srsIsMercator := false
    profile := 0
    createHeightField := fun _ _ _ => none }

/-- A key of level 2 in profile 0. -/
def keyL2 : TileKey := { lod := 2, x := 1, y := 1, profile := some 0 }

/-- A key of level 1 in profile 0. -/
def keyL1 : TileKey := { lod := 1, x := 0, y := 1, profile := some 0 }

/-- The key of level 0 in profile 0. -/
def rootKey : TileKey := { lod := 0, x := 0, y := 0, profile := some 0 }

/-- A cache that holds nothing. -/
def coldCache : Cache := { isCached := fun _ _ _ => false }

/-- An image layer with a cold cache for which no key is valid. -/
def coldLayer : MapLayer :=
  { name := "cold"
    isKeyValid := fun _ => false
    createImage := fun _ => none
    useMercatorFastPath := none
    maxLevel := none
    minFilter := 0
    magFilter := 0
    profile := 0
    getIntersectingTiles := fun k => [k]
    cache := some coldCache
    cacheFormat := "png" }

/-- A geocentric map whose only layer is `coldLayer`. -/
def coldGlobe : Map :=
  { imageMapLayers := [coldLayer]
    heightFieldMapLayers := []
    coordinateSystemType := CoordinateSystemType.CSTYPE_GEOCENTRIC
    isGeocentric := true
    srsIsGeographic := true
    srsIsMercator := false
    profile := 0
    createHeightField := fun _ _ _ => none }

/-- The terrain after a populated build of the root key on `twoLayerGlobe`: it has
the root tile registered. -/
def rootTerrain : CustomTerrain :=
  match OSGTileFactory.createPopulatedTile factory twoLayerGlobe emptyTerrain rootKey true true with
  | Except.ok r => r.terrain
  | Except.error _ => emptyTerrain

/-- An image layer that delivers a Mercator image for every key. -/
def mercatorLayer : MapLayer :=
  { name := "mercator"
    isKeyValid := fun _ => true
    createImage := fun k =>
      some { image := Image.pixels k.lod, extent := GeoExtent.ofKey k, isMercator := true }
    useMercatorFastPath := none
    maxLevel := some 5
    minFilter := 0
    magFilter := 0
    profile := 1
    getIntersectingTiles := fun k => [k]
    cache := none
    cacheFormat := "" }

/-- A Mercator layer that switches the Mercator fast path off. -/
def slowMercatorLayer : MapLayer :=
  { mercatorLayer with name := "slow", useMercatorFastPath := some false }

/-- A geocentric, geographic map with one Mercator layer that leaves the fast path
unset. -/
def mercatorGlobe : Map :=
  { imageMapLayers := [mercatorLayer]
    heightFieldMapLayers := []
    coordinateSystemType := CoordinateSystemType.CSTYPE_GEOCENTRIC
    isGeocentric := true
    srsIsGeographic := true
    srsIsMercator := false
    profile := 0
    createHeightField := fun _ _ _ => none }

/-- The same map with a second Mercator layer that switches the fast path off. -/
def slowMercatorGlobe : Map :=
  { mercatorGlobe with imageMapLayers := [mercatorLayer, slowMercatorLayer] }

/-- Terrain options with the preemptive loading policy. -/
def preemptiveOptions : OSGTerrainOptions :=
  { options with loadingPolicyMode := LoadingPolicyMode.MODE_PREEMPTIVE }

/-- The sample factory with the preemptive loading policy. -/
def preemptiveFactory : OSGTileFactory :=
  { factory with terrainOptions := preemptiveOptions }

/-- An image layer that has data in the western column of every level only: a key is
valid for it when its column number is even. -/
def westLayer : MapLayer :=
  { shallowLayer with name := "west", isKeyValid := fun k => decide (k.x % 2 = 0) }

/-- A projected map whose only layer is `westLayer`. -/
def westMap : Map :=
  { shallowMap with imageMapLayers := [westLayer] }

/-- A heightfield whose skirt height is the smallest positive `float`, `2 ^ (-149)`. -/
def tinySkirtField : HeightField :=
  { source := HeightFieldSource.mapData 7, skirtHeight := some (1 / 2 ^ 149), scaledToDegrees := 0 }

/-- A heightfield with skirt height 6. -/
def skirtSixField : HeightField :=
  { source := HeightFieldSource.mapData 7, skirtHeight := some 6, scaledToDegrees := 0 }

/-- A terrain whose only tile is a root tile that carries no elevation layer. -/
def bareRootTerrain : CustomTerrain :=
  { emptyTerrain with
    tiles := [CustomTile.create factory rootKey (GeoLocator.createForKey rootKey)] }

/-- The terrain after a placeholder build of the parent of `keyL2` on `bareRootTerrain`:
it holds the root tile and the level-1 placeholder, whose elevation was synthesized. -/
def synthesizedTerrain : CustomTerrain :=
  match OSGTileFactory.createPlaceholderTile factory twoLayerGlobe bareRootTerrain
      keyL2.createParentKey with
  | Except.ok r => r.2
  | Except.error _ => bareRootTerrain

end Sample

/-! ## Termination of the ancestor walks -/

namespace OSGTileFactory

theorem createValidGeoImageLoop_terminates (layer : MapLayer) (fuel : Nat) :
    ∀ key : TileKey, (key.valid = true → key.lod < fuel) →
      ∃ r, createValidGeoImageLoop layer fuel key = some r := by
  induction fuel with
  | zero =>
    intro key h
    have hv : key.valid = false := by
      cases hk : key.valid with
      | false => rfl
      | true => exact absurd (h hk) (Nat.not_lt_zero _)
    exact ⟨none, by simp [createValidGeoImageLoop, hv]⟩
  | succ n ih =>
    intro key h
    have hp : key.createParentKey.valid = true → key.createParentKey.lod < n := by
      intro hpv
      by_cases h0 : key.lod = 0
      · simp [TileKey.createParentKey, h0, TileKey.INVALID, TileKey.valid] at hpv
      · have hkv : key.valid = true := by
          simpa [TileKey.createParentKey, h0, TileKey.valid] using hpv
        have := h hkv
        simp only [TileKey.createParentKey, h0, if_false]
        omega
    obtain ⟨r, hr⟩ := ih key.createParentKey hp
    unfold createValidGeoImageLoop
    split
    · split
      · split
        · exact ⟨_, rfl⟩
        · exact ⟨r, hr⟩
      · exact ⟨r, hr⟩
    · exact ⟨none, rfl⟩

theorem setSlot_at_length {α : Type} (d : α) (xs : List α) (v : α) :
    setSlot d xs xs.length v = xs ++ [v] := by
  simp [setSlot]

/-- The colour layers that the colour-layer loop builds for a list of slots: one for
each slot that holds an image, in slot order. -/
theorem addImageLayer_foldl (map : Map) (key : TileKey) (pc gc me : Bool)
    (slots : List (MapLayer × Option GeoImage)) :
    ∀ tile : CustomTile,
      slots.foldl (addImageLayer map key pc gc me) (tile, tile.colorLayers.length) =
        ({ tile with
            colorLayers := tile.colorLayers ++
              (slots.filterMap
                (fun s => s.2.map (createImageLayerFor map key pc gc me s.1))).map some },
          tile.colorLayers.length +
            (slots.filterMap
              (fun s => s.2.map (createImageLayerFor map key pc gc me s.1))).length) := by
  induction slots with
  | nil => intro tile; simp
  | cons s rest ih =>
    intro tile
    obtain ⟨l, o⟩ := s
    cases o with
    | none => simpa [addImageLayer] using ih tile
    | some g =>
      have h := ih (tile.setColorLayer tile.colorLayers.length
        (some (createImageLayerFor map key pc gc me l g)))
      simp only [CustomTile.setColorLayer, setSlot_at_length, List.length_append,
        List.length_singleton] at h
      simp only [List.foldl_cons, addImageLayer, CustomTile.setColorLayer, setSlot_at_length]
      rw [h]
      simp [Nat.add_assoc, Nat.add_comm]

theorem fillMissingImage_isSome (map : Map) (key : TileKey) (layer : MapLayer)
    (slot : Option GeoImage) : ∃ g, fillMissingImage map key layer slot = some g := by
  unfold fillMissingImage
  split
  · exact ⟨_, rfl⟩
  · simp only []
    split
    · exact ⟨_, rfl⟩
    · exact ⟨_, rfl⟩

theorem fillMissingHeightField_isSome (f : OSGTileFactory) (map : Map) (key : TileKey)
    (hf : Option HeightField) (he : Bool) :
    ∃ h, (fillMissingHeightField f map key hf he).1 = some h := by
  unfold fillMissingHeightField
  split
  · exact ⟨_, rfl⟩
  · split
    · exact ⟨_, rfl⟩
    · split
      · exact ⟨_, rfl⟩
      · exact ⟨_, rfl⟩

/-! ## The stages of a populated tile -/

theorem newPopulatedTile_colorLayers (f : OSGTileFactory) (terrain : CustomTerrain)
    (key : TileKey) (hf : Option HeightField) (he : Bool) :
    (newPopulatedTile f terrain key hf he).colorLayers = [] := by
  unfold newPopulatedTile
  simp only []
  split <;> rfl

theorem newPopulatedTile_elevationLayer (f : OSGTileFactory) (terrain : CustomTerrain)
    (key : TileKey) (hf : Option HeightField) (he : Bool) :
    (newPopulatedTile f terrain key hf he).elevationLayer =
      some { locator := some (GeoLocator.createForKey key), heightField := hf } := by
  unfold newPopulatedTile
  simp only []
  split <;> rfl

theorem addImageLayers_eq (map : Map) (key : TileKey) (pc gc me : Bool) (tile : CustomTile)
    (imgs : List (Option GeoImage)) (h0 : tile.colorLayers = []) :
    addImageLayers map key pc gc me tile imgs =
      { tile with
        colorLayers :=
          ((List.zip map.imageMapLayers imgs).filterMap
            (fun s => s.2.map (createImageLayerFor map key pc gc me s.1))).map some } := by
  have h := addImageLayer_foldl map key pc gc me (List.zip map.imageMapLayers imgs) tile
  simp only [h0, List.length_nil, List.nil_append] at h
  simp only [addImageLayers, h]

theorem withHeightField_colorLayers (tile : CustomTile) (hf : HeightField) :
    (withHeightField tile hf).colorLayers = tile.colorLayers := rfl

theorem withHeightField_elevationLayer (tile : CustomTile) (hf : HeightField)
    (layer : HeightFieldLayer) (h : tile.elevationLayer = some layer) :
    (withHeightField tile hf).elevationLayer = some { layer with heightField := some hf } := by
  simp [withHeightField, h]

theorem setClusterCulling_ok (f : OSGTileFactory) (map : Map) (tile : CustomTile)
    (layer : HeightFieldLayer) (h : tile.elevationLayer = some layer) :
    ∃ t, setClusterCulling f map tile = Except.ok t ∧ t.colorLayers = tile.colorLayers ∧
      t.elevationLayer = tile.elevationLayer := by
  unfold setClusterCulling
  split
  · simp only [createClusterCullingCallback, h]
    cases layer.heightField with
    | none => exact ⟨_, rfl, rfl, rfl⟩
    | some g => exact ⟨_, rfl, rfl, rfl⟩
  · exact ⟨_, rfl, rfl, rfl⟩

theorem assemblePopulatedTile_colorLayers (f : OSGTileFactory) (map : Map)
    (terrain : CustomTerrain) (key : TileKey) (imgs : List (Option GeoImage))
    (hf : Option HeightField) (he : Bool) :
    (assemblePopulatedTile f map terrain key imgs hf he).colorLayers =
      ((List.zip map.imageMapLayers imgs).filterMap
        (fun s => s.2.map (createImageLayerFor map key (isPlateCarre map) (isGeocentric map)
          (useMercatorLocator map.imageMapLayers) s.1))).map some := by
  unfold assemblePopulatedTile
  rw [addImageLayers_eq _ _ _ _ _ _ _ (newPopulatedTile_colorLayers _ _ _ _ _)]

theorem assemblePopulatedTile_elevationLayer (f : OSGTileFactory) (map : Map)
    (terrain : CustomTerrain) (key : TileKey) (imgs : List (Option GeoImage))
    (hf : Option HeightField) (he : Bool) :
    (assemblePopulatedTile f map terrain key imgs hf he).elevationLayer =
      some { locator := some (GeoLocator.createForKey key), heightField := hf } := by
  unfold assemblePopulatedTile
  rw [addImageLayers_eq _ _ _ _ _ _ _ (newPopulatedTile_colorLayers _ _ _ _ _)]
  exact newPopulatedTile_elevationLayer f terrain key hf he

theorem stampPopulatedTile_colorLayers (f : OSGTileFactory) (terrain : CustomTerrain)
    (key : TileKey) (he : Bool) (tile : CustomTile) :
    (stampPopulatedTile f terrain key he tile).colorLayers = tile.colorLayers := by
  unfold stampPopulatedTile
  simp only []
  split <;> rfl

theorem stampPopulatedTile_elevationLayer (f : OSGTileFactory) (terrain : CustomTerrain)
    (key : TileKey) (he : Bool) (tile : CustomTile) :
    (stampPopulatedTile f terrain key he tile).elevationLayer = tile.elevationLayer := by
  unfold stampPopulatedTile
  simp only []
  split <;> rfl

theorem wrapPopulatedTile_getTile (f : OSGTileFactory) (key : TileKey) (tile : CustomTile)
    (bs : BoundingSphere) (lo hi : ℚ) (w vd : Bool) :
    (wrapPopulatedTile f key tile bs lo hi w vd).getTile = some tile := by
  unfold wrapPopulatedTile
  split
  · simp only []
    split <;> rfl
  · rfl

/-- Sealing a tile that has an elevation layer and a heightfield to write the skirt to
never faults: it returns a node that carries the tile with the same colour layers and
with the written heightfield in its elevation layer. -/
theorem sealPopulatedTile_ok (f : OSGTileFactory) (map : Map) (terrain : CustomTerrain)
    (key : TileKey) (w vd he : Bool) (T : CustomTile) (h : HeightField)
    (layer : HeightFieldLayer) (hT : T.elevationLayer = some layer) :
    ∃ r tile node skirt, sealPopulatedTile f map terrain key w vd he T (some h) = Except.ok r ∧
      r.validData = vd ∧ r.node = some node ∧ node.getTile = some tile ∧
      r.terrain = terrain.registerTile tile ∧
      tile.colorLayers = T.colorLayers ∧
      tile.elevationLayer = some { layer with heightField := some (h.setSkirtHeight skirt) } := by
  unfold sealPopulatedTile
  simp only []
  obtain ⟨t, ht, htc, hte⟩ := setClusterCulling_ok f map
    (withHeightField T (h.setSkirtHeight ((f.getBound T).radius * f.terrainOptions.heightFieldSkirtRatio)))
    _ (withHeightField_elevationLayer _ _ _ hT)
  rw [ht]
  refine ⟨_, _, _, (f.getBound T).radius * f.terrainOptions.heightFieldSkirtRatio, rfl, rfl, rfl,
    wrapPopulatedTile_getTile _ _ _ _ _ _ _ _, rfl, ?_, ?_⟩
  · rw [stampPopulatedTile_colorLayers, htc, withHeightField_colorLayers]
  · rw [stampPopulatedTile_elevationLayer, hte, withHeightField_elevationLayer _ _ _ hT]

/-- What the second half of a populated build yields: it always returns a node; the
node carries a tile whose colour layers are the layers built for the filled-in images,
in slot order, and whose elevation layer holds the filled-in heightfield with its
skirt written. -/
theorem finishPopulatedTile_ok (f : OSGTileFactory) (map : Map) (terrain : CustomTerrain)
    (key : TileKey) (w : Bool) (imgs : List (Option GeoImage)) (hf : Option HeightField)
    (he vd : Bool) :
    ∃ r tile node h skirt, finishPopulatedTile f map terrain key w imgs hf he vd = Except.ok r ∧
      r.validData = vd ∧ r.node = some node ∧ node.getTile = some tile ∧
      r.terrain = terrain.registerTile tile ∧
      tile.colorLayers =
        ((List.zip map.imageMapLayers (fillMissingImages map key imgs)).filterMap
          (fun s => s.2.map (createImageLayerFor map key (isPlateCarre map) (isGeocentric map)
            (useMercatorLocator map.imageMapLayers) s.1))).map some ∧
      (fillMissingHeightField f map key hf he).1 = some h ∧
      tile.elevationLayer = some
        { locator := some (GeoLocator.createForKey key)
          heightField := some
            ((if isPlateCarre map = true then scaleHeightFieldToDegrees h
              else h).setSkirtHeight skirt) } := by
  obtain ⟨h, hh⟩ := fillMissingHeightField_isSome f map key hf he
  have hsel : ∀ pc : Bool,
      (if pc = true then Option.map scaleHeightFieldToDegrees (some h) else some h) =
        some (if pc = true then scaleHeightFieldToDegrees h else h) := by
    intro pc; cases pc <;> rfl
  unfold finishPopulatedTile
  simp only [hh, hsel]
  obtain ⟨r, tile, node, skirt, h1, h2, h3, h4, h5, h6, h7⟩ :=
    sealPopulatedTile_ok f map terrain key w vd (fillMissingHeightField f map key hf he).2
      (assemblePopulatedTile f map terrain key (fillMissingImages map key imgs)
        (some (if isPlateCarre map = true then scaleHeightFieldToDegrees h else h))
        (fillMissingHeightField f map key hf he).2)
      (if isPlateCarre map = true then scaleHeightFieldToDegrees h else h) _
      (assemblePopulatedTile_elevationLayer _ _ _ _ _ _ _)
  refine ⟨r, tile, node, h, skirt, h1, h2, h3, h4, h5, ?_, rfl, h7⟩
  rw [h6, assemblePopulatedTile_colorLayers]

/-! ## The validity test of a populated build -/

theorem countValidImages_foldl (l : List (Option GeoImage)) :
    ∀ k : Nat, l.foldl (fun n image => if image.isSome then n + 1 else n) k =
      k + l.countP (fun image => image.isSome) := by
  induction l with
  | nil => intro k; simp
  | cons a rest ih =>
    intro k
    cases a with
    | none => simp [ih]
    | some g => simp [ih, Nat.add_assoc, Nat.add_comm]

theorem countValidImages_eq_zero (l : List (Option GeoImage)) :
    countValidImages l = 0 ↔ ∀ image ∈ l, image = none := by
  unfold countValidImages
  rw [countValidImages_foldl, Nat.zero_add, List.countP_eq_zero]
  constructor
  · intro h image hi
    have := h image hi
    cases image with
    | none => rfl
    | some g => simp at this
  · intro h image hi
    simp [h image hi]

theorem firstHeightField_eq_none (f : OSGTileFactory) (map : Map) (key : TileKey) :
    firstHeightField f map key = none ↔
      ((map.heightFieldMapLayers = [] ∨
          map.createHeightField key false f.terrainOptions.elevationInterpolation = none) ∧
        ¬(map.isGeocentric = true ∧ key.lod ≤ 1)) := by
  unfold firstHeightField TileKey.getLevelOfDetail
  by_cases hl : map.heightFieldMapLayers = []
  · by_cases hg : map.isGeocentric = true ∧ key.lod ≤ 1
    · simp [hl, hg.1, hg.2]
    · have : (map.isGeocentric && decide (key.lod ≤ 1)) = false := by
        cases hgg : map.isGeocentric <;> simp_all
      simp [hl, hg, this]
  · have hpos : map.heightFieldMapLayers.length > 0 := List.length_pos.mpr hl
    cases hc : map.createHeightField key false f.terrainOptions.elevationInterpolation with
    | none =>
      by_cases hg : map.isGeocentric = true ∧ key.lod ≤ 1
      · simp [hl, hpos, hc, hg.1, hg.2]
      · have : (map.isGeocentric && decide (key.lod ≤ 1)) = false := by
          cases hgg : map.isGeocentric <;> simp_all
        simp [hl, hpos, hc, hg, this]
    | some h => simp [hl, hpos, hc]

/-- The test of line 652 holds exactly when the map gave no heightfield, none was
synthesized for a geocentric map at level 0 or 1, no image layer gave an image for the
key, and the map has a layer. -/
theorem couldNotCreateAny_iff (f : OSGTileFactory) (map : Map) (key : TileKey) :
    couldNotCreateAny f map key = true ↔
      ((map.heightFieldMapLayers = [] ∨
          map.createHeightField key false f.terrainOptions.elevationInterpolation = none) ∧
        ¬(map.isGeocentric = true ∧ key.lod ≤ 1) ∧
        (∀ layer ∈ map.imageMapLayers, createLayerImage f key layer = none) ∧
        (map.imageMapLayers ≠ [] ∨ map.heightFieldMapLayers ≠ [])) := by
  have himg : countValidImages (createLayerImages f map.imageMapLayers key) = 0 ↔
      ∀ layer ∈ map.imageMapLayers, createLayerImage f key layer = none := by
    rw [countValidImages_eq_zero]
    unfold createLayerImages
    simp
  have hhf := firstHeightField_eq_none f map key
  have hA : (!(firstHeightField f map key).isSome) = true ↔ firstHeightField f map key = none := by
    cases firstHeightField f map key <;> simp
  have hC : (!(decide (map.imageMapLayers.length = 0) &&
      decide (map.heightFieldMapLayers.length = 0))) = true ↔
      (map.imageMapLayers ≠ [] ∨ map.heightFieldMapLayers ≠ []) := by
    cases map.imageMapLayers <;> cases map.heightFieldMapLayers <;> simp
  unfold couldNotCreateAny
  simp only [Bool.and_eq_true, hA, decide_eq_true_eq, hC, himg, hhf]
  tauto

/-- The two ways out of `createPopulatedTile`: the early null return, taken when the
validity test holds and fallback is off, and the build. -/
theorem createPopulatedTile_eq (f : OSGTileFactory) (map : Map) (terrain : CustomTerrain)
    (key : TileKey) (w fb : Bool) :
    createPopulatedTile f map terrain key w fb =
      if couldNotCreateAny f map key = true ∧ fb = false then
        Except.ok { node := none, validData := false, terrain := terrain }
      else
        finishPopulatedTile f map terrain key w (createLayerImages f map.imageMapLayers key)
          (firstHeightField f map key) (firstHeightField f map key).isSome
          (!couldNotCreateAny f map key) := by
  unfold createPopulatedTile
  cases couldNotCreateAny f map key <;> cases fb <;> simp

/-- Summary of `createPopulatedTile`: it never faults; the validity flag is the
negation of the test of line 652; the node is null exactly on the early return; a
returned node carries a tile with the colour layers of the filled-in images and with
the filled-in heightfield. -/
theorem createPopulatedTile_ok (f : OSGTileFactory) (map : Map) (terrain : CustomTerrain)
    (key : TileKey) (w fb : Bool) :
    ∃ r, createPopulatedTile f map terrain key w fb = Except.ok r ∧
      r.validData = (!couldNotCreateAny f map key) ∧
      (r.node = none ↔ (couldNotCreateAny f map key = true ∧ fb = false)) ∧
      (∀ node, r.node = some node → ∃ tile h skirt, node.getTile = some tile ∧
        tile.colorLayers =
          ((List.zip map.imageMapLayers
              (fillMissingImages map key (createLayerImages f map.imageMapLayers key))).filterMap
            (fun s => s.2.map (createImageLayerFor map key (isPlateCarre map) (isGeocentric map)
              (useMercatorLocator map.imageMapLayers) s.1))).map some ∧
        (fillMissingHeightField f map key (firstHeightField f map key)
          (firstHeightField f map key).isSome).1 = some h ∧
        tile.elevationLayer = some
          { locator := some (GeoLocator.createForKey key)
            heightField := some
              ((if isPlateCarre map = true then scaleHeightFieldToDegrees h
                else h).setSkirtHeight skirt) }) := by
  rw [createPopulatedTile_eq]
  by_cases hb : couldNotCreateAny f map key = true ∧ fb = false
  · rw [if_pos hb]
    refine ⟨_, rfl, ?_, ?_, ?_⟩
    · simp [hb.1]
    · simp [hb]
    · intro node hn
      simp at hn
  · rw [if_neg hb]
    obtain ⟨r, tile, node, h, skirt, h1, h2, h3, h4, _, h6, h7, h8⟩ :=
      finishPopulatedTile_ok f map terrain key w (createLayerImages f map.imageMapLayers key)
        (firstHeightField f map key) (firstHeightField f map key).isSome
        (!couldNotCreateAny f map key)
    refine ⟨r, h1, h2, ?_, ?_⟩
    · constructor
      · intro hn
        rw [h3] at hn
        cases hn
      · intro hc
        exact absurd hc hb
    · intro node2 hn
      rw [h3] at hn
      cases hn
      exact ⟨tile, h, skirt, h4, h6, h7, h8⟩

/-! ## Claims about the validity flag and the null return -/

/-- C2: `createPopulatedTile` always returns, and it reports `validData = false` exactly
when no heightfield was produced (the map gave none without fallback, or has no
heightfield layer to ask, and the map is not a geocentric map asked for level 0 or 1),
no image layer produced an image for the key, and the map has at least one image or
heightfield layer; in every other case it reports `validData = true`. -/
theorem createPopulatedTile_validData_false_iff (f : OSGTileFactory) (map : Map)
    (terrain : CustomTerrain) (key : TileKey) (wrapInPagedLOD fallback : Bool) :
    ∃ r, createPopulatedTile f map terrain key wrapInPagedLOD fallback = Except.ok r ∧
      (r.validData = false ↔
        ((map.heightFieldMapLayers = [] ∨
            map.createHeightField key false f.terrainOptions.elevationInterpolation = none) ∧
          ¬(map.isGeocentric = true ∧ key.getLevelOfDetail ≤ 1) ∧
          (∀ layer ∈ map.imageMapLayers, createLayerImage f key layer = none) ∧
          (map.imageMapLayers ≠ [] ∨ map.heightFieldMapLayers ≠ []))) ∧
      (r.validData = true ↔
        ¬((map.heightFieldMapLayers = [] ∨
            map.createHeightField key false f.terrainOptions.elevationInterpolation = none) ∧
          ¬(map.isGeocentric = true ∧ key.getLevelOfDetail ≤ 1) ∧
          (∀ layer ∈ map.imageMapLayers, createLayerImage f key layer = none) ∧
          (map.imageMapLayers ≠ [] ∨ map.heightFieldMapLayers ≠ []))) := by
  obtain ⟨r, h1, h2, _, _⟩ := createPopulatedTile_ok f map terrain key wrapInPagedLOD fallback
  refine ⟨r, h1, ?_, ?_⟩
  · simp only [TileKey.getLevelOfDetail]
    rw [h2, ← couldNotCreateAny_iff]
    cases couldNotCreateAny f map key <;> simp
  · simp only [TileKey.getLevelOfDetail]
    rw [h2, ← couldNotCreateAny_iff]
    cases couldNotCreateAny f map key <;> simp

/-- C3: `createPopulatedTile` always returns, and the node it returns is null if and
only if it reports `validData = false` and the caller passed `fallback = false`; in
every other case the node is not null. -/
theorem createPopulatedTile_null_iff (f : OSGTileFactory) (map : Map)
    (terrain : CustomTerrain) (key : TileKey) (wrapInPagedLOD fallback : Bool) :
    ∃ r, createPopulatedTile f map terrain key wrapInPagedLOD fallback = Except.ok r ∧
      (r.node = none ↔ (r.validData = false ∧ fallback = false)) ∧
      (¬(r.validData = false ∧ fallback = false) → ∃ node, r.node = some node) := by
  obtain ⟨r, h1, h2, h3, _⟩ := createPopulatedTile_ok f map terrain key wrapInPagedLOD fallback
  have hiff : (r.validData = false ∧ fallback = false) ↔
      (couldNotCreateAny f map key = true ∧ fallback = false) := by
    rw [h2]
    cases couldNotCreateAny f map key <;> simp
  refine ⟨r, h1, ?_, ?_⟩
  · rw [h3, hiff]
  · intro hn
    cases hnode : r.node with
    | none => exact absurd (hiff.mpr (h3.mp hnode)) hn
    | some node => exact ⟨node, rfl⟩

/-- C4, as stated, fails: on the geocentric sample map whose only image layer delivers
nothing, the level-1 key gets `validData = true`, although no image layer and no
heightfield layer produced data for the key and the map has a configured layer. -/
theorem createPopulatedTile_validData_without_layer_data :
    ∃ r, createPopulatedTile Sample.factory Sample.silentGlobe Sample.emptyTerrain Sample.keyL1
        true false = Except.ok r ∧
      r.validData = true ∧
      ¬((∃ layer ∈ Sample.silentGlobe.imageMapLayers,
            (createLayerImage Sample.factory Sample.keyL1 layer).isSome = true) ∨
        (Sample.silentGlobe.heightFieldMapLayers ≠ [] ∧
          (Sample.silentGlobe.createHeightField Sample.keyL1 false
            Sample.factory.terrainOptions.elevationInterpolation).isSome = true) ∨
        (Sample.silentGlobe.imageMapLayers = [] ∧ Sample.silentGlobe.heightFieldMapLayers = [])) :=
  ⟨_, rfl, rfl, by simp [Sample.silentGlobe, createLayerImage, Sample.silentLayer]⟩

/-- C4, amended: the reported `validData` is true if and only if some image layer
produced an image for the key, or the map's heightfield layers produced a heightfield
without fallback, or the map is geocentric and the key is of level 0 or 1 (the
heightfield is then synthesized), or the map has zero configured layers. -/
theorem createPopulatedTile_validData_true_iff (f : OSGTileFactory) (map : Map)
    (terrain : CustomTerrain) (key : TileKey) (wrapInPagedLOD fallback : Bool) :
    ∃ r, createPopulatedTile f map terrain key wrapInPagedLOD fallback = Except.ok r ∧
      (r.validData = true ↔
        ((∃ layer ∈ map.imageMapLayers, (createLayerImage f key layer).isSome = true) ∨
          (map.heightFieldMapLayers ≠ [] ∧
            (map.createHeightField key false
              f.terrainOptions.elevationInterpolation).isSome = true) ∨
          (map.isGeocentric = true ∧ key.getLevelOfDetail ≤ 1) ∨
          (map.imageMapLayers = [] ∧ map.heightFieldMapLayers = []))) := by
  obtain ⟨r, h1, h2, _, _⟩ := createPopulatedTile_ok f map terrain key wrapInPagedLOD fallback
  refine ⟨r, h1, ?_⟩
  have hc := couldNotCreateAny_iff f map key
  have hv : r.validData = true ↔ ¬ (couldNotCreateAny f map key = true) := by
    rw [h2]
    cases couldNotCreateAny f map key <;> simp
  rw [hv, hc]
  simp only [TileKey.getLevelOfDetail, Option.isSome_iff_ne_none]
  constructor
  · intro h
    by_contra hn
    push_neg at hn
    obtain ⟨hn1, hn2, hn3, hn4⟩ := hn
    apply h
    refine ⟨?_, ?_, ?_, ?_⟩
    · by_cases hl : map.heightFieldMapLayers = []
      · exact Or.inl hl
      · exact Or.inr (hn2 hl)
    · intro hg
      exact absurd hg.2 (Nat.not_le.mpr (hn3 hg.1))
    · exact hn1
    · by_cases hi : map.imageMapLayers = []
      · exact Or.inr (hn4 hi)
      · exact Or.inl hi
  · rintro (⟨layer, hm, hl⟩ | ⟨h1, h2⟩ | h3 | ⟨h4, h5⟩) ⟨ha, hb, hcc, hd⟩
    · exact hl (hcc layer hm)
    · cases ha with
      | inl h => exact h1 h
      | inr h => exact h2 h
    · exact hb h3
    · cases hd with
      | inl h => exact h h4
      | inr h => exact h h5

/-! ## Claims about the heightfield of a populated tile -/

theorem heightField_source_after_writes (pc : Bool) (h : HeightField) (skirt : ℚ) :
    ((if pc = true then scaleHeightFieldToDegrees h else h).setSkirtHeight skirt).source =
      h.source := by
  cases pc <;> rfl

theorem fillMissingHeightField_no_layers (f : OSGTileFactory) (map : Map) (key : TileKey)
    (hl : map.heightFieldMapLayers = []) :
    (fillMissingHeightField f map key (firstHeightField f map key)
      (firstHeightField f map key).isSome).1 = some (createEmptyHeightFieldDefault f key) := by
  unfold fillMissingHeightField firstHeightField
  simp only [hl, List.length_nil, Nat.lt_irrefl, gt_iff_lt, if_false, Option.isSome_none,
    Bool.not_false, Bool.and_true]
  by_cases hc : (map.isGeocentric && decide (key.getLevelOfDetail ≤ 1)) = true
  · simp [hc]
  · simp [hc]

theorem firstHeightField_synthesized (f : OSGTileFactory) (map : Map) (key : TileKey)
    (hg : map.isGeocentric = true) (hlod : key.getLevelOfDetail ≤ 1)
    (hn : map.heightFieldMapLayers = [] ∨
      map.createHeightField key false f.terrainOptions.elevationInterpolation = none) :
    firstHeightField f map key = some (createEmptyHeightFieldDefault f key) := by
  unfold firstHeightField
  cases hn with
  | inl hl => simp [hl, hg, hlod]
  | inr hc => simp [hc, hg, hlod]

/-- C9: for a map with zero image layers and zero heightfield layers,
`createPopulatedTile` succeeds for every key and either value of `fallback`: it
returns a non-null node, reports `validData = true`, and the tile has no colour layers
and carries the empty heightfield synthesized for the key. -/
theorem createPopulatedTile_empty_map (f : OSGTileFactory) (map : Map)
    (terrain : CustomTerrain) (key : TileKey) (wrapInPagedLOD fallback : Bool)
    (hi : map.imageMapLayers = []) (hh : map.heightFieldMapLayers = []) :
    ∃ r node tile hfield,
      createPopulatedTile f map terrain key wrapInPagedLOD fallback = Except.ok r ∧
      r.node = some node ∧ r.validData = true ∧ node.getTile = some tile ∧
      tile.getNumColorLayers = 0 ∧
      tile.elevationLayer.bind (fun layer => layer.heightField) = some hfield ∧
      hfield.source = (createEmptyHeightFieldDefault f key).source ∧
      hfield.source = HeightFieldSource.reference key.getGeoExtent f.emptyNumCols f.emptyNumRows := by
  obtain ⟨r, h1, h2, h3, h4⟩ := createPopulatedTile_ok f map terrain key wrapInPagedLOD fallback
  have hc : couldNotCreateAny f map key = false := by
    cases hcc : couldNotCreateAny f map key with
    | false => rfl
    | true =>
      have := ((couldNotCreateAny_iff f map key).mp hcc).2.2.2
      cases this with
      | inl h => exact absurd hi h
      | inr h => exact absurd hh h
  cases hn : r.node with
  | none =>
    have := (h3.mp hn).1
    rw [hc] at this
    cases this
  | some node =>
    obtain ⟨tile, h, skirt, ht, hcl, hfill, hel⟩ := h4 node hn
    rw [fillMissingHeightField_no_layers f map key hh] at hfill
    cases hfill
    refine ⟨r, node, tile,
      ((if isPlateCarre map = true then scaleHeightFieldToDegrees (createEmptyHeightFieldDefault f key)
        else createEmptyHeightFieldDefault f key).setSkirtHeight skirt),
      h1, hn, ?_, ht, ?_, ?_, ?_, ?_⟩
    · rw [h2, hc]; rfl
    · simp [CustomTile.getNumColorLayers, hcl, hi]
    · rw [hel]; rfl
    · exact heightField_source_after_writes _ _ _
    · exact heightField_source_after_writes _ _ _

/-- Witness of C9 on the geocentric sample map without layers, at a level-2 key. -/
theorem createPopulatedTile_empty_map_witness :
    Sample.emptyGlobe.imageMapLayers = [] ∧ Sample.emptyGlobe.heightFieldMapLayers = [] ∧
    ∃ r node tile hfield,
      createPopulatedTile Sample.factory Sample.emptyGlobe Sample.emptyTerrain Sample.keyL2
        true false = Except.ok r ∧
      r.node = some node ∧ r.validData = true ∧ node.getTile = some tile ∧
      tile.getNumColorLayers = 0 ∧
      tile.elevationLayer.bind (fun layer => layer.heightField) = some hfield ∧
      hfield.source = (createEmptyHeightFieldDefault Sample.factory Sample.keyL2).source ∧
      hfield.source = HeightFieldSource.reference Sample.keyL2.getGeoExtent
        Sample.factory.emptyNumCols Sample.factory.emptyNumRows :=
  ⟨rfl, rfl, createPopulatedTile_empty_map Sample.factory Sample.emptyGlobe Sample.emptyTerrain
    Sample.keyL2 true false rfl rfl⟩

/-- C10: on a geocentric map, for every key of level 0 or 1 for which the map produces
no heightfield (it has no heightfield layer, or its heightfield request without
fallback yields none), `createPopulatedTile` returns a non-null node for either value
of `fallback` and whatever the image layers deliver, reports `validData = true`, and
the tile carries the empty heightfield synthesized for the key. -/
theorem createPopulatedTile_geocentric_top_levels (f : OSGTileFactory) (map : Map)
    (terrain : CustomTerrain) (key : TileKey) (wrapInPagedLOD fallback : Bool)
    (hg : map.isGeocentric = true) (hlod : key.getLevelOfDetail ≤ 1)
    (hn : map.heightFieldMapLayers = [] ∨
      map.createHeightField key false f.terrainOptions.elevationInterpolation = none) :
    ∃ r node tile hfield,
      createPopulatedTile f map terrain key wrapInPagedLOD fallback = Except.ok r ∧
      r.node = some node ∧ r.validData = true ∧ node.getTile = some tile ∧
      tile.elevationLayer.bind (fun layer => layer.heightField) = some hfield ∧
      hfield.source = HeightFieldSource.reference key.getGeoExtent f.emptyNumCols f.emptyNumRows := by
  obtain ⟨r, h1, h2, h3, h4⟩ := createPopulatedTile_ok f map terrain key wrapInPagedLOD fallback
  have hc : couldNotCreateAny f map key = false := by
    cases hcc : couldNotCreateAny f map key with
    | false => rfl
    | true => exact absurd ⟨hg, hlod⟩ ((couldNotCreateAny_iff f map key).mp hcc).2.1
  cases hnode : r.node with
  | none =>
    have := (h3.mp hnode).1
    rw [hc] at this
    cases this
  | some node =>
    obtain ⟨tile, h, skirt, ht, _, hfill, hel⟩ := h4 node hnode
    rw [firstHeightField_synthesized f map key hg hlod hn] at hfill
    simp only [fillMissingHeightField] at hfill
    cases hfill
    refine ⟨r, node, tile,
      ((if isPlateCarre map = true then scaleHeightFieldToDegrees (createEmptyHeightFieldDefault f key)
        else createEmptyHeightFieldDefault f key).setSkirtHeight skirt),
      h1, hnode, ?_, ht, ?_, ?_⟩
    · rw [h2, hc]; rfl
    · rw [hel]; rfl
    · exact heightField_source_after_writes _ _ _

/-- Witness of C10 on the geocentric sample map whose only image layer delivers
nothing, at a level-1 key and with fallback off. -/
theorem createPopulatedTile_geocentric_top_levels_witness :
    Sample.silentGlobe.isGeocentric = true ∧ Sample.keyL1.getLevelOfDetail ≤ 1 ∧
    ∃ r node tile hfield,
      createPopulatedTile Sample.factory Sample.silentGlobe Sample.emptyTerrain Sample.keyL1
        true false = Except.ok r ∧
      r.node = some node ∧ r.validData = true ∧ node.getTile = some tile ∧
      tile.elevationLayer.bind (fun layer => layer.heightField) = some hfield ∧
      hfield.source = HeightFieldSource.reference Sample.keyL1.getGeoExtent
        Sample.factory.emptyNumCols Sample.factory.emptyNumRows :=
  ⟨rfl, by decide, createPopulatedTile_geocentric_top_levels Sample.factory Sample.silentGlobe
    Sample.emptyTerrain Sample.keyL1 true false rfl (by decide) (Or.inl rfl)⟩

/-! ## The upward walk of `createValidGeoImage` -/

theorem ancestorKey_succ (key : TileKey) (i : Nat) :
    key.ancestorKey (i + 1) = key.createParentKey.ancestorKey i := by
  simp [TileKey.ancestorKey, Function.iterate_succ_apply]

theorem createParentKey_invalid (key : TileKey) (h : key.valid = false) :
    key.createParentKey.valid = false := by
  unfold TileKey.createParentKey
  split
  · rfl
  · simpa [TileKey.valid] using h

theorem ancestorKey_invalid (i : Nat) :
    ∀ key : TileKey, key.valid = false → (key.ancestorKey i).valid = false := by
  induction i with
  | zero => intro key h; simpa [TileKey.ancestorKey] using h
  | succ n ih =>
    intro key h
    rw [ancestorKey_succ]
    exact ih _ (createParentKey_invalid key h)

/-- What the loop of `createValidGeoImage` returns, for any number of iterations that
lets it finish: an image comes from the first key of the chain that is valid for the
layer and has an image; null means that no valid key of the chain is such a key. -/
theorem createValidGeoImageLoop_spec (layer : MapLayer) (fuel : Nat) :
    ∀ (key : TileKey) (r : Option GeoImage),
      createValidGeoImageLoop layer fuel key = some r →
      (∀ img, r = some img →
        ∃ i, (key.ancestorKey i).valid = true ∧ layer.isKeyValid (key.ancestorKey i) = true ∧
          layer.createImage (key.ancestorKey i) = some img ∧
          ∀ j, j < i → ¬(layer.isKeyValid (key.ancestorKey j) = true ∧
            (layer.createImage (key.ancestorKey j)).isSome = true)) ∧
      (r = none →
        ∀ i, (key.ancestorKey i).valid = true →
          ¬(layer.isKeyValid (key.ancestorKey i) = true ∧
            (layer.createImage (key.ancestorKey i)).isSome = true)) := by
  induction fuel with
  | zero =>
    intro key r h
    unfold createValidGeoImageLoop at h
    by_cases hv : key.valid = true
    · simp [hv] at h
    · have hv2 : key.valid = false := by simpa using hv
      simp only [hv2, Bool.false_eq_true, if_false, Option.some.injEq] at h
      subst h
      refine ⟨fun img hi => (by cases hi), fun _ i hvi => ?_⟩
      rw [ancestorKey_invalid i key hv2] at hvi
      cases hvi
  | succ n ih =>
    intro key r h
    unfold createValidGeoImageLoop at h
    by_cases hv : key.valid = true
    · simp only [hv, if_true] at h
      have step : ¬(layer.isKeyValid key = true ∧ (layer.createImage key).isSome = true) →
          createValidGeoImageLoop layer n key.createParentKey = some r →
          (∀ img, r = some img →
            ∃ i, (key.ancestorKey i).valid = true ∧
              layer.isKeyValid (key.ancestorKey i) = true ∧
              layer.createImage (key.ancestorKey i) = some img ∧
              ∀ j, j < i → ¬(layer.isKeyValid (key.ancestorKey j) = true ∧
                (layer.createImage (key.ancestorKey j)).isSome = true)) ∧
          (r = none →
            ∀ i, (key.ancestorKey i).valid = true →
              ¬(layer.isKeyValid (key.ancestorKey i) = true ∧
                (layer.createImage (key.ancestorKey i)).isSome = true)) := by
        intro hmiss hrec
        obtain ⟨ih1, ih2⟩ := ih key.createParentKey r hrec
        constructor
        · intro img hi
          obtain ⟨i, hv1, hk1, hc1, hmin⟩ := ih1 img hi
          refine ⟨i + 1, ?_, ?_, ?_, ?_⟩
          · rw [ancestorKey_succ]; exact hv1
          · rw [ancestorKey_succ]; exact hk1
          · rw [ancestorKey_succ]; exact hc1
          · intro j hj
            cases j with
            | zero => simpa [TileKey.ancestorKey] using hmiss
            | succ j2 =>
              rw [ancestorKey_succ]
              exact hmin j2 (Nat.lt_of_succ_lt_succ hj)
        · intro hr i hvi
          cases i with
          | zero => simpa [TileKey.ancestorKey] using hmiss
          | succ i2 =>
            rw [ancestorKey_succ] at hvi ⊢
            exact ih2 hr i2 hvi
      by_cases hk : layer.isKeyValid key = true
      · simp only [hk, if_true] at h
        cases hc : layer.createImage key with
        | some g =>
          simp only [hc, Option.some.injEq] at h
          subst h
          constructor
          · intro img hi
            cases hi
            exact ⟨0, by simpa [TileKey.ancestorKey] using hv,
              by simpa [TileKey.ancestorKey] using hk,
              by simpa [TileKey.ancestorKey] using hc,
              fun j hj => absurd hj (Nat.not_lt_zero j)⟩
          · intro hr
            cases hr
        | none =>
          simp only [hc] at h
          exact step (by simp [hc]) h
      · simp only [hk, if_false] at h
        exact step (by simp [hk]) h
    · have hv2 : key.valid = false := by simpa using hv
      simp only [hv2, Bool.false_eq_true, if_false, Option.some.injEq] at h
      subst h
      refine ⟨fun img hi => (by cases hi), fun _ i hvi => ?_⟩
      rw [ancestorKey_invalid i key hv2] at hvi
      cases hvi

/-- C8: for every layer and key, `createValidGeoImage` returns the image created at
the nearest key `k` of the chain key, parent(key), parent(parent(key)), ... (the keys
of the chain that are valid) for which the layer's `isKeyValid k` holds and its
`createImage k` is non-null; it returns null if and only if no valid key of the chain
satisfies both. The loop finishes within `level + 1` iterations. -/
theorem createValidGeoImage_nearest (layer : MapLayer) (key : TileKey) :
    (∃ r, createValidGeoImageLoop layer (key.getLevelOfDetail + 1) key = some r ∧
      createValidGeoImage layer key = r) ∧
    (∀ img, createValidGeoImage layer key = some img ↔
      ∃ i, (key.ancestorKey i).valid = true ∧ layer.isKeyValid (key.ancestorKey i) = true ∧
        layer.createImage (key.ancestorKey i) = some img ∧
        ∀ j, j < i → ¬(layer.isKeyValid (key.ancestorKey j) = true ∧
          (layer.createImage (key.ancestorKey j)).isSome = true)) ∧
    (createValidGeoImage layer key = none ↔
      ∀ i, (key.ancestorKey i).valid = true →
        ¬(layer.isKeyValid (key.ancestorKey i) = true ∧
          (layer.createImage (key.ancestorKey i)).isSome = true)) := by
  obtain ⟨r, hr⟩ := createValidGeoImageLoop_terminates layer (key.lod + 1) key
    (fun _ => Nat.lt_succ_self _)
  have hres : createValidGeoImage layer key = r := by
    simp [createValidGeoImage, hr]
  obtain ⟨s1, s2⟩ := createValidGeoImageLoop_spec layer (key.lod + 1) key r hr
  refine ⟨⟨r, hr, hres⟩, ?_, ?_⟩
  · intro img
    rw [hres]
    constructor
    · exact s1 img
    · rintro ⟨i, hv, hk, hc, hmin⟩
      cases hrr : r with
      | none =>
        exact absurd ⟨hk, by simp [hc]⟩ (s2 hrr i hv)
      | some img2 =>
        obtain ⟨i2, _, hk2, hc2, hmin2⟩ := s1 img2 hrr
        have hle : ¬ i < i2 := fun hlt => hmin2 i hlt ⟨hk, by simp [hc]⟩
        have hge : ¬ i2 < i := fun hlt => hmin i2 hlt ⟨hk2, by simp [hc2]⟩
        have heq : i = i2 := by omega
        subst heq
        rw [hc] at hc2
        exact hc2.symm
  · rw [hres]
    constructor
    · exact s2
    · intro hall
      cases hrr : r with
      | none => rfl
      | some img =>
        obtain ⟨i, hv, hk, hc, _⟩ := s1 img hrr
        exact absurd ⟨hk, by simp [hc]⟩ (hall i hv)

/-! ## Colour layers of a populated tile -/

theorem fillMissingImages_createLayerImages (f : OSGTileFactory) (map : Map) (key : TileKey) :
    fillMissingImages map key (createLayerImages f map.imageMapLayers key) =
      map.imageMapLayers.map
        (fun layer => fillMissingImage map key layer (createLayerImage f key layer)) := by
  unfold fillMissingImages createLayerImages
  generalize map.imageMapLayers = layers
  induction layers with
  | nil => rfl
  | cons a rest ih => simp [List.zipWith, ih]

theorem zip_filterMap_filled (mk : MapLayer → GeoImage → TransparentLayer)
    (fill : MapLayer → Option GeoImage) (G : MapLayer → GeoImage)
    (hG : ∀ layer, fill layer = some (G layer)) (layers : List MapLayer) :
    (List.zip layers (layers.map fill)).filterMap (fun s => s.2.map (mk s.1)) =
      layers.map (fun layer => mk layer (G layer)) := by
  induction layers with
  | nil => rfl
  | cons a rest ih => simp [hG a, ih]

/-- The colour slots of a returned populated tile: slot `i` holds the layer built for
map layer `i` from that layer's image after the fill-in step. -/
theorem createPopulatedTile_colorLayers (f : OSGTileFactory) (map : Map)
    (terrain : CustomTerrain) (key : TileKey) (w fb : Bool) (r : TileResult) (node : Node)
    (h : createPopulatedTile f map terrain key w fb = Except.ok r) (hn : r.node = some node) :
    ∃ (tile : CustomTile) (G : MapLayer → GeoImage), node.getTile = some tile ∧
      (∀ layer, fillMissingImage map key layer (createLayerImage f key layer) = some (G layer)) ∧
      tile.colorLayers = map.imageMapLayers.map (fun layer =>
        some (createImageLayerFor map key (isPlateCarre map) (isGeocentric map)
          (useMercatorLocator map.imageMapLayers) layer (G layer))) := by
  obtain ⟨r2, h1, _, _, h4⟩ := createPopulatedTile_ok f map terrain key w fb
  rw [h] at h1
  cases h1
  obtain ⟨tile, _, _, ht, hcl, _, _⟩ := h4 node hn
  choose G hG using fun layer =>
    fillMissingImage_isSome map key layer (createLayerImage f key layer)
  refine ⟨tile, G, ht, hG, ?_⟩
  rw [hcl, fillMissingImages_createLayerImages,
    zip_filterMap_filled _ _ G hG, List.map_map]
  rfl

/-- C6: whenever `createPopulatedTile` returns a tile for a map with `n` image layers,
the tile has exactly `n` colour layers and, for every `i < n`, colour slot `i` holds a
layer built for the map's image layer `i`: it carries that layer's name and the image
that the layer has after the fill-in step, which exists for every configured layer. -/
theorem createPopulatedTile_slot_order (f : OSGTileFactory) (map : Map)
    (terrain : CustomTerrain) (key : TileKey) (wrapInPagedLOD fallback : Bool)
    (r : TileResult) (node : Node)
    (h : createPopulatedTile f map terrain key wrapInPagedLOD fallback = Except.ok r)
    (hn : r.node = some node) :
    ∃ tile, node.getTile = some tile ∧
      tile.getNumColorLayers = map.imageMapLayers.length ∧
      ∀ (i : Nat) (hi : i < map.imageMapLayers.length),
        ∃ img_layer geo_image,
          tile.getColorLayer i = some img_layer ∧
          fillMissingImage map key (map.imageMapLayers.get ⟨i, hi⟩)
            (createLayerImage f key (map.imageMapLayers.get ⟨i, hi⟩)) = some geo_image ∧
          img_layer.image = geo_image.image ∧
          img_layer.name = (map.imageMapLayers.get ⟨i, hi⟩).name ∧
          img_layer.mapLayer = map.imageMapLayers.get ⟨i, hi⟩ := by
  obtain ⟨tile, G, ht, hG, hcl⟩ :=
    createPopulatedTile_colorLayers f map terrain key wrapInPagedLOD fallback r node h hn
  refine ⟨tile, ht, ?_, ?_⟩
  · simp [CustomTile.getNumColorLayers, hcl]
  · intro i hi
    refine ⟨createImageLayerFor map key (isPlateCarre map) (isGeocentric map)
      (useMercatorLocator map.imageMapLayers) (map.imageMapLayers.get ⟨i, hi⟩)
      (G (map.imageMapLayers.get ⟨i, hi⟩)), G (map.imageMapLayers.get ⟨i, hi⟩), ?_, hG _, rfl, rfl, rfl⟩
    simp [CustomTile.getColorLayer, hcl, List.getElem?_eq_getElem hi]

/-- Witness of C6 on the geocentric sample map with two image layers, at a level-1 key
for which the first layer delivers an image and the second none, with fallback off. -/
theorem createPopulatedTile_slot_order_witness :
    ∃ r node,
      createPopulatedTile Sample.factory Sample.twoLayerGlobe Sample.emptyTerrain Sample.keyL1
        true false = Except.ok r ∧ r.node = some node ∧
      ∃ tile, node.getTile = some tile ∧
        tile.getNumColorLayers = Sample.twoLayerGlobe.imageMapLayers.length ∧
        ∀ (i : Nat) (hi : i < Sample.twoLayerGlobe.imageMapLayers.length),
          ∃ img_layer geo_image,
            tile.getColorLayer i = some img_layer ∧
            fillMissingImage Sample.twoLayerGlobe Sample.keyL1
              (Sample.twoLayerGlobe.imageMapLayers.get ⟨i, hi⟩)
              (createLayerImage Sample.factory Sample.keyL1
                (Sample.twoLayerGlobe.imageMapLayers.get ⟨i, hi⟩)) = some geo_image ∧
            img_layer.image = geo_image.image ∧
            img_layer.name = (Sample.twoLayerGlobe.imageMapLayers.get ⟨i, hi⟩).name ∧
            img_layer.mapLayer = Sample.twoLayerGlobe.imageMapLayers.get ⟨i, hi⟩ :=
  ⟨_, _, rfl, rfl, createPopulatedTile_slot_order Sample.factory Sample.twoLayerGlobe
    Sample.emptyTerrain Sample.keyL1 true false _ _ rfl rfl⟩

/-- C7, as stated, fails: the sample layer is not valid for the level-2 key and valid
for its parent, where `createImage` succeeds and from where `createValidGeoImage`
would fetch the image; the populated tile built with fallback allowed nevertheless
carries the transparent placeholder image in its colour slot, not the parent's image. -/
theorem createPopulatedTile_invalid_key_gets_placeholder :
    ∃ r tile img_layer parent_image,
      Sample.shallowMap.imageMapLayers = [Sample.shallowLayer] ∧
      Sample.shallowLayer.isKeyValid Sample.keyL2 = false ∧
      Sample.shallowLayer.isKeyValid Sample.keyL2.createParentKey = true ∧
      Sample.shallowLayer.createImage Sample.keyL2.createParentKey = some parent_image ∧
      createValidGeoImage Sample.shallowLayer Sample.keyL2 = some parent_image ∧
      createPopulatedTile Sample.factory Sample.shallowMap Sample.emptyTerrain Sample.keyL2
        true true = Except.ok r ∧
      r.node.bind Node.getTile = some tile ∧
      tile.getColorLayer 0 = some img_layer ∧
      img_layer.image = Image.emptyImage ∧
      img_layer.image ≠ parent_image.image :=
  ⟨_, _, _, _, rfl, rfl, rfl, rfl, by decide, rfl, rfl, rfl, rfl, by decide⟩

/-- C7, amended: for a map with one image layer for which the key is not valid, a
populated tile built for the key with fallback allowed has exactly one colour layer,
and that layer carries the transparent placeholder image, whatever the layer offers
at the parent key. -/
theorem createPopulatedTile_invalid_key_placeholder (f : OSGTileFactory) (map : Map)
    (terrain : CustomTerrain) (key : TileKey) (wrapInPagedLOD : Bool) (layer : MapLayer)
    (hl : map.imageMapLayers = [layer]) (hk : layer.isKeyValid key = false) :
    ∃ r node tile img_layer,
      createPopulatedTile f map terrain key wrapInPagedLOD true = Except.ok r ∧
      r.node = some node ∧ node.getTile = some tile ∧
      tile.getNumColorLayers = 1 ∧
      tile.getColorLayer 0 = some img_layer ∧
      img_layer.name = layer.name ∧
      img_layer.image = Image.emptyImage := by
  obtain ⟨r, h1, _, h3, _⟩ := createPopulatedTile_ok f map terrain key wrapInPagedLOD true
  cases hn : r.node with
  | none =>
    have := (h3.mp hn).2
    cases this
  | some node =>
    obtain ⟨tile, G, ht, hG, hcl⟩ :=
      createPopulatedTile_colorLayers f map terrain key wrapInPagedLOD true r node h1 hn
    have hfill : fillMissingImage map key layer (createLayerImage f key layer) =
        some { image := Image.emptyImage, extent := key.getGeoExtent,
               isMercator := map.srsIsMercator } := by
      simp [fillMissingImage, createLayerImage, hk]
    have hGl : G layer =
        (⟨Image.emptyImage, key.getGeoExtent, map.srsIsMercator⟩ : GeoImage) := by
      have := hG layer
      rw [hfill] at this
      exact (Option.some.inj this).symm
    refine ⟨r, node, tile, createImageLayerFor map key (isPlateCarre map) (isGeocentric map)
      (useMercatorLocator map.imageMapLayers) layer (G layer), h1, hn, ht, ?_, ?_, rfl, ?_⟩
    · simp [CustomTile.getNumColorLayers, hcl, hl]
    · simp [CustomTile.getColorLayer, hcl, hl]
    · simp [createImageLayerFor, hGl]

/-- Witness of the amended C7 on the sample map whose layer has no data below level 1,
at a level-2 key. -/
theorem createPopulatedTile_invalid_key_placeholder_witness :
    Sample.shallowMap.imageMapLayers = [Sample.shallowLayer] ∧
    Sample.shallowLayer.isKeyValid Sample.keyL2 = false ∧
    ∃ r node tile img_layer,
      createPopulatedTile Sample.factory Sample.shallowMap Sample.emptyTerrain Sample.keyL2
        false true = Except.ok r ∧
      r.node = some node ∧ node.getTile = some tile ∧
      tile.getNumColorLayers = 1 ∧
      tile.getColorLayer 0 = some img_layer ∧
      img_layer.name = Sample.shallowLayer.name ∧
      img_layer.image = Image.emptyImage :=
  ⟨rfl, rfl, createPopulatedTile_invalid_key_placeholder Sample.factory Sample.shallowMap
    Sample.emptyTerrain Sample.keyL2 false Sample.shallowLayer rfl rfl⟩

/-- The parent's image reaches the colour slot only when the key itself is valid for
the layer: if the key is valid for the only image layer, the first request and the
layer's own `createImage` for the key yield nothing, and the layer is valid and creates
an image at the (valid) parent key, then the populated tile built with fallback allowed
carries that parent image, fetched by `createValidGeoImage`. -/
theorem createPopulatedTile_valid_key_gets_parent_image (f : OSGTileFactory) (map : Map)
    (terrain : CustomTerrain) (key : TileKey) (wrapInPagedLOD : Bool) (layer : MapLayer)
    (parent_image : GeoImage)
    (hl : map.imageMapLayers = [layer]) (hv : key.valid = true) (hlod : 0 < key.lod)
    (hk : layer.isKeyValid key = true) (h1st : createLayerImage f key layer = none)
    (hc : layer.createImage key = none)
    (hpk : layer.isKeyValid key.createParentKey = true)
    (hpc : layer.createImage key.createParentKey = some parent_image) :
    ∃ r node tile img_layer,
      createPopulatedTile f map terrain key wrapInPagedLOD true = Except.ok r ∧
      r.node = some node ∧ node.getTile = some tile ∧
      createValidGeoImage layer key = some parent_image ∧
      tile.getColorLayer 0 = some img_layer ∧
      img_layer.image = parent_image.image := by
  have hpv : key.createParentKey.valid = true := by
    have h0 : key.lod ≠ 0 := Nat.pos_iff_ne_zero.mp hlod
    simpa [TileKey.createParentKey, h0, TileKey.valid] using hv
  have hwalk : createValidGeoImage layer key = some parent_image := by
    obtain ⟨n, hn⟩ : ∃ n, key.lod = n + 1 := ⟨key.lod - 1, by omega⟩
    simp [createValidGeoImage, hn, createValidGeoImageLoop, hv, hk, hc, hpv, hpk, hpc]
  obtain ⟨r, h1, _, h3, _⟩ := createPopulatedTile_ok f map terrain key wrapInPagedLOD true
  cases hn : r.node with
  | none =>
    have := (h3.mp hn).2
    cases this
  | some node =>
    obtain ⟨tile, G, ht, hG, hcl⟩ :=
      createPopulatedTile_colorLayers f map terrain key wrapInPagedLOD true r node h1 hn
    have hGl : G layer = parent_image := by
      have := hG layer
      simp only [fillMissingImage, h1st, hk, if_true, hwalk] at this
      exact (Option.some.inj this).symm
    refine ⟨r, node, tile, createImageLayerFor map key (isPlateCarre map) (isGeocentric map)
      (useMercatorLocator map.imageMapLayers) layer (G layer), h1, hn, ht, hwalk, ?_, ?_⟩
    · simp [CustomTile.getColorLayer, hcl, hl]
    · simp [createImageLayerFor, hGl]

/-! ## Placeholder builds never fault -/

theorem findAncestorLoop_terminates (terrain : CustomTerrain) (fuel : Nat) :
    ∀ (ancestorTile : Option CustomTile) (key : TileKey),
      (ancestorTile = none → key.valid = true → key.lod < fuel) →
      ∃ r, findAncestorLoop terrain fuel ancestorTile key = some r := by
  induction fuel with
  | zero =>
    intro ancestorTile key h
    unfold findAncestorLoop
    cases ancestorTile with
    | some t => exact ⟨(some t, key), by simp⟩
    | none =>
      cases hv : key.valid with
      | false => exact ⟨(none, key), by simp⟩
      | true => exact absurd (h rfl hv) (Nat.not_lt_zero _)
  | succ n ih =>
    intro ancestorTile key h
    unfold findAncestorLoop
    cases ancestorTile with
    | some t => exact ⟨(some t, key), by simp⟩
    | none =>
      cases hv : key.valid with
      | false => exact ⟨(none, key), by simp⟩
      | true =>
        simp only [Option.isSome_none, Bool.not_false, Bool.and_self, if_true]
        cases terrain.getCustomTile key.getTileId with
        | some found =>
          obtain ⟨r, hr⟩ := ih (some found) key (fun hc => by cases hc)
          exact ⟨r, hr⟩
        | none =>
          have hp : key.createParentKey.valid = true → key.createParentKey.lod < n := by
            intro hpv
            by_cases h0 : key.lod = 0
            · simp [TileKey.createParentKey, h0, TileKey.INVALID, TileKey.valid] at hpv
            · have := h rfl hv
              simp only [TileKey.createParentKey, h0, if_false]
              omega
          obtain ⟨r, hr⟩ := ih none key.createParentKey (fun _ => hp)
          exact ⟨r, hr⟩

/-- The ancestor search of `createPlaceholderTile` finishes within the iterations it is
given. -/
theorem findAncestor_finishes (terrain : CustomTerrain) (key : TileKey) :
    ∃ r, findAncestorLoop terrain (key.lod + 1) none key.createParentKey = some r ∧
      findAncestor terrain key = r := by
  have hp : key.createParentKey.lod < key.lod + 1 := by
    unfold TileKey.createParentKey
    split
    · simp [TileKey.INVALID]
    · simp only []
      omega
  obtain ⟨r, hr⟩ := findAncestorLoop_terminates terrain (key.lod + 1) none key.createParentKey
    (fun _ _ => hp)
  exact ⟨r, hr, by simp [findAncestor, hr]⟩

theorem inheritHeightfieldLayer_heightField (tile : CustomTile) (ancestorTile : Option CustomTile)
    (loc : GeoLocator) (key ancestorKey : TileKey) (layer : HeightFieldLayer)
    (h : (inheritHeightfieldLayer tile ancestorTile loc key ancestorKey).2 = some layer) :
    ∃ hf, layer.heightField = some hf := by
  unfold inheritHeightfieldLayer at h
  split at h
  · cases h
  · split at h
    · split at h
      · cases h
      · split at h
        · cases h
        · simp only [Option.some.injEq] at h
          subst h
          exact ⟨_, rfl⟩
    · cases h

/-- After `addPlaceholderHeightfieldLayer` the tile has an elevation layer, and the
layer has a heightfield. -/
theorem addPlaceholderHeightfieldLayer_elevationLayer (tile : CustomTile)
    (ancestorTile : Option CustomTile) (loc : GeoLocator) (key ancestorKey : TileKey) :
    ∃ layer hf,
      (addPlaceholderHeightfieldLayer tile ancestorTile loc key ancestorKey).elevationLayer =
        some layer ∧ layer.heightField = some hf := by
  unfold addPlaceholderHeightfieldLayer
  simp only []
  cases hi : (inheritHeightfieldLayer tile ancestorTile loc key ancestorKey).2 with
  | none => exact ⟨_, _, rfl, rfl⟩
  | some layer =>
    obtain ⟨hf, hhf⟩ := inheritHeightfieldLayer_heightField _ _ _ _ _ _ hi
    exact ⟨layer, hf, rfl, hhf⟩

theorem stampPlaceholderTile_elevationLayer (f : OSGTileFactory) (map : Map)
    (terrain : CustomTerrain) (tile : CustomTile) :
    (stampPlaceholderTile f map terrain tile).elevationLayer = tile.elevationLayer := by
  unfold stampPlaceholderTile
  simp only []
  split <;> rfl

theorem addClusterCulling_ok (f : OSGTileFactory) (map : Map) (tile : CustomTile)
    (plod : PagedLOD) (layer : HeightFieldLayer) (h : tile.elevationLayer = some layer) :
    ∃ p, addClusterCulling f map tile plod = Except.ok p := by
  unfold addClusterCulling
  split
  · simp only [createClusterCullingCallback, h]
    cases layer.heightField with
    | none => exact ⟨_, rfl⟩
    | some g => exact ⟨_, rfl⟩
  · exact ⟨_, rfl⟩

/-- Summary of `createPlaceholderTile`: it never faults, and it returns null exactly
when the ancestor search finds no registered tile. -/
theorem createPlaceholderTile_ok (f : OSGTileFactory) (map : Map) (terrain : CustomTerrain)
    (key : TileKey) :
    ∃ r, createPlaceholderTile f map terrain key = Except.ok r ∧
      (r.1 = none ↔ (findAncestor terrain key).1 = none) ∧
      ((findAncestor terrain key).1 = none → r.2 = terrain) := by
  unfold createPlaceholderTile
  simp only []
  cases hfa : (findAncestor terrain key).1 with
  | none => exact ⟨_, rfl, by simp, fun _ => rfl⟩
  | some ancestorTile =>
    simp only []
    obtain ⟨layer, hf, hl, hhf⟩ := addPlaceholderHeightfieldLayer_elevationLayer
      (addPlaceholderImageLayers (newPlaceholderTile f map terrain key) (some ancestorTile))
      (some ancestorTile) (GeoLocator.createForKey key) key (findAncestor terrain key).2
    simp only [hl, hhf]
    generalize hT : stampPlaceholderTile f map terrain _ = T
    have hTe : ∃ l, T.elevationLayer = some l := by
      rw [← hT, stampPlaceholderTile_elevationLayer]
      exact ⟨_, withHeightField_elevationLayer _ _ _ hl⟩
    obtain ⟨l, hle⟩ := hTe
    obtain ⟨p, hp⟩ := addClusterCulling_ok f map T (placeholderPagedLOD f key T
      (f.getBound (addPlaceholderHeightfieldLayer
        (addPlaceholderImageLayers (newPlaceholderTile f map terrain key) (some ancestorTile))
        (some ancestorTile) (GeoLocator.createForKey key) key (findAncestor terrain key).2))
      ((f.getBound (addPlaceholderHeightfieldLayer
        (addPlaceholderImageLayers (newPlaceholderTile f map terrain key) (some ancestorTile))
        (some ancestorTile) (GeoLocator.createForKey key) key (findAncestor terrain key).2)).radius
          * f.terrainOptions.minTileRangeFactor) 10000000000) l hle
    rw [hp]
    exact ⟨_, rfl, by simp, fun h => by cases h⟩

/-- The dispatch `createTile` never faults; a placeholder build reports
`validData = true`, a populated build reports what `createPopulatedTile` reports. -/
theorem createTile_ok (f : OSGTileFactory) (map : Map) (terrain : CustomTerrain)
    (key : TileKey) (populateLayers w fb : Bool) :
    ∃ r, createTile f map terrain key populateLayers w fb = Except.ok r ∧
      (populateLayers = false → r.validData = true) := by
  unfold createTile
  cases populateLayers with
  | true =>
    obtain ⟨r, h, _⟩ := createPopulatedTile_ok f map terrain key w fb
    exact ⟨r, by simpa using h, fun hp => by cases hp⟩
  | false =>
    obtain ⟨r, h, _⟩ := createPlaceholderTile_ok f map terrain key
    simp only [Bool.false_eq_true, if_false, h]
    exact ⟨_, rfl, fun _ => rfl⟩

theorem retryQuadrant_ok (f : OSGTileFactory) (map : Map) (populateLayers : Bool) (k : TileKey)
    (q : Option Node) (terrain : CustomTerrain) :
    ∃ r, retryQuadrant f map populateLayers k q terrain = Except.ok r := by
  unfold retryQuadrant
  cases q with
  | some node => exact ⟨_, rfl⟩
  | none =>
    obtain ⟨r, h, _⟩ := createTile_ok f map terrain k populateLayers true true
    simp only [h]
    exact ⟨_, rfl⟩

/-! ## Claims about `createTile` and `createSubTiles` -/

/-- C5: for every map, terrain and key, `createTile` called with
`populateLayers = false` returns and sets `validData` to true, whatever
`createPlaceholderTile` returns: the node and terrain of the result are those of
`createPlaceholderTile`, and when no ancestor is registered the node is null and
`validData` is true all the same. -/
theorem createTile_placeholder_validData (f : OSGTileFactory) (map : Map)
    (terrain : CustomTerrain) (key : TileKey) (wrapInPagedLOD fallback : Bool) :
    ∃ placeholder r,
      createPlaceholderTile f map terrain key = Except.ok placeholder ∧
      createTile f map terrain key false wrapInPagedLOD fallback = Except.ok r ∧
      r.validData = true ∧ r.node = placeholder.1 ∧ r.terrain = placeholder.2 ∧
      ((findAncestor terrain key).1 = none → r.node = none) := by
  obtain ⟨p, hp, hnone, _⟩ := createPlaceholderTile_ok f map terrain key
  refine ⟨p, { node := p.1, validData := true, terrain := p.2 }, hp, ?_, rfl, rfl, rfl, ?_⟩
  · simp [createTile, hp]
  · intro h
    exact hnone.mpr h

/-- C1: for every map, terrain, key and value of `populateLayers`, the four first-pass
`createTile` calls (child keys 0, 1, 2, 3, made with `fallback = false`, each on the
terrain left by the one before) and `createSubTiles` all return, and `createSubTiles`
returns null if and only if each of the four calls reports `validData = false`. -/
theorem createSubTiles_null_iff (f : OSGTileFactory) (map : Map) (terrain : CustomTerrain)
    (key : TileKey) (populateLayers : Bool) :
    ∃ r0 r1 r2 r3 r,
      createTile f map terrain (key.createChildKey 0) populateLayers true false = Except.ok r0 ∧
      createTile f map r0.terrain (key.createChildKey 1) populateLayers true false =
        Except.ok r1 ∧
      createTile f map r1.terrain (key.createChildKey 2) populateLayers true false =
        Except.ok r2 ∧
      createTile f map r2.terrain (key.createChildKey 3) populateLayers true false =
        Except.ok r3 ∧
      createSubTiles f map terrain key populateLayers = Except.ok r ∧
      (r.1 = none ↔
        (r0.validData = false ∧ r1.validData = false ∧ r2.validData = false ∧
          r3.validData = false)) := by
  obtain ⟨r0, h0, _⟩ := createTile_ok f map terrain (key.createChildKey 0) populateLayers true false
  obtain ⟨r1, h1, _⟩ := createTile_ok f map r0.terrain (key.createChildKey 1) populateLayers true false
  obtain ⟨r2, h2, _⟩ := createTile_ok f map r1.terrain (key.createChildKey 2) populateLayers true false
  obtain ⟨r3, h3, _⟩ := createTile_ok f map r2.terrain (key.createChildKey 3) populateLayers true false
  obtain ⟨q0, hq0⟩ := retryQuadrant_ok f map populateLayers (key.createChildKey 0) r0.node r3.terrain
  obtain ⟨q1, hq1⟩ := retryQuadrant_ok f map populateLayers (key.createChildKey 1) r1.node q0.2
  obtain ⟨q2, hq2⟩ := retryQuadrant_ok f map populateLayers (key.createChildKey 2) r2.node q1.2
  obtain ⟨q3, hq3⟩ := retryQuadrant_ok f map populateLayers (key.createChildKey 3) r3.node q2.2
  refine ⟨r0, r1, r2, r3, ?_⟩
  simp only [createSubTiles, bind, Except.bind, pure, Except.pure, h0, h1, h2, h3, hq0, hq1,
    hq2, hq3]
  cases hv0 : r0.validData <;> cases hv1 : r1.validData <;> cases hv2 : r2.validData <;>
    cases hv3 : r3.validData <;>
    exact ⟨_, trivial, trivial, trivial, trivial, rfl, by simp⟩

/-! ## Cache checks -/

theorem keysCached_iff (layer : MapLayer) (cache : Cache) (keys : List TileKey) :
    keysCached layer cache keys = true ↔
      ∀ k ∈ keys, layer.isKeyValid k = true →
        cache.isCached k layer.name layer.cacheFormat = true := by
  induction keys with
  | nil => simp [keysCached]
  | cons k rest ih =>
    unfold keysCached
    cases hv : layer.isKeyValid k with
    | false => simp [hv, ih]
    | true =>
      cases hc : cache.isCached k layer.name layer.cacheFormat with
      | false => simp [hv, hc]
      | true => simp [hv, hc, ih]

theorem layersCached_iff (map : Map) (key : TileKey) (layers : List MapLayer) :
    layersCached map key layers = true ↔
      ∀ layer ∈ layers, ∃ cache, layer.cache = some cache ∧
        keysCached layer cache (layerKeys map layer key) = true := by
  induction layers with
  | nil => simp [layersCached]
  | cons layer rest ih =>
    unfold layersCached
    cases hc : layer.cache with
    | none => simp [hc]
    | some cache =>
      cases hk : keysCached layer cache (layerKeys map layer key) with
      | false => simp [hc, hk]
      | true => simp [hc, hk, ih]

/-- The value of `isCached`: true exactly when every image and heightfield layer has a
cache in which every key of the layer's key set that is valid for the layer is
cached. -/
theorem isCached_iff (map : Map) (key : TileKey) :
    isCached map key = true ↔
      ∀ layer ∈ map.imageMapLayers ++ map.heightFieldMapLayers,
        ∃ cache, layer.cache = some cache ∧
          keysCached layer cache (layerKeys map layer key) = true := by
  unfold isCached
  cases hi : layersCached map key map.imageMapLayers with
  | false =>
    have := (layersCached_iff map key map.imageMapLayers).not.mp (by simp [hi])
    simp only [Bool.false_eq_true, if_false, false_iff]
    intro hall
    exact this (fun layer hl => hall layer (List.mem_append_left _ hl))
  | true =>
    have h1 := (layersCached_iff map key map.imageMapLayers).mp hi
    simp only [if_true]
    rw [layersCached_iff]
    constructor
    · intro h2 layer hl
      cases List.mem_append.mp hl with
      | inl h => exact h1 layer h
      | inr h => exact h2 layer h
    · intro hall layer hl
      exact hall layer (List.mem_append_right _ hl)

/-- C15, as stated, fails: on the sample map whose only layer has a cold cache and no
valid key, `isCached` is true for the root key although the key, which is the layer's
only intersecting key, is not a cache hit. -/
theorem isCached_true_without_cache_hit :
    isCached Sample.coldGlobe Sample.rootKey = true ∧
    ¬(∀ layer ∈ Sample.coldGlobe.imageMapLayers ++ Sample.coldGlobe.heightFieldMapLayers,
        ∃ cache, layer.cache = some cache ∧
          ∀ k ∈ layerKeys Sample.coldGlobe layer Sample.rootKey,
            cache.isCached k layer.name layer.cacheFormat = true) := by
  refine ⟨by decide, ?_⟩
  intro h
  obtain ⟨cache, hc, hk⟩ := h Sample.coldLayer (by simp [Sample.coldGlobe])
  have hcache : cache = Sample.coldCache := by
    simp [Sample.coldLayer] at hc
    exact hc.symm
  have := hk Sample.rootKey (by simp [layerKeys, Sample.coldGlobe, Sample.coldLayer])
  rw [hcache] at this
  simp [Sample.coldCache] at this

/-- C15, amended: `isCached( map, key )` returns true if and only if every image layer
and every heightfield layer of the map has a cache and all of that layer's
intersecting native-profile keys that are valid for the layer (the key itself when
the layer's profile is equivalent to the map's, otherwise the keys given by
`getIntersectingTiles`) are cache hits; with zero configured layers it returns true. -/
theorem isCached_valid_keys_iff (map : Map) (key : TileKey) :
    (isCached map key = true ↔
      ∀ layer ∈ map.imageMapLayers ++ map.heightFieldMapLayers,
        ∃ cache, layer.cache = some cache ∧
          ∀ k ∈ (if map.isEquivalentTo layer.profile = true then [key]
                  else layer.getIntersectingTiles key),
            layer.isKeyValid k = true →
              cache.isCached k layer.name layer.cacheFormat = true) ∧
    (map.imageMapLayers = [] → map.heightFieldMapLayers = [] → isCached map key = true) := by
  constructor
  · rw [isCached_iff]
    simp only [keysCached_iff, layerKeys]
  · intro hi hh
    simp [isCached, layersCached, hi, hh]

/-- C16: `isCached` combines cache state and key validity over the whole key set of
each layer: it returns false when some layer has no cache; when every layer has a
cache it returns true exactly when, for every layer and every key of that layer's key
set, the key is not valid for the layer or the layer's cache reports it cached under
the layer's name and cache format; and keys that are invalid for their layer never
make the result false. -/
theorem isCached_cache_and_validity (map : Map) (key : TileKey) :
    ((∃ layer ∈ map.imageMapLayers ++ map.heightFieldMapLayers, layer.cache = none) →
      isCached map key = false) ∧
    ((∀ layer ∈ map.imageMapLayers ++ map.heightFieldMapLayers, layer.cache ≠ none) →
      (isCached map key = true ↔
        ∀ layer ∈ map.imageMapLayers ++ map.heightFieldMapLayers,
          ∀ cache, layer.cache = some cache →
            ∀ k ∈ layerKeys map layer key,
              layer.isKeyValid k = false ∨
                cache.isCached k layer.name layer.cacheFormat = true)) ∧
    ((∀ layer ∈ map.imageMapLayers ++ map.heightFieldMapLayers, layer.cache ≠ none ∧
        ∀ k ∈ layerKeys map layer key, layer.isKeyValid k = false) →
      isCached map key = true) := by
  have hor : ∀ (layer : MapLayer) (cache : Cache) (k : TileKey),
      (layer.isKeyValid k = false ∨ cache.isCached k layer.name layer.cacheFormat = true) ↔
      (layer.isKeyValid k = true → cache.isCached k layer.name layer.cacheFormat = true) := by
    intro layer cache k
    cases layer.isKeyValid k <;> simp
  refine ⟨?_, ?_, ?_⟩
  · rintro ⟨layer, hl, hc⟩
    cases hr : isCached map key with
    | false => rfl
    | true =>
      obtain ⟨cache, hc2, _⟩ := (isCached_iff map key).mp hr layer hl
      rw [hc] at hc2
      cases hc2
  · intro hall
    rw [isCached_iff]
    simp only [keysCached_iff, hor]
    constructor
    · intro h layer hl cache hc
      obtain ⟨cache2, hc2, hk⟩ := h layer hl
      rw [hc] at hc2
      cases hc2
      exact hk
    · intro h layer hl
      cases hc : layer.cache with
      | none => exact absurd hc (hall layer hl)
      | some cache => exact ⟨cache, rfl, h layer hl cache hc⟩
  · intro hall
    rw [isCached_iff]
    intro layer hl
    obtain ⟨hne, hk⟩ := hall layer hl
    cases hc : layer.cache with
    | none => exact absurd hc hne
    | some cache =>
      refine ⟨cache, rfl, ?_⟩
      rw [keysCached_iff]
      intro k hkm hv
      rw [hk k hkm] at hv
      cases hv

/-! ## Child URIs -/

theorem digitChar_value (d : Nat) (h : d < 10) :
    (Nat.digitChar d).toNat - 48 = d ∧ Nat.digitChar d ≠ '.' := by
  interval_cases d <;> decide

/-- The decimal digits written by `Nat.toDigitsCore`: they are put in front of the
digits already there, they contain no dot, and they read back as the number. -/
theorem toDigitsCore_spec (fuel : Nat) :
    ∀ (n : Nat) (ds : List Char), n < fuel →
      ∃ pre, Nat.toDigitsCore 10 fuel n ds = pre ++ ds ∧ digitsValue pre = n ∧
        ∀ c ∈ pre, c ≠ '.' := by
  induction fuel with
  | zero => intro n ds h; exact absurd h (Nat.not_lt_zero n)
  | succ m ih =>
    intro n ds h
    obtain ⟨hval, hdot⟩ := digitChar_value (n % 10) (Nat.mod_lt n (by decide))
    unfold Nat.toDigitsCore
    simp only []
    by_cases h0 : n / 10 = 0
    · rw [if_pos h0]
      refine ⟨[Nat.digitChar (n % 10)], rfl, ?_, ?_⟩
      · simp only [digitsValue, List.foldl_cons, List.foldl_nil, Nat.zero_mul, Nat.zero_add, hval]
        omega
      · intro c hc
        rw [List.mem_singleton.mp hc]
        exact hdot
    · rw [if_neg h0]
      have hlt : n / 10 < m := by omega
      obtain ⟨pre, hpre, hv, hd⟩ := ih (n / 10) (Nat.digitChar (n % 10) :: ds) hlt
      refine ⟨pre ++ [Nat.digitChar (n % 10)], ?_, ?_, ?_⟩
      · rw [hpre]; simp
      · have hv2 : List.foldl (fun acc c => acc * 10 + (c.toNat - 48)) 0 pre = n / 10 := hv
        simp only [digitsValue, List.foldl_append, List.foldl_cons, List.foldl_nil, hv2, hval]
        omega
      · intro c hc
        cases List.mem_append.mp hc with
        | inl h1 => exact hd c h1
        | inr h1 =>
          rw [List.mem_singleton.mp h1]
          exact hdot

theorem toDigits_spec (n : Nat) :
    digitsValue (Nat.toDigits 10 n) = n ∧ ∀ c ∈ Nat.toDigits 10 n, c ≠ '.' := by
  obtain ⟨pre, hpre, hv, hd⟩ := toDigitsCore_spec (n + 1) n [] (Nat.lt_succ_self n)
  have : Nat.toDigits 10 n = pre := by
    simp [Nat.toDigits, hpre]
  rw [this]
  exact ⟨hv, hd⟩

theorem createURI_data (f : OSGTileFactory) (id : Nat) (key : TileKey) :
    (createURI f id key).data =
      (f.keyStr key).data ++ '.' :: (Nat.toDigits 10 id ++ uriSuffix.data) := by
  simp [createURI, uriSuffix, toString, Nat.repr, String.data_append, List.asString]

theorem takeWhile_dropWhile_stop {α : Type} (p : α → Bool) (x : α) (rest : List α)
    (hx : p x = false) :
    ∀ l : List α, (∀ c ∈ l, p c = true) →
      List.takeWhile p (l ++ x :: rest) = l ∧ List.dropWhile p (l ++ x :: rest) = x :: rest := by
  intro l
  induction l with
  | nil => intro _; simp [List.takeWhile, List.dropWhile, hx]
  | cons a tl ih =>
    intro h
    have ha : p a = true := h a (List.mem_cons_self a tl)
    obtain ⟨h1, h2⟩ := ih (fun c hc => h c (List.mem_cons_of_mem a hc))
    simp [List.takeWhile, List.dropWhile, ha, h1, h2]

/-- Decoding a string made of a key string, a dot, digits without a dot and the fixed
suffix gives back the number of the digits and the key string. -/
theorem decodeURI_parts (ks ds : List Char) (hd : ∀ c ∈ ds, c ≠ '.') :
    decodeURI (String.mk ((ks ++ '.' :: ds) ++ uriSuffix.data)) =
      some (digitsValue ds, String.mk ks) := by
  have hp : ∀ c ∈ ds.reverse, (fun c : Char => c != '.') c = true := by
    intro c hc
    simpa using hd c (List.mem_reverse.mp hc)
  obtain ⟨ht, hdw⟩ := takeWhile_dropWhile_stop (fun c : Char => c != '.') '.' ks.reverse
    (by decide) ds.reverse hp
  have hlen : ((ks ++ '.' :: ds) ++ uriSuffix.data).length - uriSuffix.data.length =
      (ks ++ '.' :: ds).length := by
    rw [List.length_append]; omega
  have hrev : (ks ++ '.' :: ds).reverse = ds.reverse ++ '.' :: ks.reverse := by
    simp
  unfold decodeURI
  simp only [hlen, List.drop_left, List.take_left, if_true, hrev, ht, hdw, List.reverse_reverse]

/-- C17: the child URI round-trips: `createURI( id, key )` is the key string, a dot,
the decimal engine id and the suffix `.osgearth_osgterrain_tile`; stripping the fixed
suffix and splitting at the last remaining dot recovers the engine id and the key
string for every input; hence equal URIs have equal engine ids and equal key
strings. -/
theorem createURI_round_trip (f : OSGTileFactory) :
    (∀ (id : Nat) (key : TileKey),
      createURI f id key =
        f.keyStr key ++ "." ++ toString id ++ ".osgearth_osgterrain_tile") ∧
    (∀ (id : Nat) (key : TileKey),
      decodeURI (createURI f id key) = some (id, f.keyStr key)) ∧
    (∀ (id1 id2 : Nat) (k1 k2 : TileKey),
      createURI f id1 k1 = createURI f id2 k2 → id1 = id2 ∧ f.keyStr k1 = f.keyStr k2) := by
  have hdec : ∀ (id : Nat) (key : TileKey),
      decodeURI (createURI f id key) = some (id, f.keyStr key) := by
    intro id key
    have hs : createURI f id key =
        String.mk (((f.keyStr key).data ++ '.' :: Nat.toDigits 10 id) ++ uriSuffix.data) := by
      apply String.ext
      rw [createURI_data]
      simp
    rw [hs, decodeURI_parts _ _ (toDigits_spec id).2, (toDigits_spec id).1]
  refine ⟨fun _ _ => rfl, hdec, ?_⟩
  intro id1 id2 k1 k2 h
  have h1 := hdec id1 k1
  rw [h, hdec id2 k2] at h1
  simp only [Option.some.injEq, Prod.mk.injEq] at h1
  exact ⟨h1.1.symm, h1.2.symm⟩

/-! ## The heightfield of a populated tile, case by case -/

/-- Where the heightfield of a populated tile comes from, after the fill-in step. -/
theorem fillMissingHeightField_cases (f : OSGTileFactory) (map : Map) (key : TileKey)
    (hfield : HeightField)
    (h : (fillMissingHeightField f map key (firstHeightField f map key)
      (firstHeightField f map key).isSome).1 = some hfield) :
    (map.heightFieldMapLayers ≠ [] ∧
      map.createHeightField key false f.terrainOptions.elevationInterpolation = some hfield) ∨
    (map.heightFieldMapLayers = [] ∧ hfield = createEmptyHeightFieldDefault f key) ∨
    (map.heightFieldMapLayers ≠ [] ∧
      map.createHeightField key false f.terrainOptions.elevationInterpolation = none ∧
      ¬(map.isGeocentric = true ∧ key.getLevelOfDetail ≤ 1) ∧
      map.createHeightField key true f.terrainOptions.elevationInterpolation = some hfield) ∨
    (map.heightFieldMapLayers ≠ [] ∧
      map.createHeightField key false f.terrainOptions.elevationInterpolation = none ∧
      ((map.isGeocentric = true ∧ key.getLevelOfDetail ≤ 1) ∨
        map.createHeightField key true f.terrainOptions.elevationInterpolation = none) ∧
      hfield = createEmptyHeightFieldDefault f key) := by
  by_cases hl : map.heightFieldMapLayers = []
  · rw [fillMissingHeightField_no_layers f map key hl] at h
    exact Or.inr (Or.inl ⟨hl, (Option.some.inj h).symm⟩)
  · have hpos : map.heightFieldMapLayers.length > 0 := List.length_pos.mpr hl
    have hlen : ¬ map.heightFieldMapLayers.length = 0 := by omega
    cases hc : map.createHeightField key false f.terrainOptions.elevationInterpolation with
    | some h0 =>
      have hfirst : firstHeightField f map key = some h0 := by
        simp [firstHeightField, hpos, hc]
      rw [hfirst] at h
      simp only [fillMissingHeightField] at h
      exact Or.inl ⟨hl, by rw [← Option.some.inj h]⟩
    | none =>
      by_cases hg : map.isGeocentric = true ∧ key.getLevelOfDetail ≤ 1
      · rw [firstHeightField_synthesized f map key hg.1 hg.2 (Or.inr hc)] at h
        simp only [fillMissingHeightField] at h
        exact Or.inr (Or.inr (Or.inr ⟨hl, rfl, Or.inl hg, (Option.some.inj h).symm⟩))
      · have hfirst : firstHeightField f map key = none :=
          (firstHeightField_eq_none f map key).mpr ⟨Or.inr hc, hg⟩
        rw [hfirst] at h
        cases ht : map.createHeightField key true f.terrainOptions.elevationInterpolation with
        | some h1 =>
          simp only [fillMissingHeightField, hlen, if_false, ht] at h
          exact Or.inr (Or.inr (Or.inl ⟨hl, rfl, hg, by rw [← Option.some.inj h]⟩))
        | none =>
          simp only [fillMissingHeightField, hlen, if_false, ht] at h
          exact Or.inr (Or.inr (Or.inr ⟨hl, rfl, Or.inr rfl, (Option.some.inj h).symm⟩))

/-- C11: `createPopulatedTile` always returns (the skirt-height write never meets a
null heightfield), and every tile it returns has a non-null heightfield with its skirt
written in its elevation layer. Its samples are those of the map's heightfield for the
key (asked without fallback), or of the synthesized empty heightfield when the map has
no heightfield layers, or of the heightfield of the retry with fallback enabled, or of
the synthesized empty heightfield as last resort (the map has heightfield layers that
gave nothing without fallback, and either the map is geocentric and the level is 0 or
1, or the retry gave nothing as well). -/
theorem createPopulatedTile_heightfield_never_null (f : OSGTileFactory) (map : Map)
    (terrain : CustomTerrain) (key : TileKey) (wrapInPagedLOD fallback : Bool) :
    ∃ r, createPopulatedTile f map terrain key wrapInPagedLOD fallback = Except.ok r ∧
      ∀ node, r.node = some node →
        ∃ tile layer hfield, node.getTile = some tile ∧
          tile.elevationLayer = some layer ∧ layer.heightField = some hfield ∧
          hfield.skirtHeight ≠ none ∧
          ((map.heightFieldMapLayers ≠ [] ∧
              ∃ h, map.createHeightField key false
                f.terrainOptions.elevationInterpolation = some h ∧ hfield.source = h.source) ∨
            (map.heightFieldMapLayers = [] ∧
              hfield.source = (createEmptyHeightFieldDefault f key).source) ∨
            (map.heightFieldMapLayers ≠ [] ∧
              map.createHeightField key false
                f.terrainOptions.elevationInterpolation = none ∧
              ¬(map.isGeocentric = true ∧ key.getLevelOfDetail ≤ 1) ∧
              ∃ h, map.createHeightField key true
                f.terrainOptions.elevationInterpolation = some h ∧ hfield.source = h.source) ∨
            (map.heightFieldMapLayers ≠ [] ∧
              map.createHeightField key false
                f.terrainOptions.elevationInterpolation = none ∧
              ((map.isGeocentric = true ∧ key.getLevelOfDetail ≤ 1) ∨
                map.createHeightField key true
                  f.terrainOptions.elevationInterpolation = none) ∧
              hfield.source = (createEmptyHeightFieldDefault f key).source)) := by
  obtain ⟨r, h1, _, _, h4⟩ := createPopulatedTile_ok f map terrain key wrapInPagedLOD fallback
  refine ⟨r, h1, ?_⟩
  intro node hn
  obtain ⟨tile, h, skirt, ht, _, hfill, hel⟩ := h4 node hn
  have hsrc := heightField_source_after_writes (isPlateCarre map) h skirt
  refine ⟨tile, _, _, ht, hel, rfl, ?_, ?_⟩
  · simp [HeightField.setSkirtHeight]
  · rw [hsrc]
    rcases fillMissingHeightField_cases f map key h hfill with
      ⟨a1, a2⟩ | ⟨b1, b2⟩ | ⟨c1, c2, c3, c4⟩ | ⟨d1, d2, d3, d4⟩
    · exact Or.inl ⟨a1, h, a2, rfl⟩
    · exact Or.inr (Or.inl ⟨b1, by rw [b2]⟩)
    · exact Or.inr (Or.inr (Or.inl ⟨c1, c2, c3, h, c4, rfl⟩))
    · exact Or.inr (Or.inr (Or.inr ⟨d1, d2, d3, by rw [d4]⟩))

/-! ## The ancestor search of a placeholder build -/

theorem findAncestorLoop_found (terrain : CustomTerrain) (fuel : Nat) (t : CustomTile)
    (k : TileKey) : findAncestorLoop terrain fuel (some t) k = some (some t, k) := by
  cases fuel <;> simp [findAncestorLoop]

/-- What the ancestor search returns when it starts without a tile: a tile is the one
registered for the first key of the chain that has a registered tile, and that key is
returned with it; null means that no valid key of the chain has a registered tile. -/
theorem findAncestorLoop_spec (terrain : CustomTerrain) (fuel : Nat) :
    ∀ (k : TileKey) (res : Option CustomTile) (rk : TileKey),
      findAncestorLoop terrain fuel none k = some (res, rk) →
      (∀ t, res = some t →
        ∃ i, (k.ancestorKey i).valid = true ∧
          terrain.getCustomTile (k.ancestorKey i).getTileId = some t ∧
          rk = k.ancestorKey i ∧
          ∀ j, j < i → terrain.getCustomTile (k.ancestorKey j).getTileId = none) ∧
      (res = none →
        ∀ i, (k.ancestorKey i).valid = true →
          terrain.getCustomTile (k.ancestorKey i).getTileId = none) := by
  induction fuel with
  | zero =>
    intro k res rk h
    unfold findAncestorLoop at h
    cases hv : k.valid with
    | true => simp [hv] at h
    | false =>
      simp only [hv, Option.isSome_none, Bool.not_false, Bool.and_false, Bool.false_eq_true,
        if_false, Option.some.injEq, Prod.mk.injEq] at h
      obtain ⟨h1, _⟩ := h
      subst h1
      refine ⟨fun t ht => (by cases ht), fun _ i hvi => ?_⟩
      rw [ancestorKey_invalid i k hv] at hvi
      cases hvi
  | succ n ih =>
    intro k res rk h
    unfold findAncestorLoop at h
    cases hv : k.valid with
    | false =>
      simp only [hv, Option.isSome_none, Bool.not_false, Bool.and_false, Bool.false_eq_true,
        if_false, Option.some.injEq, Prod.mk.injEq] at h
      obtain ⟨h1, _⟩ := h
      subst h1
      refine ⟨fun t ht => (by cases ht), fun _ i hvi => ?_⟩
      rw [ancestorKey_invalid i k hv] at hvi
      cases hvi
    | true =>
      simp only [hv, Option.isSome_none, Bool.not_false, Bool.and_self, if_true] at h
      cases hg : terrain.getCustomTile k.getTileId with
      | some found =>
        simp only [hg, findAncestorLoop_found, Option.some.injEq, Prod.mk.injEq] at h
        obtain ⟨h1, h2⟩ := h
        subst h1
        subst h2
        constructor
        · intro t ht
          cases ht
          exact ⟨0, by simpa [TileKey.ancestorKey] using hv,
            by simpa [TileKey.ancestorKey] using hg, by simp [TileKey.ancestorKey],
            fun j hj => absurd hj (Nat.not_lt_zero j)⟩
        · intro hr
          cases hr
      | none =>
        simp only [hg] at h
        obtain ⟨ih1, ih2⟩ := ih k.createParentKey res rk h
        constructor
        · intro t ht
          obtain ⟨i, hv1, hg1, hrk, hmin⟩ := ih1 t ht
          refine ⟨i + 1, ?_, ?_, ?_, ?_⟩
          · rw [ancestorKey_succ]; exact hv1
          · rw [ancestorKey_succ]; exact hg1
          · rw [ancestorKey_succ]; exact hrk
          · intro j hj
            cases j with
            | zero => simpa [TileKey.ancestorKey] using hg
            | succ j2 =>
              rw [ancestorKey_succ]
              exact hmin j2 (Nat.lt_of_succ_lt_succ hj)
        · intro hr i hvi
          cases i with
          | zero => simpa [TileKey.ancestorKey] using hg
          | succ i2 =>
            rw [ancestorKey_succ] at hvi ⊢
            exact ih2 hr i2 hvi

/-- The level of a valid key of the parent chain: key number `i` is `i` levels up. -/
theorem ancestorKey_level (i : Nat) :
    ∀ key : TileKey, (key.ancestorKey i).valid = true →
      (key.ancestorKey i).lod + i = key.lod := by
  induction i with
  | zero => intro key _; simp [TileKey.ancestorKey]
  | succ n ih =>
    intro key hv
    rw [ancestorKey_succ] at hv ⊢
    have hpv : key.createParentKey.valid = true := by
      cases hp : key.createParentKey.valid with
      | true => rfl
      | false =>
        rw [ancestorKey_invalid n _ hp] at hv
        cases hv
    have h0 : key.lod ≠ 0 := by
      intro h0
      simp [TileKey.createParentKey, h0, TileKey.INVALID, TileKey.valid] at hpv
    have hpl : key.createParentKey.lod = key.lod - 1 := by
      simp [TileKey.createParentKey, h0]
    have := ih key.createParentKey hv
    omega

/-- The ancestor search of `createPlaceholderTile` seen from the key: the tile found is
the one registered for the nearest key of the chain parent(key), parent(parent(key)),
... that has a registered tile; nothing is found exactly when no valid key of that
chain has one. -/
theorem findAncestor_spec (terrain : CustomTerrain) (key : TileKey) :
    (∀ t ak, findAncestor terrain key = (some t, ak) →
      ∃ i, 0 < i ∧ ak = key.ancestorKey i ∧ (key.ancestorKey i).valid = true ∧
        terrain.getCustomTile (key.ancestorKey i).getTileId = some t ∧
        (∀ j, 0 < j → j < i → terrain.getCustomTile (key.ancestorKey j).getTileId = none) ∧
        (key.ancestorKey i).getLevelOfDetail < key.getLevelOfDetail) ∧
    ((findAncestor terrain key).1 = none ↔
      ∀ i, 0 < i → (key.ancestorKey i).valid = true →
        terrain.getCustomTile (key.ancestorKey i).getTileId = none) := by
  obtain ⟨r, hr, hfa⟩ := findAncestor_finishes terrain key
  obtain ⟨res, rk⟩ := r
  obtain ⟨s1, s2⟩ := findAncestorLoop_spec terrain (key.lod + 1) key.createParentKey res rk hr
  constructor
  · intro t ak h
    rw [hfa] at h
    simp only [Prod.mk.injEq] at h
    obtain ⟨h1, h2⟩ := h
    subst h2
    obtain ⟨i, hv, hg, hrk, hmin⟩ := s1 t h1
    rw [← ancestorKey_succ] at hv hg hrk
    refine ⟨i + 1, Nat.succ_pos i, hrk, hv, hg, ?_, ?_⟩
    · intro j hj hji
      obtain ⟨j2, rfl⟩ : ∃ j2, j = j2 + 1 := ⟨j - 1, by omega⟩
      rw [ancestorKey_succ]
      exact hmin j2 (by omega)
    · have := ancestorKey_level (i + 1) key hv
      simp only [TileKey.getLevelOfDetail]
      omega
  · rw [hfa]
    constructor
    · intro hnone i hi hv
      obtain ⟨i2, rfl⟩ : ∃ i2, i = i2 + 1 := ⟨i - 1, by omega⟩
      rw [ancestorKey_succ] at hv ⊢
      exact s2 hnone i2 hv
    · intro hall
      cases hres : res with
      | none => rfl
      | some t =>
        obtain ⟨i, hv, hg, _, _⟩ := s1 t hres
        rw [← ancestorKey_succ] at hv hg
        have := hall (i + 1) (Nat.succ_pos i) hv
        rw [hg] at this
        cases this

/-! ## The stages of a placeholder tile -/

theorem newPlaceholderTile_colorLayers (f : OSGTileFactory) (map : Map)
    (terrain : CustomTerrain) (key : TileKey) :
    (newPlaceholderTile f map terrain key).colorLayers = [] := by
  unfold newPlaceholderTile
  simp only []
  split <;> rfl

theorem newPlaceholderTile_key (f : OSGTileFactory) (map : Map)
    (terrain : CustomTerrain) (key : TileKey) :
    (newPlaceholderTile f map terrain key).key = key := by
  unfold newPlaceholderTile
  simp only []
  split <;> rfl

theorem addPlaceholderImageLayers_range (ancestor : CustomTile) (tile : CustomTile)
    (h0 : tile.colorLayers = []) :
    ∀ n, n ≤ ancestor.colorLayers.length →
      (List.range n).foldl (fun t j => t.setColorLayer j (ancestor.getColorLayer j)) tile =
        { tile with colorLayers := ancestor.colorLayers.take n } := by
  intro n
  induction n with
  | zero =>
    intro _
    cases tile
    simp_all
  | succ m ih =>
    intro hm
    have hlt : m < ancestor.colorLayers.length := hm
    rw [List.range_succ, List.foldl_append, ih (Nat.le_of_lt hlt)]
    have hlen : (List.take m ancestor.colorLayers).length = m := by
      rw [List.length_take]; omega
    have hget : ancestor.getColorLayer m = ancestor.colorLayers.get ⟨m, hlt⟩ := by
      simp [CustomTile.getColorLayer, List.getElem?_eq_getElem hlt]
    simp only [List.foldl_cons, List.foldl_nil, CustomTile.setColorLayer, hget]
    have hs : setSlot none (List.take m ancestor.colorLayers) m
        (ancestor.colorLayers.get ⟨m, hlt⟩) =
        List.take (m + 1) ancestor.colorLayers := by
      have := setSlot_at_length none (List.take m ancestor.colorLayers)
        (ancestor.colorLayers.get ⟨m, hlt⟩)
      rw [hlen] at this
      rw [this, List.take_succ, List.getElem?_eq_getElem hlt]
      simp
    rw [hs]

/-- The imagery of a placeholder: a tile without colour layers gets exactly the colour
layers of the ancestor, slot by slot. -/
theorem addPlaceholderImageLayers_eq (ancestor tile : CustomTile)
    (h0 : tile.colorLayers = []) :
    addPlaceholderImageLayers tile (some ancestor) =
      { tile with colorLayers := ancestor.colorLayers } := by
  unfold addPlaceholderImageLayers
  simp only [CustomTile.getNumColorLayers]
  rw [addPlaceholderImageLayers_range ancestor tile h0 _ (Nat.le_refl _), List.take_length]

theorem addPlaceholderHeightfieldLayer_keeps (tile : CustomTile)
    (ancestorTile : Option CustomTile) (loc : GeoLocator) (key ancestorKey : TileKey) :
    (addPlaceholderHeightfieldLayer tile ancestorTile loc key ancestorKey).colorLayers =
      tile.colorLayers ∧
    (addPlaceholderHeightfieldLayer tile ancestorTile loc key ancestorKey).key = tile.key := by
  unfold addPlaceholderHeightfieldLayer inheritHeightfieldLayer
  cases ancestorTile with
  | none => exact ⟨rfl, rfl⟩
  | some a =>
    cases hv : ancestorKey.valid with
    | false => simp [hv]
    | true =>
      cases hl : a.elevationLayer with
      | none => simp [hv, hl]
      | some al =>
        cases hh : al.heightField with
        | none => simp [hv, hl, hh]
        | some ahf => simp [hv, hl, hh]

/-- The elevation of a placeholder when the ancestor has a heightfield and its key is
valid: the subsample of the ancestor's heightfield, with the ancestor's elevation LOD. -/
theorem addPlaceholderHeightfieldLayer_inherits (tile ancestor : CustomTile)
    (loc : GeoLocator) (key ancestorKey : TileKey) (al : HeightFieldLayer) (ahf : HeightField)
    (hv : ancestorKey.valid = true) (hl : ancestor.elevationLayer = some al)
    (hh : al.heightField = some ahf) :
    (addPlaceholderHeightfieldLayer tile (some ancestor) loc key ancestorKey).elevationLayer =
      some { locator := some loc
             heightField := some
               (createSubSample ahf ancestorKey.getGeoExtent key.getGeoExtent) } ∧
    (addPlaceholderHeightfieldLayer tile (some ancestor) loc key ancestorKey).elevationLOD =
      ancestor.elevationLOD := by
  unfold addPlaceholderHeightfieldLayer inheritHeightfieldLayer
  simp [hv, hl, hh]

/-- The elevation of a placeholder when the ancestor has no elevation layer, or a layer
without heightfield, or an invalid key: the synthesized 8 by 8 heightfield for the key,
with elevation LOD -1. -/
theorem addPlaceholderHeightfieldLayer_synthesizes (tile ancestor : CustomTile)
    (loc : GeoLocator) (key ancestorKey : TileKey)
    (h : ancestorKey.valid = false ∨ ancestor.elevationLayer = none ∨
      ∃ al, ancestor.elevationLayer = some al ∧ al.heightField = none) :
    (addPlaceholderHeightfieldLayer tile (some ancestor) loc key ancestorKey).elevationLayer =
      some { locator := some loc
             heightField := some (createEmptyHeightField key 8 8) } ∧
    (addPlaceholderHeightfieldLayer tile (some ancestor) loc key ancestorKey).elevationLOD =
      -1 := by
  unfold addPlaceholderHeightfieldLayer inheritHeightfieldLayer
  rcases h with hv | hl | ⟨al, hl, hh⟩
  · simp [hv]
  · cases hv : ancestorKey.valid with
    | false => simp [hv]
    | true => simp [hv, hl]
  · cases hv : ancestorKey.valid with
    | false => simp [hv]
    | true => simp [hv, hl, hh]

theorem stampPlaceholderTile_keeps (f : OSGTileFactory) (map : Map)
    (terrain : CustomTerrain) (tile : CustomTile) :
    (stampPlaceholderTile f map terrain tile).colorLayers = tile.colorLayers ∧
    (stampPlaceholderTile f map terrain tile).elevationLOD = tile.elevationLOD ∧
    (stampPlaceholderTile f map terrain tile).key = tile.key := by
  unfold stampPlaceholderTile
  simp only []
  split <;> exact ⟨rfl, rfl, rfl⟩

theorem addClusterCulling_keeps (f : OSGTileFactory) (map : Map) (tile : CustomTile)
    (plod p : PagedLOD) (h : addClusterCulling f map tile plod = Except.ok p) :
    p.children = plod.children ∧ p.rangeList = plod.rangeList ∧
      p.fileNames = plod.fileNames ∧ p.center = plod.center := by
  unfold addClusterCulling at h
  split at h
  · split at h
    · cases h
    · cases h
      exact ⟨rfl, rfl, rfl, rfl⟩
  · cases h
    exact ⟨rfl, rfl, rfl, rfl⟩

theorem placeholder_heightField_source (pc : Bool) (h : HeightField) (skirt : ℚ) :
    (if pc = true then scaleHeightFieldToDegrees (h.setSkirtHeight skirt)
      else h.setSkirtHeight skirt).source = h.source := by
  cases pc <;> rfl

theorem placeholderPagedLOD_fields (f : OSGTileFactory) (key : TileKey) (tile : CustomTile)
    (bs : BoundingSphere) (lo hi : ℚ) :
    (placeholderPagedLOD f key tile bs lo hi).children = [tile] ∧
    (key.getLevelOfDetail < f.terrainOptions.maxLOD →
      (placeholderPagedLOD f key tile bs lo hi).rangeList = [(lo, hi), (0, lo)] ∧
      (placeholderPagedLOD f key tile bs lo hi).fileNames = ["", createURI f f.engineId key]) ∧
    (¬ key.getLevelOfDetail < f.terrainOptions.maxLOD →
      (placeholderPagedLOD f key tile bs lo hi).rangeList = [(0, FLT_MAX)] ∧
      (placeholderPagedLOD f key tile bs lo hi).fileNames = [""]) := by
  unfold placeholderPagedLOD
  by_cases h : key.getLevelOfDetail < f.terrainOptions.maxLOD
  · simp [h, setSlot]
  · simp [h, setSlot]

/-- The placeholder build when the ancestor search has found a tile: the tile with the
inherited layers has an elevation layer with a heightfield; the skirt is written to
it, the tile is stamped, wrapped in its paged LOD and registered. -/
theorem createPlaceholderTile_built (f : OSGTileFactory) (map : Map) (terrain : CustomTerrain)
    (key : TileKey) (a : CustomTile) (ak : TileKey)
    (hfa : findAncestor terrain key = (some a, ak)) :
    ∃ layer hf plod tile,
      (inheritedPlaceholderTile f map terrain key a ak).elevationLayer = some layer ∧
      layer.heightField = some hf ∧
      tile = stampPlaceholderTile f map terrain
        (withHeightField (inheritedPlaceholderTile f map terrain key a ak)
          (if isPlateCarre map = true then
            scaleHeightFieldToDegrees (hf.setSkirtHeight
              ((f.getBound (inheritedPlaceholderTile f map terrain key a ak)).radius *
                f.terrainOptions.heightFieldSkirtRatio))
          else hf.setSkirtHeight
              ((f.getBound (inheritedPlaceholderTile f map terrain key a ak)).radius *
                f.terrainOptions.heightFieldSkirtRatio))) ∧
      addClusterCulling f map tile
        (placeholderPagedLOD f key tile
          (f.getBound (inheritedPlaceholderTile f map terrain key a ak))
          ((f.getBound (inheritedPlaceholderTile f map terrain key a ak)).radius *
            f.terrainOptions.minTileRangeFactor) 10000000000) = Except.ok plod ∧
      createPlaceholderTile f map terrain key =
        Except.ok (some (Node.pagedLOD plod), terrain.registerTile tile) := by
  obtain ⟨layer, hf, hl, hhf⟩ := addPlaceholderHeightfieldLayer_elevationLayer
    (addPlaceholderImageLayers (newPlaceholderTile f map terrain key) (some a))
    (some a) (GeoLocator.createForKey key) key ak
  have hl2 : (inheritedPlaceholderTile f map terrain key a ak).elevationLayer = some layer := hl
  obtain ⟨l2, hle⟩ : ∃ l, (stampPlaceholderTile f map terrain
        (withHeightField (inheritedPlaceholderTile f map terrain key a ak)
          (if isPlateCarre map = true then
            scaleHeightFieldToDegrees (hf.setSkirtHeight
              ((f.getBound (inheritedPlaceholderTile f map terrain key a ak)).radius *
                f.terrainOptions.heightFieldSkirtRatio))
          else hf.setSkirtHeight
              ((f.getBound (inheritedPlaceholderTile f map terrain key a ak)).radius *
                f.terrainOptions.heightFieldSkirtRatio)))).elevationLayer = some l := by
    rw [stampPlaceholderTile_elevationLayer]
    exact ⟨_, withHeightField_elevationLayer _ _ _ hl2⟩
  obtain ⟨p, hp⟩ := addClusterCulling_ok f map _ (placeholderPagedLOD f key
    (stampPlaceholderTile f map terrain
        (withHeightField (inheritedPlaceholderTile f map terrain key a ak)
          (if isPlateCarre map = true then
            scaleHeightFieldToDegrees (hf.setSkirtHeight
              ((f.getBound (inheritedPlaceholderTile f map terrain key a ak)).radius *
                f.terrainOptions.heightFieldSkirtRatio))
          else hf.setSkirtHeight
              ((f.getBound (inheritedPlaceholderTile f map terrain key a ak)).radius *
                f.terrainOptions.heightFieldSkirtRatio))))
    (f.getBound (inheritedPlaceholderTile f map terrain key a ak))
    ((f.getBound (inheritedPlaceholderTile f map terrain key a ak)).radius *
      f.terrainOptions.minTileRangeFactor) 10000000000) l2 hle
  refine ⟨layer, hf, p, _, hl2, hhf, rfl, hp, ?_⟩
  unfold createPlaceholderTile
  simp only [hfa]
  unfold inheritedPlaceholderTile at hl2 hp
  simp only [hl2, hhf, hp]
  rfl

theorem inheritedPlaceholderTile_keeps (f : OSGTileFactory) (map : Map)
    (terrain : CustomTerrain) (key : TileKey) (a : CustomTile) (ak : TileKey) :
    (inheritedPlaceholderTile f map terrain key a ak).colorLayers = a.colorLayers ∧
    (inheritedPlaceholderTile f map terrain key a ak).key = key := by
  unfold inheritedPlaceholderTile
  obtain ⟨h1, h2⟩ := addPlaceholderHeightfieldLayer_keeps
    (addPlaceholderImageLayers (newPlaceholderTile f map terrain key) (some a))
    (some a) (GeoLocator.createForKey key) key ak
  rw [h1, h2, addPlaceholderImageLayers_eq a _ (newPlaceholderTile_colorLayers f map terrain key)]
  exact ⟨rfl, newPlaceholderTile_key f map terrain key⟩

/-- What a placeholder build yields from the ancestor it found at a valid key: a paged
LOD around a tile for the key with the ancestor's colour layers; an elevation layer
with the key's locator and a heightfield that is the subsample of the ancestor's, with
the ancestor's elevation LOD, or, when the ancestor has none, the synthesized 8 by 8
heightfield with elevation LOD -1; and the ranges and file names of the paged LOD. -/
theorem createPlaceholderTile_inherits (f : OSGTileFactory) (map : Map)
    (terrain : CustomTerrain) (key : TileKey) (a : CustomTile) (ak : TileKey)
    (hfa : findAncestor terrain key = (some a, ak)) (hv : ak.valid = true) :
    ∃ plod tile layer hf,
      createPlaceholderTile f map terrain key =
        Except.ok (some (Node.pagedLOD plod), terrain.registerTile tile) ∧
      plod.children = [tile] ∧ tile.key = key ∧ tile.colorLayers = a.colorLayers ∧
      tile.elevationLayer = some layer ∧
      layer.locator = some (GeoLocator.createForKey key) ∧ layer.heightField = some hf ∧
      (∀ al ahf, a.elevationLayer = some al → al.heightField = some ahf →
        hf.source = (createSubSample ahf ak.getGeoExtent key.getGeoExtent).source ∧
        tile.elevationLOD = a.elevationLOD) ∧
      ((a.elevationLayer = none ∨ ∃ al, a.elevationLayer = some al ∧ al.heightField = none) →
        hf.source = (createEmptyHeightField key 8 8).source ∧ tile.elevationLOD = -1) ∧
      (key.getLevelOfDetail < f.terrainOptions.maxLOD →
        plod.rangeList =
          [((f.getBound (inheritedPlaceholderTile f map terrain key a ak)).radius *
              f.terrainOptions.minTileRangeFactor, 10000000000),
            (0, (f.getBound (inheritedPlaceholderTile f map terrain key a ak)).radius *
              f.terrainOptions.minTileRangeFactor)] ∧
        plod.fileNames = ["", createURI f f.engineId key]) ∧
      (¬ key.getLevelOfDetail < f.terrainOptions.maxLOD →
        plod.rangeList = [(0, FLT_MAX)] ∧ plod.fileNames = [""]) := by
  obtain ⟨layer0, hf0, plod, tile, hl, hhf, htile, hp, hres⟩ :=
    createPlaceholderTile_built f map terrain key a ak hfa
  obtain ⟨hPc, hPk⟩ := inheritedPlaceholderTile_keeps f map terrain key a ak
  obtain ⟨hc1, hc2, hc3, _⟩ := addClusterCulling_keeps f map tile _ plod hp
  obtain ⟨hf1, hf2, hf3⟩ := placeholderPagedLOD_fields f key tile
    (f.getBound (inheritedPlaceholderTile f map terrain key a ak))
    ((f.getBound (inheritedPlaceholderTile f map terrain key a ak)).radius *
      f.terrainOptions.minTileRangeFactor) 10000000000
  obtain ⟨hfw, hfwdef⟩ : ∃ x : HeightField, x =
      (if isPlateCarre map = true then
        scaleHeightFieldToDegrees (hf0.setSkirtHeight
          ((f.getBound (inheritedPlaceholderTile f map terrain key a ak)).radius *
            f.terrainOptions.heightFieldSkirtRatio))
      else hf0.setSkirtHeight
          ((f.getBound (inheritedPlaceholderTile f map terrain key a ak)).radius *
            f.terrainOptions.heightFieldSkirtRatio)) := ⟨_, rfl⟩
  rw [← hfwdef] at htile
  have hte : tile.elevationLayer = some { layer0 with heightField := some hfw } := by
    rw [htile, stampPlaceholderTile_elevationLayer]
    exact withHeightField_elevationLayer _ _ _ hl
  obtain ⟨hs1, hs2, hs3⟩ := stampPlaceholderTile_keeps f map terrain
    (withHeightField (inheritedPlaceholderTile f map terrain key a ak) hfw)
  rw [← htile] at hs1 hs2 hs3
  have hlod : tile.elevationLOD =
      (inheritedPlaceholderTile f map terrain key a ak).elevationLOD := hs2
  have hsrc : hfw.source = hf0.source := by
    rw [hfwdef]
    exact placeholder_heightField_source (isPlateCarre map) hf0 _
  have hbranch :
      layer0.locator = some (GeoLocator.createForKey key) ∧
      (∀ al ahf, a.elevationLayer = some al → al.heightField = some ahf →
        hf0.source = (createSubSample ahf ak.getGeoExtent key.getGeoExtent).source ∧
        (inheritedPlaceholderTile f map terrain key a ak).elevationLOD = a.elevationLOD) ∧
      ((a.elevationLayer = none ∨ ∃ al, a.elevationLayer = some al ∧ al.heightField = none) →
        hf0.source = (createEmptyHeightField key 8 8).source ∧
        (inheritedPlaceholderTile f map terrain key a ak).elevationLOD = -1) := by
    have hcase : (∃ al ahf, a.elevationLayer = some al ∧ al.heightField = some ahf) ∨
        (a.elevationLayer = none ∨ ∃ al, a.elevationLayer = some al ∧ al.heightField = none) := by
      cases h1 : a.elevationLayer with
      | none => exact Or.inr (Or.inl rfl)
      | some al =>
        cases h2 : al.heightField with
        | none => exact Or.inr (Or.inr ⟨al, rfl, h2⟩)
        | some ahf => exact Or.inl ⟨al, ahf, rfl, h2⟩
    rcases hcase with ⟨al, ahf, h1, h2⟩ | hsyn
    · obtain ⟨e1, e2⟩ := addPlaceholderHeightfieldLayer_inherits
        (addPlaceholderImageLayers (newPlaceholderTile f map terrain key) (some a)) a
        (GeoLocator.createForKey key) key ak al ahf hv h1 h2
      have e1b : (inheritedPlaceholderTile f map terrain key a ak).elevationLayer = _ := e1
      rw [hl] at e1b
      have hl0 := Option.some.inj e1b
      subst hl0
      simp only [Option.some.injEq] at hhf
      subst hhf
      refine ⟨rfl, ?_, ?_⟩
      · intro al2 ahf2 h3 h4
        rw [h1] at h3
        cases h3
        rw [h2] at h4
        cases h4
        exact ⟨rfl, e2⟩
      · rintro (h3 | ⟨al2, h3, h4⟩)
        · rw [h1] at h3
          cases h3
        · rw [h1] at h3
          cases h3
          rw [h2] at h4
          cases h4
    · obtain ⟨e1, e2⟩ := addPlaceholderHeightfieldLayer_synthesizes
        (addPlaceholderImageLayers (newPlaceholderTile f map terrain key) (some a)) a
        (GeoLocator.createForKey key) key ak (Or.inr hsyn)
      have e1b : (inheritedPlaceholderTile f map terrain key a ak).elevationLayer = _ := e1
      rw [hl] at e1b
      have hl0 := Option.some.inj e1b
      subst hl0
      simp only [Option.some.injEq] at hhf
      subst hhf
      refine ⟨rfl, ?_, ?_⟩
      · intro al2 ahf2 h3 h4
        rcases hsyn with h5 | ⟨al3, h5, h6⟩
        · rw [h5] at h3
          cases h3
        · rw [h5] at h3
          cases h3
          rw [h6] at h4
          cases h4
      · intro _
        exact ⟨rfl, e2⟩
  obtain ⟨hb1, hb2, hb3⟩ := hbranch
  refine ⟨plod, tile, _, _, hres, ?_, ?_, ?_, hte, hb1, rfl, ?_, ?_, ?_, ?_⟩
  · rw [hc1, hf1]
  · rw [hs3]; exact hPk
  · rw [hs1]; exact hPc
  · intro al ahf h1 h2
    obtain ⟨g1, g2⟩ := hb2 al ahf h1 h2
    exact ⟨by rw [hsrc, g1], by rw [hlod, g2]⟩
  · intro h
    obtain ⟨g1, g2⟩ := hb3 h
    exact ⟨by rw [hsrc, g1], by rw [hlod, g2]⟩
  · intro h
    rw [hc2, hc3]
    exact hf2 h
  · intro h
    rw [hc2, hc3]
    exact hf3 h

/-- A placeholder build that returns a node has found its ancestor at a valid key of
the parent chain, the nearest one with a registered tile, and returns the paged LOD of
the tile described by `createPlaceholderTile_inherits`. -/
theorem createPlaceholderTile_some (f : OSGTileFactory) (map : Map)
    (terrain : CustomTerrain) (key : TileKey) (r : Option Node × CustomTerrain) (node : Node)
    (h : createPlaceholderTile f map terrain key = Except.ok r) (hn : r.1 = some node) :
    ∃ a i, 0 < i ∧ findAncestor terrain key = (some a, key.ancestorKey i) ∧
      (key.ancestorKey i).valid = true ∧
      terrain.getCustomTile (key.ancestorKey i).getTileId = some a ∧
      (∀ j, 0 < j → j < i → terrain.getCustomTile (key.ancestorKey j).getTileId = none) ∧
      (key.ancestorKey i).getLevelOfDetail < key.getLevelOfDetail := by
  obtain ⟨r2, h2, hnone, _⟩ := createPlaceholderTile_ok f map terrain key
  rw [h] at h2
  cases h2
  cases hfa : (findAncestor terrain key).1 with
  | none =>
    rw [hnone.mpr hfa] at hn
    cases hn
  | some a =>
    have hpair : findAncestor terrain key = (some a, (findAncestor terrain key).2) := by
      rw [← hfa]
    obtain ⟨i, hi, hak, hv, hg, hmin, hlev⟩ := (findAncestor_spec terrain key).1 a _ hpair
    rw [hak] at hpair
    exact ⟨a, i, hi, hpair, hv, hg, hmin, hlev⟩

/-! ## Claims about placeholder construction -/

/-- C12: `createPlaceholderTile` always returns, and it returns null if and only if no
valid key of the chain parent(key), parent(parent(key)), ... has a tile registered
with the terrain. When it returns a tile, the ancestor is the tile registered for the
nearest key of that chain that has one; that key is at a strictly lower level than
`key`; the new tile's colour layers are the ancestor's, and when the ancestor has a
heightfield the new heightfield is its subsample. -/
theorem createPlaceholderTile_nearest_ancestor (f : OSGTileFactory) (map : Map)
    (terrain : CustomTerrain) (key : TileKey) :
    ∃ r, createPlaceholderTile f map terrain key = Except.ok r ∧
      (r.1 = none ↔
        ∀ i, 0 < i → (key.ancestorKey i).valid = true →
          terrain.getCustomTile (key.ancestorKey i).getTileId = none) ∧
      (∀ node, r.1 = some node →
        ∃ i ancestorTile tile, 0 < i ∧ (key.ancestorKey i).valid = true ∧
          terrain.getCustomTile (key.ancestorKey i).getTileId = some ancestorTile ∧
          (∀ j, 0 < j → j < i →
            terrain.getCustomTile (key.ancestorKey j).getTileId = none) ∧
          (key.ancestorKey i).getLevelOfDetail < key.getLevelOfDetail ∧
          node.getTile = some tile ∧
          tile.colorLayers = ancestorTile.colorLayers ∧
          (∀ al ahf, ancestorTile.elevationLayer = some al → al.heightField = some ahf →
            ∃ layer hf, tile.elevationLayer = some layer ∧ layer.heightField = some hf ∧
              hf.source = (createSubSample ahf (key.ancestorKey i).getGeoExtent
                key.getGeoExtent).source)) := by
  obtain ⟨r, h, hnone, _⟩ := createPlaceholderTile_ok f map terrain key
  refine ⟨r, h, ?_, ?_⟩
  · rw [hnone]
    exact (findAncestor_spec terrain key).2
  · intro node hn
    obtain ⟨a, i, hi, hfa, hv, hg, hmin, hlev⟩ :=
      createPlaceholderTile_some f map terrain key r node h hn
    obtain ⟨plod, tile, layer, hf, hres, hch, _, hcl, hte, _, hhf, hinh, _, _, _⟩ :=
      createPlaceholderTile_inherits f map terrain key a _ hfa hv
    rw [h] at hres
    cases hres
    cases hn
    refine ⟨i, a, tile, hi, hv, hg, hmin, hlev, ?_, hcl, ?_⟩
    · simp [Node.getTile, hch]
    · intro al ahf h1 h2
      exact ⟨layer, hf, hte, hhf, (hinh al ahf h1 h2).1⟩

/-- C13: after placeholder construction from an ancestor tile with `m` colour layers,
the new tile has `m` colour slots; for every `j < m` slot `j` holds exactly the
ancestor's colour layer of slot `j`, and no slot from `m` on is set. The copy loop
alone gives a tile without colour layers exactly the ancestor's colour layers, and
does nothing without an ancestor. -/
theorem createPlaceholderTile_copies_color_layers (f : OSGTileFactory) (map : Map)
    (terrain : CustomTerrain) (key : TileKey) :
    (∃ r, createPlaceholderTile f map terrain key = Except.ok r ∧
      ∀ node, r.1 = some node →
        ∃ ancestorTile tile, (findAncestor terrain key).1 = some ancestorTile ∧
          node.getTile = some tile ∧
          tile.getNumColorLayers = ancestorTile.getNumColorLayers ∧
          (∀ j, j < ancestorTile.getNumColorLayers →
            tile.colorLayers.get? j = ancestorTile.colorLayers.get? j ∧
            tile.getColorLayer j = ancestorTile.getColorLayer j) ∧
          (∀ j, ancestorTile.getNumColorLayers ≤ j →
            tile.colorLayers.get? j = none ∧ tile.getColorLayer j = none)) ∧
    (∀ tile ancestor : CustomTile, tile.colorLayers = [] →
      (addPlaceholderImageLayers tile (some ancestor)).colorLayers = ancestor.colorLayers) ∧
    (∀ tile : CustomTile, addPlaceholderImageLayers tile none = tile) := by
  refine ⟨?_, ?_, fun _ => rfl⟩
  · obtain ⟨r, h, _, _⟩ := createPlaceholderTile_ok f map terrain key
    refine ⟨r, h, ?_⟩
    intro node hn
    obtain ⟨a, i, _, hfa, hv, _, _, _⟩ :=
      createPlaceholderTile_some f map terrain key r node h hn
    obtain ⟨plod, tile, _, _, hres, hch, _, hcl, _⟩ :=
      createPlaceholderTile_inherits f map terrain key a _ hfa hv
    rw [h] at hres
    cases hres
    cases hn
    refine ⟨a, tile, by rw [hfa], by simp [Node.getTile, hch], ?_, ?_, ?_⟩
    · simp [CustomTile.getNumColorLayers, hcl]
    · intro j _
      simp [CustomTile.getColorLayer, hcl]
    · intro j hj
      have hjl : a.colorLayers.length ≤ j := hj
      simp [CustomTile.getColorLayer, hcl, List.getElem?_eq_none hjl]
  · intro tile ancestor h0
    rw [addPlaceholderImageLayers_eq ancestor tile h0]

/-- C14, amended: in placeholder construction, if the ancestor tile has an elevation
layer with a heightfield, the new tile's heightfield is `createSubSample` of the
ancestor heightfield from the ancestor key's extent to the new key's extent and the
tile's elevation LOD equals the ancestor's; otherwise the tile gets the 8 by 8 empty
heightfield for the key and elevation LOD -1; in both cases the layer has the new
locator. Hence the tile's elevation LOD is -1 exactly when its elevation was
synthesized or the ancestor's elevation LOD, which it copies, is -1. -/
theorem createPlaceholderTile_elevation (f : OSGTileFactory) (map : Map)
    (terrain : CustomTerrain) (key : TileKey) :
    ∃ r, createPlaceholderTile f map terrain key = Except.ok r ∧
      ∀ node, r.1 = some node →
        ∃ ancestorTile ancestorKey tile layer hf,
          findAncestor terrain key = (some ancestorTile, ancestorKey) ∧
          node.getTile = some tile ∧ tile.elevationLayer = some layer ∧
          layer.locator = some (GeoLocator.createForKey key) ∧
          layer.heightField = some hf ∧
          (∀ al ahf, ancestorTile.elevationLayer = some al → al.heightField = some ahf →
            hf.source = (createSubSample ahf ancestorKey.getGeoExtent
              key.getGeoExtent).source ∧
            tile.elevationLOD = ancestorTile.elevationLOD) ∧
          ((ancestorTile.elevationLayer = none ∨
              ∃ al, ancestorTile.elevationLayer = some al ∧ al.heightField = none) →
            hf.source = HeightFieldSource.reference key.getGeoExtent 8 8 ∧
            tile.elevationLOD = -1) ∧
          (tile.elevationLOD = -1 ↔
            ((ancestorTile.elevationLayer = none ∨
                ∃ al, ancestorTile.elevationLayer = some al ∧ al.heightField = none) ∨
              ancestorTile.elevationLOD = -1)) := by
  obtain ⟨r, h, _, _⟩ := createPlaceholderTile_ok f map terrain key
  refine ⟨r, h, ?_⟩
  intro node hn
  obtain ⟨a, i, _, hfa, hv, _, _, _⟩ :=
    createPlaceholderTile_some f map terrain key r node h hn
  obtain ⟨plod, tile, layer, hf, hres, hch, _, _, hte, hloc, hhf, hinh, hsyn, _, _⟩ :=
    createPlaceholderTile_inherits f map terrain key a _ hfa hv
  rw [h] at hres
  cases hres
  cases hn
  refine ⟨a, _, tile, layer, hf, hfa, by simp [Node.getTile, hch], hte, hloc, hhf, hinh,
    hsyn, ?_⟩
  cases h1 : a.elevationLayer with
  | none =>
    have := (hsyn (Or.inl h1)).2
    simp [this]
  | some al =>
    cases h2 : al.heightField with
    | none =>
      have := (hsyn (Or.inr ⟨al, h1, h2⟩)).2
      simp [this, h2]
    | some ahf =>
      have := (hinh al ahf h1 h2).2
      simp [this, h2]

/-- C18: the paged LOD built by `createPlaceholderTile` holds the tile in child slot 0
and, with `min_range = radius * minTileRangeFactor` for the radius of the tile's bound:
if the key's level is below the configured `maxLOD`, slot 0 has the range
`[min_range, 1e10]` and slot 1 has the file name `createURI( engineId, key )` and the
range `[0, min_range]`; if the level is at or above `maxLOD`, there is no slot 1 and
slot 0 has the range `[0, FLT_MAX]`. -/
theorem createPlaceholderTile_paged_lod (f : OSGTileFactory) (map : Map)
    (terrain : CustomTerrain) (key : TileKey) :
    ∃ r, createPlaceholderTile f map terrain key = Except.ok r ∧
      ∀ node, r.1 = some node →
        ∃ ancestorTile ancestorKey plod tile min_range,
          findAncestor terrain key = (some ancestorTile, ancestorKey) ∧
          min_range =
            (f.getBound (inheritedPlaceholderTile f map terrain key ancestorTile
              ancestorKey)).radius * f.terrainOptions.minTileRangeFactor ∧
          node = Node.pagedLOD plod ∧ plod.children = [tile] ∧ tile.key = key ∧
          (key.getLevelOfDetail < f.terrainOptions.maxLOD →
            plod.rangeList = [(min_range, 10000000000), (0, min_range)] ∧
            plod.fileNames = ["", createURI f f.engineId key]) ∧
          (¬ key.getLevelOfDetail < f.terrainOptions.maxLOD →
            plod.rangeList = [(0, FLT_MAX)] ∧ plod.fileNames = [""]) := by
  obtain ⟨r, h, _, _⟩ := createPlaceholderTile_ok f map terrain key
  refine ⟨r, h, ?_⟩
  intro node hn
  obtain ⟨a, i, _, hfa, hv, _, _, _⟩ :=
    createPlaceholderTile_some f map terrain key r node h hn
  obtain ⟨plod, tile, _, _, hres, hch, hkey, _, _, _, _, _, _, hlo, hhi⟩ :=
    createPlaceholderTile_inherits f map terrain key a _ hfa hv
  rw [h] at hres
  cases hres
  cases hn
  exact ⟨a, _, plod, tile, _, hfa, rfl, rfl, hch, hkey, hlo, hhi⟩

/-- A placeholder build that finds an ancestor: on the sample terrain with the root
tile registered, the placeholder for the level-1 key is a paged LOD whose tile has the
two colour layers of the root tile, and below `maxLOD` it refers to the child URI. -/
theorem createPlaceholderTile_sample :
    ∃ plod tile terrain2,
      createPlaceholderTile Sample.factory Sample.twoLayerGlobe Sample.rootTerrain Sample.keyL1 =
        Except.ok (some (Node.pagedLOD plod), terrain2) ∧
      plod.children = [tile] ∧ tile.getNumColorLayers = 2 ∧
      plod.fileNames = ["", "1_0_1.1.osgearth_osgterrain_tile"] :=
  ⟨_, _, _, rfl, rfl, by decide, by decide⟩

/-! ## The node of a populated build -/

theorem newPopulatedTile_keeps (f : OSGTileFactory) (terrain : CustomTerrain)
    (key : TileKey) (hf : Option HeightField) (he : Bool) :
    (newPopulatedTile f terrain key hf he).key = key ∧
    (newPopulatedTile f terrain key hf he).elevationLOD = f.initialElevationLOD key := by
  unfold newPopulatedTile
  simp only []
  split <;> exact ⟨rfl, rfl⟩

theorem assemblePopulatedTile_keeps (f : OSGTileFactory) (map : Map)
    (terrain : CustomTerrain) (key : TileKey) (imgs : List (Option GeoImage))
    (hf : Option HeightField) (he : Bool) :
    (assemblePopulatedTile f map terrain key imgs hf he).key = key ∧
    (assemblePopulatedTile f map terrain key imgs hf he).elevationLOD =
      f.initialElevationLOD key := by
  unfold assemblePopulatedTile
  rw [addImageLayers_eq _ _ _ _ _ _ _ (newPopulatedTile_colorLayers _ _ _ _ _)]
  exact newPopulatedTile_keeps f terrain key hf he

theorem setClusterCulling_keeps (f : OSGTileFactory) (map : Map) (tile t : CustomTile)
    (h : setClusterCulling f map tile = Except.ok t) :
    t.key = tile.key ∧ t.elevationLOD = tile.elevationLOD := by
  unfold setClusterCulling at h
  split at h
  · split at h
    · cases h
    · cases h
      exact ⟨rfl, rfl⟩
  · cases h
    exact ⟨rfl, rfl⟩

theorem stampPopulatedTile_keeps (f : OSGTileFactory) (terrain : CustomTerrain)
    (key : TileKey) (he : Bool) (tile : CustomTile) :
    (stampPopulatedTile f terrain key he tile).key = tile.key ∧
    (stampPopulatedTile f terrain key he tile).elevationLOD = tile.elevationLOD := by
  unfold stampPopulatedTile
  simp only []
  split <;> exact ⟨rfl, rfl⟩

/-- The node of a sealed tile: the wrapping of the final tile with the bound of the
assembled tile; the final tile keeps the key and the elevation LOD. -/
theorem sealPopulatedTile_node (f : OSGTileFactory) (map : Map) (terrain : CustomTerrain)
    (key : TileKey) (w vd he : Bool) (T : CustomTile) (h : HeightField)
    (layer : HeightFieldLayer) (hT : T.elevationLayer = some layer) :
    ∃ tile, sealPopulatedTile f map terrain key w vd he T (some h) =
        Except.ok
          { node := some (wrapPopulatedTile f key tile (f.getBound T)
              ((f.getBound T).radius * f.terrainOptions.minTileRangeFactor) 10000000000 w vd)
            validData := vd
            terrain := terrain.registerTile tile } ∧
      tile.key = T.key ∧ tile.elevationLOD = T.elevationLOD := by
  unfold sealPopulatedTile
  simp only []
  obtain ⟨t, ht, _, _⟩ := setClusterCulling_ok f map
    (withHeightField T (h.setSkirtHeight ((f.getBound T).radius * f.terrainOptions.heightFieldSkirtRatio)))
    _ (withHeightField_elevationLayer _ _ _ hT)
  obtain ⟨k1, k2⟩ := setClusterCulling_keeps f map _ t ht
  obtain ⟨s1, s2⟩ := stampPopulatedTile_keeps f terrain key he t
  rw [ht]
  refine ⟨_, rfl, ?_, ?_⟩
  · rw [s1, k1]; rfl
  · rw [s2, k2]; rfl

/-- The node of a populated build: the wrapping of a tile for the key, with the bound of
the assembled tile and the validity flag of the result. -/
theorem createPopulatedTile_node (f : OSGTileFactory) (map : Map) (terrain : CustomTerrain)
    (key : TileKey) (w fb : Bool) (r : TileResult) (node : Node)
    (h : createPopulatedTile f map terrain key w fb = Except.ok r) (hn : r.node = some node) :
    ∃ tile, node = wrapPopulatedTile f key tile
        (f.getBound (assembledPopulatedTile f map terrain key))
        ((f.getBound (assembledPopulatedTile f map terrain key)).radius *
          f.terrainOptions.minTileRangeFactor) 10000000000 w r.validData ∧
      tile.key = key ∧ tile.elevationLOD = f.initialElevationLOD key := by
  rw [createPopulatedTile_eq] at h
  by_cases hb : couldNotCreateAny f map key = true ∧ fb = false
  · rw [if_pos hb] at h
    cases h
    cases hn
  · rw [if_neg hb] at h
    obtain ⟨hh, hhh⟩ := fillMissingHeightField_isSome f map key (firstHeightField f map key)
      (firstHeightField f map key).isSome
    have hsel : ∀ pc : Bool,
        (if pc = true then Option.map scaleHeightFieldToDegrees (some hh) else some hh) =
          some (if pc = true then scaleHeightFieldToDegrees hh else hh) := by
      intro pc; cases pc <;> rfl
    have hT : assembledPopulatedTile f map terrain key =
        assemblePopulatedTile f map terrain key
          (fillMissingImages map key (createLayerImages f map.imageMapLayers key))
          (some (if isPlateCarre map = true then scaleHeightFieldToDegrees hh else hh))
          (fillMissingHeightField f map key (firstHeightField f map key)
            (firstHeightField f map key).isSome).2 := by
      simp only [assembledPopulatedTile, hhh, hsel]
    obtain ⟨tile, hs, hk, hl⟩ := sealPopulatedTile_node f map terrain key w
      (!couldNotCreateAny f map key)
      (fillMissingHeightField f map key (firstHeightField f map key)
        (firstHeightField f map key).isSome).2
      (assembledPopulatedTile f map terrain key)
      (if isPlateCarre map = true then scaleHeightFieldToDegrees hh else hh) _
      (by rw [hT]; exact assemblePopulatedTile_elevationLayer _ _ _ _ _ _ _)
    obtain ⟨ak, al⟩ := assemblePopulatedTile_keeps f map terrain key
      (fillMissingImages map key (createLayerImages f map.imageMapLayers key))
      (some (if isPlateCarre map = true then scaleHeightFieldToDegrees hh else hh))
      (fillMissingHeightField f map key (firstHeightField f map key)
        (firstHeightField f map key).isSome).2
    rw [← hT] at ak al
    unfold finishPopulatedTile at h
    simp only [hhh, hsel] at h
    rw [← hT, hs] at h
    cases h
    cases hn
    exact ⟨tile, rfl, by rw [hk, ak], by rw [hl, al]⟩

theorem wrapPopulatedTile_fields (f : OSGTileFactory) (key : TileKey) (tile : CustomTile)
    (bs : BoundingSphere) (lo hi : ℚ) (vd : Bool) :
    ∃ plod, wrapPopulatedTile f key tile bs lo hi true vd = Node.pagedLOD plod ∧
      plod.children = [tile] ∧
      ((f.isBlacklisted (createURI f f.engineId key) = false ∧
          key.getLevelOfDetail < f.terrainOptions.maxLOD ∧ vd = true) →
        plod.rangeList = [(lo, hi), (0, lo)] ∧
        plod.fileNames = ["", createURI f f.engineId key]) ∧
      (¬(f.isBlacklisted (createURI f f.engineId key) = false ∧
          key.getLevelOfDetail < f.terrainOptions.maxLOD ∧ vd = true) →
        plod.rangeList = [(0, FLT_MAX)] ∧ plod.fileNames = [""]) := by
  unfold wrapPopulatedTile
  simp only [if_true]
  by_cases hc : f.isBlacklisted (createURI f f.engineId key) = false ∧
      key.getLevelOfDetail < f.terrainOptions.maxLOD ∧ vd = true
  · have hb : (!f.isBlacklisted (createURI f f.engineId key) &&
        decide (key.getLevelOfDetail < f.terrainOptions.maxLOD) && vd) = true := by
      simp [hc.1, hc.2.1, hc.2.2]
    rw [if_pos hb]
    exact ⟨_, rfl, rfl, fun _ => by simp [setSlot], fun hn => absurd hc hn⟩
  · have hb : ¬ (!f.isBlacklisted (createURI f f.engineId key) &&
        decide (key.getLevelOfDetail < f.terrainOptions.maxLOD) && vd) = true := by
      intro hb
      apply hc
      have hb2 : (f.isBlacklisted (createURI f f.engineId key) = false ∧
          key.getLevelOfDetail < f.terrainOptions.maxLOD) ∧ vd = true := by
        simpa [Bool.and_eq_true] using hb
      exact ⟨hb2.1.1, hb2.1.2, hb2.2⟩
    rw [if_neg hb]
    exact ⟨_, rfl, rfl, fun h => absurd h hc, fun _ => by simp [setSlot]⟩

/-! ## Claims about the paged LOD of a populated tile -/

/-- C19: when `createPopulatedTile` wraps its tile in a paged LOD, the tile is child 0
and the next-level child reference (slot 1 with file name `createURI( engineId, key )`
and range `[0, min_range]`, slot 0 then having `[min_range, 1e10]`) is present if and
only if the URI is not blacklisted, the key's level is below `maxLOD` and `validData`
is true; otherwise there is no slot 1 and slot 0 covers `[0, FLT_MAX]`; in particular
so for a tile built from fallback data (`validData = false`). -/
theorem createPopulatedTile_paged_lod (f : OSGTileFactory) (map : Map)
    (terrain : CustomTerrain) (key : TileKey) (fallback : Bool) :
    ∃ r, createPopulatedTile f map terrain key true fallback = Except.ok r ∧
      ∀ node, r.node = some node →
        ∃ plod tile min_range,
          min_range = (f.getBound (assembledPopulatedTile f map terrain key)).radius *
            f.terrainOptions.minTileRangeFactor ∧
          node = Node.pagedLOD plod ∧ plod.children = [tile] ∧ tile.key = key ∧
          ((f.isBlacklisted (createURI f f.engineId key) = false ∧
              key.getLevelOfDetail < f.terrainOptions.maxLOD ∧ r.validData = true) →
            plod.rangeList = [(min_range, 10000000000), (0, min_range)] ∧
            plod.fileNames = ["", createURI f f.engineId key]) ∧
          (¬(f.isBlacklisted (createURI f f.engineId key) = false ∧
              key.getLevelOfDetail < f.terrainOptions.maxLOD ∧ r.validData = true) →
            plod.rangeList = [(0, FLT_MAX)] ∧ plod.fileNames = [""]) ∧
          (r.validData = false →
            plod.rangeList = [(0, FLT_MAX)] ∧ plod.fileNames = [""]) := by
  obtain ⟨r, h, _, _, _⟩ := createPopulatedTile_ok f map terrain key true fallback
  refine ⟨r, h, ?_⟩
  intro node hn
  obtain ⟨tile, hnode, hkey, _⟩ := createPopulatedTile_node f map terrain key true fallback r
    node h hn
  obtain ⟨plod, hp, hch, hyes, hno⟩ := wrapPopulatedTile_fields f key tile
    (f.getBound (assembledPopulatedTile f map terrain key))
    ((f.getBound (assembledPopulatedTile f map terrain key)).radius *
      f.terrainOptions.minTileRangeFactor) 10000000000 r.validData
  refine ⟨plod, tile, _, rfl, by rw [hnode, hp], hch, hkey, hyes, hno, ?_⟩
  intro hv
  apply hno
  rintro ⟨_, _, h3⟩
  rw [hv] at h3
  cases h3

/-! ## The children of `createSubTiles` -/

/-- A node returned by `createTile` carries a tile for the key it was asked for. -/
theorem createTile_key (f : OSGTileFactory) (map : Map) (terrain : CustomTerrain)
    (key : TileKey) (populateLayers w fb : Bool) (r : TileResult) (node : Node)
    (h : createTile f map terrain key populateLayers w fb = Except.ok r)
    (hn : r.node = some node) :
    ∃ tile, node.getTile = some tile ∧ tile.key = key := by
  unfold createTile at h
  cases populateLayers with
  | true =>
    simp only [if_true] at h
    obtain ⟨tile, hnode, hkey, _⟩ := createPopulatedTile_node f map terrain key w fb r node h hn
    exact ⟨tile, by rw [hnode]; exact wrapPopulatedTile_getTile _ _ _ _ _ _ _ _, hkey⟩
  | false =>
    obtain ⟨p, hp, _, _⟩ := createPlaceholderTile_ok f map terrain key
    simp only [Bool.false_eq_true, if_false, hp] at h
    cases h
    obtain ⟨a, i, _, hfa, hv, _, _, _⟩ :=
      createPlaceholderTile_some f map terrain key p node hp hn
    obtain ⟨plod, tile, _, _, hres, hch, hkey, _⟩ :=
      createPlaceholderTile_inherits f map terrain key a _ hfa hv
    rw [hp] at hres
    cases hres
    cases hn
    exact ⟨tile, by simp [Node.getTile, hch], hkey⟩

/-- One quadrant of the fallback pass: a node of the first pass is kept and nothing is
built; a null is replaced by the node of `createTile` for the same key with
`fallback = true`; a node that comes out carries a tile for the key. -/
theorem retryQuadrant_spec (f : OSGTileFactory) (map : Map) (populateLayers : Bool)
    (k : TileKey) (first : TileResult) (firstTerrain : CustomTerrain)
    (hfirst : createTile f map firstTerrain k populateLayers true false = Except.ok first)
    (terrain : CustomTerrain) :
    ∃ q, retryQuadrant f map populateLayers k first.node terrain = Except.ok q ∧
      (∀ n, first.node = some n → q = (some n, terrain)) ∧
      (first.node = none →
        ∃ again, createTile f map terrain k populateLayers true true = Except.ok again ∧
          q = (again.node, again.terrain)) ∧
      (∀ n, q.1 = some n → ∃ tile, n.getTile = some tile ∧ tile.key = k) := by
  unfold retryQuadrant
  cases hq : first.node with
  | some n =>
    refine ⟨_, rfl, ?_, ?_, ?_⟩
    · intro n2 h2
      cases h2
      rfl
    · intro h2
      cases h2
    · intro n2 h2
      cases h2
      exact createTile_key f map firstTerrain k populateLayers true false first n hfirst hq
  | none =>
    obtain ⟨again, ha, _⟩ := createTile_ok f map terrain k populateLayers true true
    simp only [ha]
    refine ⟨_, rfl, ?_, ?_, ?_⟩
    · intro n2 h2
      cases h2
    · intro _
      exact ⟨again, rfl, rfl⟩
    · intro n2 h2
      exact createTile_key f map terrain k populateLayers true true again n2 ha h2

/-- C20: whenever `createSubTiles` returns a group, the group's children are, in this
order, the nodes for the child keys `createChildKey(0)`, `createChildKey(1)`,
`createChildKey(2)`, `createChildKey(3)` of the given key: child `i` is the node that
the first pass built for child key `i` when that node is not null, and otherwise the
node that the fallback pass built for the same child key; every child that is a node
carries a tile whose key is child key `i`. -/
theorem createSubTiles_children_order (f : OSGTileFactory) (map : Map)
    (terrain : CustomTerrain) (key : TileKey) (populateLayers : Bool) :
    ∃ r0 r1 r2 r3 q0 q1 q2 q3 r,
      createTile f map terrain (key.createChildKey 0) populateLayers true false = Except.ok r0 ∧
      createTile f map r0.terrain (key.createChildKey 1) populateLayers true false =
        Except.ok r1 ∧
      createTile f map r1.terrain (key.createChildKey 2) populateLayers true false =
        Except.ok r2 ∧
      createTile f map r2.terrain (key.createChildKey 3) populateLayers true false =
        Except.ok r3 ∧
      retryQuadrant f map populateLayers (key.createChildKey 0) r0.node r3.terrain =
        Except.ok q0 ∧
      retryQuadrant f map populateLayers (key.createChildKey 1) r1.node q0.2 = Except.ok q1 ∧
      retryQuadrant f map populateLayers (key.createChildKey 2) r2.node q1.2 = Except.ok q2 ∧
      retryQuadrant f map populateLayers (key.createChildKey 3) r3.node q2.2 = Except.ok q3 ∧
      createSubTiles f map terrain key populateLayers = Except.ok r ∧
      (∀ node, r.1 = some node → node = Node.group [q0.1, q1.1, q2.1, q3.1]) ∧
      ((∀ n, r0.node = some n → q0.1 = some n) ∧
        (r0.node = none → ∃ again, createTile f map r3.terrain (key.createChildKey 0)
          populateLayers true true = Except.ok again ∧ q0.1 = again.node) ∧
        (∀ n, q0.1 = some n → ∃ tile, n.getTile = some tile ∧
          tile.key = key.createChildKey 0)) ∧
      ((∀ n, r1.node = some n → q1.1 = some n) ∧
        (r1.node = none → ∃ again, createTile f map q0.2 (key.createChildKey 1)
          populateLayers true true = Except.ok again ∧ q1.1 = again.node) ∧
        (∀ n, q1.1 = some n → ∃ tile, n.getTile = some tile ∧
          tile.key = key.createChildKey 1)) ∧
      ((∀ n, r2.node = some n → q2.1 = some n) ∧
        (r2.node = none → ∃ again, createTile f map q1.2 (key.createChildKey 2)
          populateLayers true true = Except.ok again ∧ q2.1 = again.node) ∧
        (∀ n, q2.1 = some n → ∃ tile, n.getTile = some tile ∧
          tile.key = key.createChildKey 2)) ∧
      ((∀ n, r3.node = some n → q3.1 = some n) ∧
        (r3.node = none → ∃ again, createTile f map q2.2 (key.createChildKey 3)
          populateLayers true true = Except.ok again ∧ q3.1 = again.node) ∧
        (∀ n, q3.1 = some n → ∃ tile, n.getTile = some tile ∧
          tile.key = key.createChildKey 3)) := by
  obtain ⟨r0, h0, _⟩ := createTile_ok f map terrain (key.createChildKey 0) populateLayers true false
  obtain ⟨r1, h1, _⟩ := createTile_ok f map r0.terrain (key.createChildKey 1) populateLayers true false
  obtain ⟨r2, h2, _⟩ := createTile_ok f map r1.terrain (key.createChildKey 2) populateLayers true false
  obtain ⟨r3, h3, _⟩ := createTile_ok f map r2.terrain (key.createChildKey 3) populateLayers true false
  obtain ⟨q0, hq0, a0, b0, c0⟩ := retryQuadrant_spec f map populateLayers
    (key.createChildKey 0) r0 terrain h0 r3.terrain
  obtain ⟨q1, hq1, a1, b1, c1⟩ := retryQuadrant_spec f map populateLayers
    (key.createChildKey 1) r1 r0.terrain h1 q0.2
  obtain ⟨q2, hq2, a2, b2, c2⟩ := retryQuadrant_spec f map populateLayers
    (key.createChildKey 2) r2 r1.terrain h2 q1.2
  obtain ⟨q3, hq3, a3, b3, c3⟩ := retryQuadrant_spec f map populateLayers
    (key.createChildKey 3) r3 r2.terrain h3 q2.2
  have part : ∀ (first : TileResult) (q : Option Node × CustomTerrain) (t : CustomTerrain)
      (k : TileKey),
      (∀ n, first.node = some n → q = (some n, t)) →
      (first.node = none →
        ∃ again, createTile f map t k populateLayers true true = Except.ok again ∧
          q = (again.node, again.terrain)) →
      (∀ n, first.node = some n → q.1 = some n) ∧
      (first.node = none → ∃ again, createTile f map t k populateLayers true true =
        Except.ok again ∧ q.1 = again.node) := by
    intro first q t k ha hb
    constructor
    · intro n hn
      rw [ha n hn]
    · intro hn
      obtain ⟨again, hag, hq⟩ := hb hn
      exact ⟨again, hag, by rw [hq]⟩
  obtain ⟨p0a, p0b⟩ := part r0 q0 r3.terrain (key.createChildKey 0) a0 b0
  obtain ⟨p1a, p1b⟩ := part r1 q1 q0.2 (key.createChildKey 1) a1 b1
  obtain ⟨p2a, p2b⟩ := part r2 q2 q1.2 (key.createChildKey 2) a2 b2
  obtain ⟨p3a, p3b⟩ := part r3 q3 q2.2 (key.createChildKey 3) a3 b3
  have hsub : ∃ r, createSubTiles f map terrain key populateLayers = Except.ok r ∧
      (∀ node, r.1 = some node → node = Node.group [q0.1, q1.1, q2.1, q3.1]) := by
    simp only [createSubTiles, bind, Except.bind, pure, Except.pure, h0, h1, h2, h3, hq0, hq1,
      hq2, hq3]
    cases r0.validData <;> cases r1.validData <;> cases r2.validData <;>
      cases r3.validData <;>
      first
      | exact ⟨_, rfl, fun node hn => Option.noConfusion hn⟩
      | exact ⟨_, rfl, fun node hn => (Option.some.inj hn).symm⟩
  obtain ⟨r, hr, hgroup⟩ := hsub
  exact ⟨r0, r1, r2, r3, q0, q1, q2, q3, r, h0, h1, h2, h3, hq0, hq1, hq2, hq3, hr, hgroup,
    ⟨p0a, p0b, c0⟩, ⟨p1a, p1b, c1⟩, ⟨p2a, p2b, c2⟩, ⟨p3a, p3b, c3⟩⟩

/-! ## The layer-request marks of a populated tile -/

theorem newPopulatedTile_marks (f : OSGTileFactory) (terrain : CustomTerrain) (key : TileKey)
    (hf : Option HeightField) (he : Bool) :
    (newPopulatedTile f terrain key hf he).useLayerRequests = false ∧
    (newPopulatedTile f terrain key hf he).hasElevationHint = none := by
  unfold newPopulatedTile
  simp only []
  split <;> exact ⟨rfl, rfl⟩

theorem assemblePopulatedTile_marks (f : OSGTileFactory) (map : Map)
    (terrain : CustomTerrain) (key : TileKey) (imgs : List (Option GeoImage))
    (hf : Option HeightField) (he : Bool) :
    (assemblePopulatedTile f map terrain key imgs hf he).useLayerRequests = false ∧
    (assemblePopulatedTile f map terrain key imgs hf he).hasElevationHint = none := by
  unfold assemblePopulatedTile
  rw [addImageLayers_eq _ _ _ _ _ _ _ (newPopulatedTile_colorLayers _ _ _ _ _)]
  exact newPopulatedTile_marks f terrain key hf he

theorem setClusterCulling_marks (f : OSGTileFactory) (map : Map) (tile t : CustomTile)
    (h : setClusterCulling f map tile = Except.ok t) :
    t.useLayerRequests = tile.useLayerRequests ∧
    t.hasElevationHint = tile.hasElevationHint := by
  unfold setClusterCulling at h
  split at h
  · split at h
    · cases h
    · cases h
      exact ⟨rfl, rfl⟩
  · cases h
    exact ⟨rfl, rfl⟩

/-- The marks written by lines 856-860 on a tile that carried none. -/
theorem stampPopulatedTile_marks (f : OSGTileFactory) (terrain : CustomTerrain)
    (key : TileKey) (he : Bool) (tile : CustomTile)
    (h1 : tile.useLayerRequests = false) (h2 : tile.hasElevationHint = none) :
    ((stampPopulatedTile f terrain key he tile).useLayerRequests = true ↔
      (f.terrainOptions.loadingPolicyMode ≠ LoadingPolicyMode.MODE_STANDARD ∧
        0 < key.getLevelOfDetail)) ∧
    ((f.terrainOptions.loadingPolicyMode ≠ LoadingPolicyMode.MODE_STANDARD ∧
        0 < key.getLevelOfDetail) →
      (stampPopulatedTile f terrain key he tile).hasElevationHint = some he) ∧
    (¬(f.terrainOptions.loadingPolicyMode ≠ LoadingPolicyMode.MODE_STANDARD ∧
        0 < key.getLevelOfDetail) →
      (stampPopulatedTile f terrain key he tile).hasElevationHint = none) := by
  unfold stampPopulatedTile
  simp only []
  by_cases hc : f.terrainOptions.loadingPolicyMode ≠ LoadingPolicyMode.MODE_STANDARD ∧
      0 < key.getLevelOfDetail
  · have hb : (decide (f.terrainOptions.loadingPolicyMode ≠ LoadingPolicyMode.MODE_STANDARD)
        && decide (key.getLevelOfDetail ≠ 0)) = true := by
      simp [hc.1, Nat.pos_iff_ne_zero.mp hc.2]
    rw [if_pos hb]
    exact ⟨⟨fun _ => hc, fun _ => rfl⟩, fun _ => rfl, fun hn => absurd hc hn⟩
  · have hb : ¬ (decide (f.terrainOptions.loadingPolicyMode ≠ LoadingPolicyMode.MODE_STANDARD)
        && decide (key.getLevelOfDetail ≠ 0)) = true := by
      intro hb
      apply hc
      simp only [Bool.and_eq_true, decide_eq_true_eq] at hb
      exact ⟨hb.1, Nat.pos_iff_ne_zero.mpr hb.2⟩
    rw [if_neg hb]
    refine ⟨⟨fun h => ?_, fun h => absurd h hc⟩, fun h => absurd h hc, fun _ => h2⟩
    simp only [h1] at h
    cases h

/-- The node of a sealed tile, with the layer-request marks of its tile. -/
theorem sealPopulatedTile_marks (f : OSGTileFactory) (map : Map) (terrain : CustomTerrain)
    (key : TileKey) (w vd he : Bool) (T : CustomTile) (h : HeightField)
    (layer : HeightFieldLayer) (hT : T.elevationLayer = some layer)
    (h1 : T.useLayerRequests = false) (h2 : T.hasElevationHint = none) :
    ∃ tile, sealPopulatedTile f map terrain key w vd he T (some h) =
        Except.ok
          { node := some (wrapPopulatedTile f key tile (f.getBound T)
              ((f.getBound T).radius * f.terrainOptions.minTileRangeFactor) 10000000000 w vd)
            validData := vd
            terrain := terrain.registerTile tile } ∧
      (tile.useLayerRequests = true ↔
        (f.terrainOptions.loadingPolicyMode ≠ LoadingPolicyMode.MODE_STANDARD ∧
          0 < key.getLevelOfDetail)) ∧
      ((f.terrainOptions.loadingPolicyMode ≠ LoadingPolicyMode.MODE_STANDARD ∧
          0 < key.getLevelOfDetail) → tile.hasElevationHint = some he) ∧
      (¬(f.terrainOptions.loadingPolicyMode ≠ LoadingPolicyMode.MODE_STANDARD ∧
          0 < key.getLevelOfDetail) → tile.hasElevationHint = none) := by
  unfold sealPopulatedTile
  simp only []
  obtain ⟨t, ht, _, _⟩ := setClusterCulling_ok f map
    (withHeightField T (h.setSkirtHeight ((f.getBound T).radius * f.terrainOptions.heightFieldSkirtRatio)))
    _ (withHeightField_elevationLayer _ _ _ hT)
  obtain ⟨k1, k2⟩ := setClusterCulling_marks f map _ t ht
  have m1 : t.useLayerRequests = false := by rw [k1]; exact h1
  have m2 : t.hasElevationHint = none := by rw [k2]; exact h2
  rw [ht]
  exact ⟨_, rfl, stampPopulatedTile_marks f terrain key he t m1 m2⟩

/-- The node of a populated build, with the layer-request marks of its tile;
`hasElevation` is the flag of line 598 after the fill-in of lines 693-714. -/
theorem createPopulatedTile_marks (f : OSGTileFactory) (map : Map) (terrain : CustomTerrain)
    (key : TileKey) (w fb : Bool) (r : TileResult) (node : Node)
    (h : createPopulatedTile f map terrain key w fb = Except.ok r) (hn : r.node = some node) :
    ∃ tile, node.getTile = some tile ∧
      (tile.useLayerRequests = true ↔
        (f.terrainOptions.loadingPolicyMode ≠ LoadingPolicyMode.MODE_STANDARD ∧
          0 < key.getLevelOfDetail)) ∧
      ((f.terrainOptions.loadingPolicyMode ≠ LoadingPolicyMode.MODE_STANDARD ∧
          0 < key.getLevelOfDetail) →
        tile.hasElevationHint =
          some (fillMissingHeightField f map key (firstHeightField f map key)
            (firstHeightField f map key).isSome).2) ∧
      (¬(f.terrainOptions.loadingPolicyMode ≠ LoadingPolicyMode.MODE_STANDARD ∧
          0 < key.getLevelOfDetail) → tile.hasElevationHint = none) := by
  rw [createPopulatedTile_eq] at h
  by_cases hb : couldNotCreateAny f map key = true ∧ fb = false
  · rw [if_pos hb] at h
    cases h
    cases hn
  · rw [if_neg hb] at h
    obtain ⟨hh, hhh⟩ := fillMissingHeightField_isSome f map key (firstHeightField f map key)
      (firstHeightField f map key).isSome
    have hsel : ∀ pc : Bool,
        (if pc = true then Option.map scaleHeightFieldToDegrees (some hh) else some hh) =
          some (if pc = true then scaleHeightFieldToDegrees hh else hh) := by
      intro pc; cases pc <;> rfl
    have hT : assembledPopulatedTile f map terrain key =
        assemblePopulatedTile f map terrain key
          (fillMissingImages map key (createLayerImages f map.imageMapLayers key))
          (some (if isPlateCarre map = true then scaleHeightFieldToDegrees hh else hh))
          (fillMissingHeightField f map key (firstHeightField f map key)
            (firstHeightField f map key).isSome).2 := by
      simp only [assembledPopulatedTile, hhh, hsel]
    obtain ⟨a1, a2⟩ := assemblePopulatedTile_marks f map terrain key
      (fillMissingImages map key (createLayerImages f map.imageMapLayers key))
      (some (if isPlateCarre map = true then scaleHeightFieldToDegrees hh else hh))
      (fillMissingHeightField f map key (firstHeightField f map key)
        (firstHeightField f map key).isSome).2
    rw [← hT] at a1 a2
    obtain ⟨tile, hs, hm⟩ := sealPopulatedTile_marks f map terrain key w
      (!couldNotCreateAny f map key)
      (fillMissingHeightField f map key (firstHeightField f map key)
        (firstHeightField f map key).isSome).2
      (assembledPopulatedTile f map terrain key)
      (if isPlateCarre map = true then scaleHeightFieldToDegrees hh else hh) _
      (by rw [hT]; exact assemblePopulatedTile_elevationLayer _ _ _ _ _ _ _) a1 a2
    unfold finishPopulatedTile at h
    simp only [hhh, hsel] at h
    rw [← hT, hs] at h
    cases h
    cases hn
    exact ⟨tile, wrapPopulatedTile_getTile _ _ _ _ _ _ _ _, hm⟩

/-- C21: the tile of a populated build is marked as using layer requests if and only
if the loading policy mode is not the standard mode and the level of the key is
greater than 0; exactly then it also carries the elevation hint, whose value is the
`hasElevation` flag of the build. A tile of level 0 is never marked, whatever the
mode. -/
theorem createPopulatedTile_layer_requests (f : OSGTileFactory) (map : Map)
    (terrain : CustomTerrain) (key : TileKey) (wrapInPagedLOD fallback : Bool) :
    ∃ r, createPopulatedTile f map terrain key wrapInPagedLOD fallback = Except.ok r ∧
      ∀ node, r.node = some node →
        ∃ tile, node.getTile = some tile ∧
          (tile.useLayerRequests = true ↔
            (f.terrainOptions.loadingPolicyMode ≠ LoadingPolicyMode.MODE_STANDARD ∧
              0 < key.getLevelOfDetail)) ∧
          ((f.terrainOptions.loadingPolicyMode ≠ LoadingPolicyMode.MODE_STANDARD ∧
              0 < key.getLevelOfDetail) →
            tile.hasElevationHint =
              some (fillMissingHeightField f map key (firstHeightField f map key)
                (firstHeightField f map key).isSome).2) ∧
          (¬(f.terrainOptions.loadingPolicyMode ≠ LoadingPolicyMode.MODE_STANDARD ∧
              0 < key.getLevelOfDetail) → tile.hasElevationHint = none) ∧
          (key.getLevelOfDetail = 0 →
            tile.useLayerRequests = false ∧ tile.hasElevationHint = none) := by
  obtain ⟨r, h, _⟩ := createPopulatedTile_ok f map terrain key wrapInPagedLOD fallback
  refine ⟨r, h, ?_⟩
  intro node hn
  obtain ⟨tile, ht, hu, hy, hno⟩ :=
    createPopulatedTile_marks f map terrain key wrapInPagedLOD fallback r node h hn
  refine ⟨tile, ht, hu, hy, hno, ?_⟩
  intro h0
  have hc : ¬(f.terrainOptions.loadingPolicyMode ≠ LoadingPolicyMode.MODE_STANDARD ∧
      0 < key.getLevelOfDetail) := by
    rintro ⟨_, hp⟩
    omega
  refine ⟨?_, hno hc⟩
  cases hu2 : tile.useLayerRequests with
  | false => rfl
  | true => exact absurd (hu.mp hu2) hc

/-- A level-2 tile built under the preemptive policy is marked and carries the hint;
the level-0 tile of the same factory is not. -/
theorem createPopulatedTile_layer_requests_sample :
    (∃ r node tile,
      createPopulatedTile Sample.preemptiveFactory Sample.mercatorGlobe Sample.emptyTerrain
        Sample.keyL2 false false = Except.ok r ∧
      r.node = some node ∧ node.getTile = some tile ∧
      tile.useLayerRequests = true ∧ tile.hasElevationHint = some false) ∧
    (∃ r node tile,
      createPopulatedTile Sample.preemptiveFactory Sample.mercatorGlobe Sample.emptyTerrain
        Sample.rootKey false false = Except.ok r ∧
      r.node = some node ∧ node.getTile = some tile ∧
      tile.useLayerRequests = false ∧ tile.hasElevationHint = none) :=
  ⟨⟨_, _, _, rfl, rfl, rfl, rfl, rfl⟩, ⟨_, _, _, rfl, rfl, rfl, rfl, rfl⟩⟩


/-! ## The Mercator fast path -/

theorem useMercatorLocator_foldl (layers : List MapLayer) (acc : Bool) :
    layers.foldl
        (fun acc layer => if layer.useMercatorFastPath = some false then false else acc) acc =
      true ↔
      (acc = true ∧ ∀ layer ∈ layers, layer.useMercatorFastPath ≠ some false) := by
  induction layers generalizing acc with
  | nil => simp
  | cons a rest ih =>
    rw [List.foldl_cons, ih]
    by_cases ha : a.useMercatorFastPath = some false
    · simp [ha]
    · simp [ha]

/-- The flag `useMercatorLocator` of lines 603-623 is true when the first loop ends if
and only if no image layer of the map sets `useMercatorFastPath` to false. -/
theorem useMercatorLocator_iff (layers : List MapLayer) :
    useMercatorLocator layers = true ↔
      ∀ layer ∈ layers, layer.useMercatorFastPath ≠ some false := by
  unfold useMercatorLocator
  rw [useMercatorLocator_foldl]
  simp

theorem imageLocatorKind_mercator_iff (map : Map) (pc me : Bool) (geo_image : GeoImage) :
    ((∃ base ext, imageLocatorKind map pc me geo_image = LocatorKind.mercator base ext) ↔
      (map.srsIsGeographic = true ∧ geo_image.isMercator = true ∧ me = true)) ∧
    ((map.srsIsGeographic = true ∧ geo_image.isMercator = true ∧ me = true) →
      imageLocatorKind map pc me geo_image =
        LocatorKind.mercator
          (LocatorKind.fromExtent (GeoExtent.toGeographic geo_image.extent) none)
          geo_image.extent) ∧
    (¬(map.srsIsGeographic = true ∧ geo_image.isMercator = true ∧ me = true) →
      imageLocatorKind map pc me geo_image =
        LocatorKind.fromExtent geo_image.extent (some pc)) := by
  unfold imageLocatorKind
  by_cases hc : map.srsIsGeographic = true ∧ geo_image.isMercator = true ∧ me = true
  · have hb : (map.srsIsGeographic && geo_image.isMercator && me) = true := by
      simp [hc.1, hc.2.1, hc.2.2]
    rw [if_pos hb]
    exact ⟨⟨fun _ => hc, fun _ => ⟨_, _, rfl⟩⟩, fun _ => rfl, fun hn => absurd hc hn⟩
  · have hb : ¬ (map.srsIsGeographic && geo_image.isMercator && me) = true := by
      intro hb
      apply hc
      simp only [Bool.and_eq_true] at hb
      exact ⟨hb.1.1, hb.1.2, hb.2⟩
    rw [if_neg hb]
    refine ⟨⟨?_, fun h => absurd h hc⟩, fun h => absurd h hc, fun _ => rfl⟩
    rintro ⟨base, ext, he⟩
    cases he

/-- C23: the Mercator fast path of a populated tile is decided once for the whole
tile: the image in colour slot `i` gets the Mercator-aware locator if and only if the
map's SRS is geographic, that image's SRS is Mercator and no configured image layer
has `useMercatorFastPath` explicitly set to false; otherwise it gets the locator of
its own extent. So a single layer that sets it to false disables the Mercator locator
in every slot, and a layer that leaves it unset disables nothing. -/
theorem createPopulatedTile_mercator_fast_path (f : OSGTileFactory) (map : Map)
    (terrain : CustomTerrain) (key : TileKey) (wrapInPagedLOD fallback : Bool) :
    ∃ r, createPopulatedTile f map terrain key wrapInPagedLOD fallback = Except.ok r ∧
      ∀ node, r.node = some node →
        ∃ tile, node.getTile = some tile ∧
          (∀ (i : Nat) (hi : i < map.imageMapLayers.length),
            ∃ img_layer geo_image locator,
              tile.getColorLayer i = some img_layer ∧
              fillMissingImage map key (map.imageMapLayers.get ⟨i, hi⟩)
                (createLayerImage f key (map.imageMapLayers.get ⟨i, hi⟩)) = some geo_image ∧
              img_layer.locator = some locator ∧
              ((∃ base ext, locator.kind = LocatorKind.mercator base ext) ↔
                (map.srsIsGeographic = true ∧ geo_image.isMercator = true ∧
                  ∀ layer ∈ map.imageMapLayers, layer.useMercatorFastPath ≠ some false)) ∧
              ((map.srsIsGeographic = true ∧ geo_image.isMercator = true ∧
                  ∀ layer ∈ map.imageMapLayers, layer.useMercatorFastPath ≠ some false) →
                locator.kind = LocatorKind.mercator
                  (LocatorKind.fromExtent (GeoExtent.toGeographic geo_image.extent) none)
                  geo_image.extent) ∧
              ((∃ layer ∈ map.imageMapLayers, layer.useMercatorFastPath = some false) →
                locator.kind =
                  LocatorKind.fromExtent geo_image.extent (some (isPlateCarre map)))) := by
  obtain ⟨r, h, _⟩ := createPopulatedTile_ok f map terrain key wrapInPagedLOD fallback
  refine ⟨r, h, ?_⟩
  intro node hn
  obtain ⟨tile, G, ht, hG, hcl⟩ :=
    createPopulatedTile_colorLayers f map terrain key wrapInPagedLOD fallback r node h hn
  refine ⟨tile, ht, ?_⟩
  intro i hi
  obtain ⟨hiff, hyes, hno⟩ := imageLocatorKind_mercator_iff map (isPlateCarre map)
    (useMercatorLocator map.imageMapLayers) (G (map.imageMapLayers.get ⟨i, hi⟩))
  rw [useMercatorLocator_iff] at hiff hyes hno
  refine ⟨createImageLayerFor map key (isPlateCarre map) (isGeocentric map)
    (useMercatorLocator map.imageMapLayers) (map.imageMapLayers.get ⟨i, hi⟩)
    (G (map.imageMapLayers.get ⟨i, hi⟩)), G (map.imageMapLayers.get ⟨i, hi⟩), _, ?_, hG _,
    rfl, hiff, hyes, ?_⟩
  · simp [CustomTile.getColorLayer, hcl, List.getElem?_eq_getElem hi]
  · rintro ⟨layer, hl, hfalse⟩
    apply hno
    rintro ⟨_, _, hall⟩
    exact hall layer hl hfalse

/-- On the geographic sample map whose only layer delivers Mercator images and leaves
the fast path unset, slot 0 gets the Mercator-aware locator; with a second layer that
sets the fast path to false, slot 0 gets the plain locator of the image extent. -/
theorem createPopulatedTile_mercator_fast_path_sample :
    (∃ r node tile img_layer locator base ext,
      createPopulatedTile Sample.factory Sample.mercatorGlobe Sample.emptyTerrain
        Sample.keyL2 false false = Except.ok r ∧
      r.node = some node ∧ node.getTile = some tile ∧
      tile.getColorLayer 0 = some img_layer ∧ img_layer.locator = some locator ∧
      locator.kind = LocatorKind.mercator base ext) ∧
    (∃ r node tile img_layer locator ext,
      createPopulatedTile Sample.factory Sample.slowMercatorGlobe Sample.emptyTerrain
        Sample.keyL2 false false = Except.ok r ∧
      r.node = some node ∧ node.getTile = some tile ∧
      tile.getColorLayer 0 = some img_layer ∧ img_layer.locator = some locator ∧
      locator.kind = LocatorKind.fromExtent ext (some false)) :=
  ⟨⟨_, _, _, _, _, _, _, rfl, rfl, rfl, rfl, rfl, rfl⟩,
    ⟨_, _, _, _, _, _, rfl, rfl, rfl, rfl, rfl, rfl⟩⟩


/-! ## hasMoreLevels -/

theorem moreLevelsIn_iff (key : TileKey) (layers : List MapLayer) :
    moreLevelsIn key layers = true ↔
      ∃ layer ∈ layers, layer.maxLevel = none ∨
        ∃ m, layer.maxLevel = some m ∧ key.getLevelOfDetail < toUnsigned m := by
  induction layers with
  | nil => simp [moreLevelsIn]
  | cons a rest ih =>
    unfold moreLevelsIn
    cases hm : a.maxLevel with
    | none => simp [hm]
    | some m =>
      simp only []
      by_cases hlt : key.getLevelOfDetail < toUnsigned m
      · simp [hlt, hm]
      · simp [hlt, hm, ih]

/-- Summary of `hasMoreLevels`: true exactly when some image or heightfield layer has
no `maxLevel` or one above the level of the key, compared as unsigned numbers. -/
theorem hasMoreLevels_iff (map : Map) (key : TileKey) :
    hasMoreLevels map key = true ↔
      ∃ layer ∈ map.imageMapLayers ++ map.heightFieldMapLayers, layer.maxLevel = none ∨
        ∃ m, layer.maxLevel = some m ∧ key.getLevelOfDetail < toUnsigned m := by
  unfold hasMoreLevels
  simp only []
  have hi := moreLevelsIn_iff key map.imageMapLayers
  have hh := moreLevelsIn_iff key map.heightFieldMapLayers
  cases h1 : moreLevelsIn key map.imageMapLayers with
  | true =>
    simp only [Bool.not_true, Bool.false_eq_true, if_false, true_iff]
    obtain ⟨layer, hl, hp⟩ := hi.mp h1
    exact ⟨layer, List.mem_append_left _ hl, hp⟩
  | false =>
    simp only [Bool.not_false, if_true]
    rw [hh]
    constructor
    · rintro ⟨layer, hl, hp⟩
      exact ⟨layer, List.mem_append_right _ hl, hp⟩
    · rintro ⟨layer, hl, hp⟩
      rcases List.mem_append.mp hl with hl | hl
      · have : moreLevelsIn key map.imageMapLayers = true := hi.mpr ⟨layer, hl, hp⟩
        rw [h1] at this
        cases this
      · exact ⟨layer, hl, hp⟩

/-- A non-negative `int` is unchanged by the conversion to `unsigned int`. -/
theorem toUnsigned_nonneg (level : Nat) (m : Int) (h0 : 0 ≤ m) (h1 : m < 4294967296) :
    level < toUnsigned m ↔ (level : Int) < m := by
  unfold toUnsigned
  rw [Int.emod_eq_of_lt h0 h1]
  omega

/-- C28: `hasMoreLevels` returns true if and only if some image or heightfield layer
of the map has no `maxLevel` set or has a `maxLevel` that the level of the key is
below, the comparison being the unsigned one of C++; when every `maxLevel` that is set
is a non-negative `int`, this is: some layer has no `maxLevel` or a non-negative
`maxLevel` strictly greater than the level of the key. It returns false for a map
with no layers, and if it returns false at a level it returns false at every higher
level. -/
theorem hasMoreLevels_spec (map : Map) (key : TileKey) :
    (hasMoreLevels map key = true ↔
      ∃ layer ∈ map.imageMapLayers ++ map.heightFieldMapLayers, layer.maxLevel = none ∨
        ∃ m, layer.maxLevel = some m ∧ key.getLevelOfDetail < toUnsigned m) ∧
    ((∀ layer ∈ map.imageMapLayers ++ map.heightFieldMapLayers,
        ∀ m, layer.maxLevel = some m → 0 ≤ m ∧ m < 2147483648) →
      (hasMoreLevels map key = true ↔
        ∃ layer ∈ map.imageMapLayers ++ map.heightFieldMapLayers, layer.maxLevel = none ∨
          ∃ m, layer.maxLevel = some m ∧ 0 ≤ m ∧ (key.getLevelOfDetail : Int) < m)) ∧
    (map.imageMapLayers = [] → map.heightFieldMapLayers = [] →
      hasMoreLevels map key = false) ∧
    (hasMoreLevels map key = false →
      ∀ higher : TileKey, key.getLevelOfDetail < higher.getLevelOfDetail →
        hasMoreLevels map higher = false) := by
  refine ⟨hasMoreLevels_iff map key, ?_, ?_, ?_⟩
  · intro hnn
    rw [hasMoreLevels_iff]
    constructor
    · rintro ⟨layer, hl, hp⟩
      refine ⟨layer, hl, ?_⟩
      rcases hp with hp | ⟨m, hm, hlt⟩
      · exact Or.inl hp
      · obtain ⟨h0, h1⟩ := hnn layer hl m hm
        exact Or.inr ⟨m, hm, h0, (toUnsigned_nonneg _ m h0 (by omega)).mp hlt⟩
    · rintro ⟨layer, hl, hp⟩
      refine ⟨layer, hl, ?_⟩
      rcases hp with hp | ⟨m, hm, h0, hlt⟩
      · exact Or.inl hp
      · obtain ⟨_, h1⟩ := hnn layer hl m hm
        exact Or.inr ⟨m, hm, (toUnsigned_nonneg _ m h0 (by omega)).mpr hlt⟩
  · intro h1 h2
    cases hv : hasMoreLevels map key with
    | false => rfl
    | true =>
      obtain ⟨layer, hl, _⟩ := (hasMoreLevels_iff map key).mp hv
      rw [h1, h2] at hl
      cases hl
  · intro hf higher hlt
    cases hv : hasMoreLevels map higher with
    | false => rfl
    | true =>
      obtain ⟨layer, hl, hp⟩ := (hasMoreLevels_iff map higher).mp hv
      have : hasMoreLevels map key = true := by
        rw [hasMoreLevels_iff]
        refine ⟨layer, hl, ?_⟩
        rcases hp with hp | ⟨m, hm, hlt2⟩
        · exact Or.inl hp
        · exact Or.inr ⟨m, hm, lt_trans hlt hlt2⟩
      rw [hf] at this
      cases this

/-- On the sample map whose only layer has `maxLevel` 5, there are more levels below a
level-2 key and none below a level-5 key; a map without layers has none. -/
theorem hasMoreLevels_sample :
    hasMoreLevels Sample.mercatorGlobe Sample.keyL2 = true ∧
    hasMoreLevels Sample.mercatorGlobe { Sample.keyL2 with lod := 5 } = false ∧
    hasMoreLevels Sample.emptyGlobe Sample.keyL2 = false := by
  refine ⟨?_, ?_, ?_⟩ <;> decide


/-! ## The elevation layer of a placeholder tile is never null -/

/-- C29: after `addPlaceholderHeightfieldLayer` the tile has a non-null elevation
layer with a non-null heightfield, for every ancestor tile (null included) and every
ancestor key; so in `createPlaceholderTile` the elevation layer read back at line 513
and its heightfield are never null: the build never meets the null dereference that
the "Couldn't get hfLayer" branch warns of, and always comes back with a result. -/
theorem addPlaceholderHeightfieldLayer_never_null (f : OSGTileFactory) (map : Map)
    (terrain : CustomTerrain) (key : TileKey) :
    (∀ (tile : CustomTile) (ancestorTile : Option CustomTile) (defaultLocator : GeoLocator)
        (k ancestorKey : TileKey),
      ∃ hfLayer hf,
        (addPlaceholderHeightfieldLayer tile ancestorTile defaultLocator k
          ancestorKey).elevationLayer = some hfLayer ∧
        hfLayer.heightField = some hf) ∧
    (∃ r, createPlaceholderTile f map terrain key = Except.ok r) ∧
    createPlaceholderTile f map terrain key ≠ Except.error Fault.nullDereference := by
  obtain ⟨r, hr, _⟩ := createPlaceholderTile_ok f map terrain key
  refine ⟨fun tile ancestorTile defaultLocator k ancestorKey =>
    addPlaceholderHeightfieldLayer_elevationLayer tile ancestorTile defaultLocator k
      ancestorKey, ⟨r, hr⟩, ?_⟩
  rw [hr]
  intro h
  cases h

/-! ## createHeightFieldLayer -/

/-- C30: `createHeightFieldLayer` returns null if and only if `exactOnly` is true and
the map's `createHeightField`, asked without fallback, yields no heightfield. With
`exactOnly` false it asks the map with fallback, puts a synthesized empty heightfield
in the place of a null result, and always returns a layer with a heightfield; with
`exactOnly` true a returned layer holds the heightfield that the map delivered
without fallback. In both cases the heightfield is scaled to degrees on a
plate-carree map and the locator is the one created for the key. -/
theorem createHeightFieldLayer_spec (f : OSGTileFactory) (map : Map) (key : TileKey) :
    (∀ exactOnly,
      createHeightFieldLayer f map key exactOnly = none ↔
        (exactOnly = true ∧
          map.createHeightField key false f.terrainOptions.elevationInterpolation = none)) ∧
    (∃ hfLayer hf,
      createHeightFieldLayer f map key false = some hfLayer ∧
      hfLayer.heightField = some hf ∧
      hfLayer.locator = some (GeoLocator.createForKey key) ∧
      (∀ h, map.createHeightField key true f.terrainOptions.elevationInterpolation = some h →
        hf = if isPlateCarre map then scaleHeightFieldToDegrees h else h) ∧
      (map.createHeightField key true f.terrainOptions.elevationInterpolation = none →
        hf = if isPlateCarre map then
            scaleHeightFieldToDegrees (createEmptyHeightFieldDefault f key)
          else createEmptyHeightFieldDefault f key)) ∧
    (∀ h, map.createHeightField key false f.terrainOptions.elevationInterpolation = some h →
      createHeightFieldLayer f map key true =
        some { heightField := some (if isPlateCarre map then scaleHeightFieldToDegrees h else h)
               locator := some (GeoLocator.createForKey key) }) := by
  refine ⟨?_, ?_, ?_⟩
  · intro exactOnly
    unfold createHeightFieldLayer
    cases exactOnly with
    | true =>
      simp only [Bool.not_true]
      cases hm : map.createHeightField key false f.terrainOptions.elevationInterpolation with
      | none => simp
      | some h => simp
    | false =>
      simp only [Bool.not_false]
      cases hm : map.createHeightField key true f.terrainOptions.elevationInterpolation with
      | none => simp
      | some h => simp
  · unfold createHeightFieldLayer
    simp only [Bool.not_false]
    cases hm : map.createHeightField key true f.terrainOptions.elevationInterpolation with
    | none =>
      refine ⟨_, _, rfl, rfl, rfl, ?_, fun _ => rfl⟩
      intro h hh
      cases hh
    | some h =>
      refine ⟨_, _, rfl, rfl, rfl, ?_, ?_⟩
      · intro h2 hh
        cases hh
        rfl
      · intro hh
        cases hh
  · intro h hm
    unfold createHeightFieldLayer
    simp only [Bool.not_true, hm]

/-- On the sample map, whose `createHeightField` delivers nothing, the exact request
comes back null and the other one with the synthesized empty heightfield. -/
theorem createHeightFieldLayer_sample :
    createHeightFieldLayer Sample.factory Sample.mercatorGlobe Sample.keyL2 true = none ∧
    createHeightFieldLayer Sample.factory Sample.mercatorGlobe Sample.keyL2 false =
      some { heightField := some (createEmptyHeightFieldDefault Sample.factory Sample.keyL2)
             locator := some (GeoLocator.createForKey Sample.keyL2) } :=
  ⟨rfl, rfl⟩


/-! ## Iteration bounds of the ancestor walks -/

/-- A search that finishes within `fuel` iterations finishes with the same result when
it is given one more. -/
theorem findAncestorLoop_more_fuel (terrain : CustomTerrain) (fuel : Nat) :
    ∀ (ancestorTile : Option CustomTile) (key : TileKey) (r : Option CustomTile × TileKey),
      findAncestorLoop terrain fuel ancestorTile key = some r →
      findAncestorLoop terrain (fuel + 1) ancestorTile key = some r := by
  induction fuel with
  | zero =>
    intro ancestorTile key r h
    unfold findAncestorLoop at h
    unfold findAncestorLoop
    split at h
    · cases h
    · rename_i hc
      rw [if_neg hc]
      exact h
  | succ n ih =>
    intro ancestorTile key r h
    rw [findAncestorLoop] at h
    rw [findAncestorLoop]
    split at h
    · rename_i hc
      rw [if_pos hc]
      cases hg : terrain.getCustomTile key.getTileId with
      | some found =>
        simp only [hg] at h ⊢
        exact ih _ _ _ h
      | none =>
        simp only [hg] at h ⊢
        exact ih _ _ _ h
    · rename_i hc
      rw [if_neg hc]
      exact h

/-- C25: with `createParentKey` going exactly one level up and giving an invalid key at
level 0, both ancestor walks terminate for every key: the loop of
`createValidGeoImage` is left within `level( key ) + 1` iterations and the ancestor
search of `createPlaceholderTile` within `level( key )` iterations, each with the
value that the function goes on with. -/
theorem ancestor_walks_terminate (layer : MapLayer) (terrain : CustomTerrain)
    (key : TileKey) :
    (∃ r, createValidGeoImageLoop layer (key.getLevelOfDetail + 1) key = some r ∧
      createValidGeoImage layer key = r) ∧
    (∃ r, findAncestorLoop terrain key.getLevelOfDetail none key.createParentKey = some r ∧
      findAncestor terrain key = r) := by
  constructor
  · obtain ⟨r, hr⟩ := createValidGeoImageLoop_terminates layer (key.lod + 1) key
      (fun _ => Nat.lt_succ_self _)
    refine ⟨r, hr, ?_⟩
    unfold createValidGeoImage
    rw [hr]
  · have hp : key.createParentKey.valid = true → key.createParentKey.lod < key.lod := by
      intro hpv
      by_cases h0 : key.lod = 0
      · simp [TileKey.createParentKey, h0, TileKey.INVALID, TileKey.valid] at hpv
      · simp only [TileKey.createParentKey, h0, if_false]
        omega
    obtain ⟨r, hr⟩ := findAncestorLoop_terminates terrain key.lod none key.createParentKey
      (fun _ => hp)
    refine ⟨r, hr, ?_⟩
    have h2 := findAncestorLoop_more_fuel terrain key.lod none key.createParentKey r hr
    unfold findAncestor
    rw [h2]

/-- The bounds are met: on a terrain without tiles and a layer without data, the walks
from a level-2 key are not left one iteration earlier. -/
theorem ancestor_walks_bounds_sample :
    createValidGeoImageLoop Sample.silentLayer 2 Sample.keyL2 = none ∧
    createValidGeoImageLoop Sample.silentLayer 3 Sample.keyL2 = some none ∧
    findAncestorLoop Sample.emptyTerrain 1 none Sample.keyL2.createParentKey = none ∧
    (∃ r, findAncestorLoop Sample.emptyTerrain 2 none Sample.keyL2.createParentKey = some r) := by
  refine ⟨?_, ?_, ?_, ⟨_, rfl⟩⟩ <;> rfl


/-! ## The fallback pass of `createSubTiles` -/

/-- A populated build with fallback allowed always returns a node. -/
theorem createPopulatedTile_fallback_node (f : OSGTileFactory) (map : Map)
    (terrain : CustomTerrain) (key : TileKey) (w : Bool) :
    ∃ r node, createPopulatedTile f map terrain key w true = Except.ok r ∧
      r.node = some node := by
  obtain ⟨r, h, _, hnone, _⟩ := createPopulatedTile_ok f map terrain key w true
  cases hn : r.node with
  | some node => exact ⟨r, node, h, hn⟩
  | none =>
    have := (hnone.mp hn).2
    cases this

/-- One quadrant of the fallback pass of a populated build: a node of the first pass is
kept and nothing is built (the terrain is the one that came in); a null is replaced by
the node of `createPopulatedTile` with `fallback = true`, which is not null. -/
theorem retryQuadrant_populated (f : OSGTileFactory) (map : Map) (k : TileKey)
    (first : Option Node) (terrain : CustomTerrain) :
    ∃ q c, retryQuadrant f map true k first terrain = Except.ok q ∧ q.1 = some c ∧
      (∀ n, first = some n → q = (some n, terrain)) ∧
      (first = none →
        ∃ again, createPopulatedTile f map terrain k true true = Except.ok again ∧
          q = (again.node, again.terrain)) := by
  unfold retryQuadrant
  cases first with
  | some n =>
    refine ⟨_, n, rfl, rfl, ?_, ?_⟩
    · intro n2 h2
      cases h2
      rfl
    · intro h2
      cases h2
  | none =>
    obtain ⟨again, node, ha, hn⟩ := createPopulatedTile_fallback_node f map terrain k true
    simp only [createTile, if_true, ha]
    refine ⟨_, node, rfl, hn, ?_, ?_⟩
    · intro n2 h2
      cases h2
    · intro _
      exact ⟨again, rfl, rfl⟩

/-- C26: with `populateLayers = true`, `createPopulatedTile` called with
`fallback = true` never returns null, and whenever `createSubTiles` returns a group all
four children are non-null: a quadrant whose first build succeeded keeps that node and
is not built again (the fallback pass leaves the terrain as it found it), and a
quadrant whose first build returned null gets the node of a second build with
`fallback = true`. -/
theorem createSubTiles_populated_children (f : OSGTileFactory) (map : Map)
    (terrain : CustomTerrain) (key : TileKey) :
    (∀ (t : CustomTerrain) (k : TileKey) (w : Bool),
      ∃ r node, createPopulatedTile f map t k w true = Except.ok r ∧ r.node = some node) ∧
    ∃ r0 r1 r2 r3 q0 q1 q2 q3 r,
      createTile f map terrain (key.createChildKey 0) true true false = Except.ok r0 ∧
      createTile f map r0.terrain (key.createChildKey 1) true true false = Except.ok r1 ∧
      createTile f map r1.terrain (key.createChildKey 2) true true false = Except.ok r2 ∧
      createTile f map r2.terrain (key.createChildKey 3) true true false = Except.ok r3 ∧
      retryQuadrant f map true (key.createChildKey 0) r0.node r3.terrain = Except.ok q0 ∧
      retryQuadrant f map true (key.createChildKey 1) r1.node q0.2 = Except.ok q1 ∧
      retryQuadrant f map true (key.createChildKey 2) r2.node q1.2 = Except.ok q2 ∧
      retryQuadrant f map true (key.createChildKey 3) r3.node q2.2 = Except.ok q3 ∧
      createSubTiles f map terrain key true = Except.ok r ∧
      (∀ node, r.1 = some node →
        ∃ c0 c1 c2 c3, node = Node.group [some c0, some c1, some c2, some c3] ∧
          q0.1 = some c0 ∧ q1.1 = some c1 ∧ q2.1 = some c2 ∧ q3.1 = some c3) ∧
      ((∀ n, r0.node = some n → q0 = (some n, r3.terrain)) ∧
        (r0.node = none → ∃ again, createPopulatedTile f map r3.terrain
          (key.createChildKey 0) true true = Except.ok again ∧
          q0 = (again.node, again.terrain))) ∧
      ((∀ n, r1.node = some n → q1 = (some n, q0.2)) ∧
        (r1.node = none → ∃ again, createPopulatedTile f map q0.2
          (key.createChildKey 1) true true = Except.ok again ∧
          q1 = (again.node, again.terrain))) ∧
      ((∀ n, r2.node = some n → q2 = (some n, q1.2)) ∧
        (r2.node = none → ∃ again, createPopulatedTile f map q1.2
          (key.createChildKey 2) true true = Except.ok again ∧
          q2 = (again.node, again.terrain))) ∧
      ((∀ n, r3.node = some n → q3 = (some n, q2.2)) ∧
        (r3.node = none → ∃ again, createPopulatedTile f map q2.2
          (key.createChildKey 3) true true = Except.ok again ∧
          q3 = (again.node, again.terrain))) := by
  refine ⟨fun t k w => createPopulatedTile_fallback_node f map t k w, ?_⟩
  obtain ⟨r0, h0, _⟩ := createTile_ok f map terrain (key.createChildKey 0) true true false
  obtain ⟨r1, h1, _⟩ := createTile_ok f map r0.terrain (key.createChildKey 1) true true false
  obtain ⟨r2, h2, _⟩ := createTile_ok f map r1.terrain (key.createChildKey 2) true true false
  obtain ⟨r3, h3, _⟩ := createTile_ok f map r2.terrain (key.createChildKey 3) true true false
  obtain ⟨q0, c0, hq0, hc0, a0, b0⟩ := retryQuadrant_populated f map
    (key.createChildKey 0) r0.node r3.terrain
  obtain ⟨q1, c1, hq1, hc1, a1, b1⟩ := retryQuadrant_populated f map
    (key.createChildKey 1) r1.node q0.2
  obtain ⟨q2, c2, hq2, hc2, a2, b2⟩ := retryQuadrant_populated f map
    (key.createChildKey 2) r2.node q1.2
  obtain ⟨q3, c3, hq3, hc3, a3, b3⟩ := retryQuadrant_populated f map
    (key.createChildKey 3) r3.node q2.2
  have hsub : ∃ r, createSubTiles f map terrain key true = Except.ok r ∧
      (∀ node, r.1 = some node → node = Node.group [q0.1, q1.1, q2.1, q3.1]) := by
    simp only [createSubTiles, bind, Except.bind, pure, Except.pure, h0, h1, h2, h3, hq0, hq1,
      hq2, hq3]
    cases r0.validData <;> cases r1.validData <;> cases r2.validData <;>
      cases r3.validData <;>
      first
      | exact ⟨_, rfl, fun node hn => Option.noConfusion hn⟩
      | exact ⟨_, rfl, fun node hn => (Option.some.inj hn).symm⟩
  obtain ⟨r, hr, hgroup⟩ := hsub
  refine ⟨r0, r1, r2, r3, q0, q1, q2, q3, r, h0, h1, h2, h3, hq0, hq1, hq2, hq3, hr, ?_,
    ⟨a0, b0⟩, ⟨a1, b1⟩, ⟨a2, b2⟩, ⟨a3, b3⟩⟩
  intro node hn
  refine ⟨c0, c1, c2, c3, ?_, hc0, hc1, hc2, hc3⟩
  rw [hgroup node hn, hc0, hc1, hc2, hc3]

/-- On the sample map whose layer has data in the western column only, the first pass
for the root key builds quadrants 0 and 2 and returns null for quadrants 1 and 3; the
group that `createSubTiles` returns nevertheless holds four nodes. -/
theorem createSubTiles_populated_sample :
    (∃ r1, createTile Sample.factory Sample.westMap Sample.emptyTerrain
        (Sample.rootKey.createChildKey 1) true true false = Except.ok r1 ∧ r1.node = none) ∧
    ∃ r c0 c1 c2 c3,
      createSubTiles Sample.factory Sample.westMap Sample.emptyTerrain Sample.rootKey
        true = Except.ok r ∧
      r.1 = some (Node.group [some c0, some c1, some c2, some c3]) :=
  ⟨⟨_, rfl, rfl⟩, ⟨_, _, _, _, _, rfl, rfl⟩⟩


/-- A placeholder build through `createTile` on a terrain that holds no ancestor of the
key: the node is null, `validData` is true and the terrain is untouched. -/
theorem createTile_placeholder_no_ancestor (f : OSGTileFactory) (map : Map)
    (terrain : CustomTerrain) (key : TileKey) (w fb : Bool)
    (h : (findAncestor terrain key).1 = none) :
    createTile f map terrain key false w fb =
      Except.ok { node := none, validData := true, terrain := terrain } := by
  simp [createTile, createPlaceholderTile, h]

/-- The fallback pass of a placeholder build repeats `createPlaceholderTile`. -/
theorem retryQuadrant_placeholder (f : OSGTileFactory) (map : Map) (k : TileKey)
    (terrain : CustomTerrain) :
    retryQuadrant f map false k none terrain = createPlaceholderTile f map terrain k := by
  obtain ⟨p, hp, _⟩ := createPlaceholderTile_ok f map terrain k
  simp [retryQuadrant, createTile, hp]

/-- C27: with `populateLayers = false`, `createSubTiles` never returns null: every
quadrant reports valid data, so the result is always a group of four children, also
when `createPlaceholderTile` returned null for some or all quadrants; the fallback
pass only repeats the same placeholder build, for which the `fallback` flag makes no
difference, so a child may stay null: on a terrain that holds no ancestor of any
child key, all four children of the group are null. -/
theorem createSubTiles_placeholder_group (f : OSGTileFactory) (map : Map)
    (terrain : CustomTerrain) (key : TileKey) :
    (∃ r q0 q1 q2 q3,
      createSubTiles f map terrain key false = Except.ok r ∧
      r.1 = some (Node.group [q0, q1, q2, q3])) ∧
    (∀ (t : CustomTerrain) (k : TileKey) (w fb1 fb2 : Bool),
      createTile f map t k false w fb1 = createTile f map t k false w fb2) ∧
    (∀ (t : CustomTerrain) (k : TileKey),
      retryQuadrant f map false k none t = createPlaceholderTile f map t k) ∧
    ((findAncestor terrain (key.createChildKey 0)).1 = none →
      (findAncestor terrain (key.createChildKey 1)).1 = none →
      (findAncestor terrain (key.createChildKey 2)).1 = none →
      (findAncestor terrain (key.createChildKey 3)).1 = none →
      createSubTiles f map terrain key false =
        Except.ok (some (Node.group [none, none, none, none]), terrain)) := by
  refine ⟨?_, ?_, fun t k => retryQuadrant_placeholder f map k t, ?_⟩
  · obtain ⟨r0, h0, v0⟩ := createTile_ok f map terrain (key.createChildKey 0) false true false
    obtain ⟨r1, h1, v1⟩ := createTile_ok f map r0.terrain (key.createChildKey 1) false true false
    obtain ⟨r2, h2, v2⟩ := createTile_ok f map r1.terrain (key.createChildKey 2) false true false
    obtain ⟨r3, h3, v3⟩ := createTile_ok f map r2.terrain (key.createChildKey 3) false true false
    obtain ⟨q0, hq0⟩ := retryQuadrant_ok f map false (key.createChildKey 0) r0.node r3.terrain
    obtain ⟨q1, hq1⟩ := retryQuadrant_ok f map false (key.createChildKey 1) r1.node q0.2
    obtain ⟨q2, hq2⟩ := retryQuadrant_ok f map false (key.createChildKey 2) r2.node q1.2
    obtain ⟨q3, hq3⟩ := retryQuadrant_ok f map false (key.createChildKey 3) r3.node q2.2
    refine ⟨(some (Node.group [q0.1, q1.1, q2.1, q3.1]), q3.2), q0.1, q1.1, q2.1, q3.1, ?_, rfl⟩
    simp only [createSubTiles, bind, Except.bind, pure, Except.pure, h0, h1, h2, h3, hq0, hq1,
      hq2, hq3, v0 rfl, v1 rfl, v2 rfl, v3 rfl]
    rfl
  · intro t k w fb1 fb2
    simp [createTile]
  · intro a0 a1 a2 a3
    have h0 := createTile_placeholder_no_ancestor f map terrain (key.createChildKey 0)
    have h1 := createTile_placeholder_no_ancestor f map terrain (key.createChildKey 1)
    have h2 := createTile_placeholder_no_ancestor f map terrain (key.createChildKey 2)
    have h3 := createTile_placeholder_no_ancestor f map terrain (key.createChildKey 3)
    simp only [createSubTiles, bind, Except.bind, pure, Except.pure, retryQuadrant,
      h0 true false a0, h1 true false a1, h2 true false a2, h3 true false a3,
      h0 true true a0, h1 true true a1, h2 true true a2, h3 true true a3]
    rfl

/-- On the sample terrain without tiles the group of the root key has four null
children; on the terrain that holds the root tile it has four placeholder nodes. -/
theorem createSubTiles_placeholder_sample :
    createSubTiles Sample.factory Sample.twoLayerGlobe Sample.emptyTerrain Sample.rootKey
        false =
      Except.ok (some (Node.group [none, none, none, none]), Sample.emptyTerrain) ∧
    ∃ r c0 c1 c2 c3,
      createSubTiles Sample.factory Sample.twoLayerGlobe Sample.rootTerrain Sample.rootKey
        false = Except.ok r ∧
      r.1 = some (Node.group [some c0, some c1, some c2, some c3]) :=
  ⟨rfl, ⟨_, _, _, _, _, rfl, rfl⟩⟩


/-! ## The elevation LOD of a placeholder whose ancestor is itself a placeholder -/

/-- C14, as stated, fails in its last sentence: on the sample terrain the nearest
registered ancestor of the level-2 key is a level-1 placeholder that the factory built
with a synthesized heightfield, so it has a heightfield and elevation LOD -1; the
placeholder built for the level-2 key gets the sub-sample of that heightfield, nothing
is synthesized for it, and yet its elevation LOD, copied from the ancestor, is -1. -/
theorem createPlaceholderTile_copies_synthetic_lod :
    ∃ r node tile layer hf ancestorTile ancestorKey al ahf,
      createPlaceholderTile Sample.factory Sample.twoLayerGlobe Sample.synthesizedTerrain
        Sample.keyL2 = Except.ok r ∧
      r.1 = some node ∧ node.getTile = some tile ∧
      findAncestor Sample.synthesizedTerrain Sample.keyL2 = (some ancestorTile, ancestorKey) ∧
      ancestorKey = Sample.keyL2.createParentKey ∧
      ancestorTile.elevationLayer = some al ∧ al.heightField = some ahf ∧
      tile.elevationLayer = some layer ∧ layer.heightField = some hf ∧
      hf.source =
        HeightFieldSource.subSample ahf.source ancestorKey.getGeoExtent
          Sample.keyL2.getGeoExtent ∧
      hf.source ≠ HeightFieldSource.reference Sample.keyL2.getGeoExtent 8 8 ∧
      tile.elevationLOD = -1 :=
  ⟨_, _, _, _, _, _, _, _, _, rfl, rfl, rfl, rfl, rfl, rfl, rfl, rfl, rfl, rfl,
    by decide, rfl⟩


/-! ## createPlaceholderHeightfieldLayer -/

theorem roundHalfEven_intCast (k : ℤ) : roundHalfEven (k : ℚ) = k := by
  unfold roundHalfEven
  simp only [Int.floor_intCast, sub_self]
  norm_num

theorem narrowToFloat_zero : narrowToFloat 0 = 0 := by
  unfold narrowToFloat
  rw [zero_div]
  have h := roundHalfEven_intCast 0
  simp only [Int.cast_zero] at h
  rw [h]
  simp

/-- The spacing of the `float` values around `m * 2 ^ e`, for a significand `m` of at
most 24 bits and an exponent `e` of the `float` range, is at most `2 ^ e`. -/
theorem floatUlpExponent_le (m e : ℤ) (h0 : m ≠ 0) (hm : |m| < 2 ^ 24) (he : -149 ≤ e) :
    floatUlpExponent ((m : ℚ) * 2 ^ e) ≤ e := by
  unfold floatUlpExponent
  apply max_le _ he
  have hpos : (0 : ℚ) < |(m : ℚ) * 2 ^ e| := by
    apply abs_pos.mpr
    apply mul_ne_zero
    · exact_mod_cast h0
    · exact zpow_ne_zero _ (by norm_num)
  have hlt : |(m : ℚ) * 2 ^ e| < ((2 : ℕ) : ℚ) ^ (24 + e) := by
    rw [abs_mul, abs_of_pos (zpow_pos (by norm_num : (0 : ℚ) < 2) e)]
    have h2 : ((2 : ℕ) : ℚ) ^ (24 + e) = 2 ^ (24 : ℤ) * 2 ^ e := by
      rw [Nat.cast_ofNat, zpow_add₀ (by norm_num : (2 : ℚ) ≠ 0)]
    rw [h2]
    apply mul_lt_mul_of_pos_right _ (zpow_pos (by norm_num : (0 : ℚ) < 2) e)
    have : |(m : ℚ)| < 2 ^ 24 := by exact_mod_cast hm
    calc |(m : ℚ)| < 2 ^ 24 := this
      _ = 2 ^ (24 : ℤ) := by norm_num
  have := (Int.lt_zpow_iff_log_lt (by norm_num : 1 < 2) hpos).mp hlt
  omega

/-- A value `m * 2 ^ e` with a significand `m` of at most 24 bits and an exponent
`e ≥ -149` is a `float`: the conversion leaves it as it is. -/
theorem narrowToFloat_grid (m e : ℤ) (hm : |m| < 2 ^ 24) (he : -149 ≤ e) :
    narrowToFloat ((m : ℚ) * 2 ^ e) = (m : ℚ) * 2 ^ e := by
  by_cases h0 : m = 0
  · rw [h0]
    simp only [Int.cast_zero, zero_mul]
    exact narrowToFloat_zero
  · have hle := floatUlpExponent_le m e h0 hm he
    unfold narrowToFloat
    obtain ⟨u, hu⟩ : ∃ u, u = floatUlpExponent ((m : ℚ) * 2 ^ e) := ⟨_, rfl⟩
    rw [← hu] at hle ⊢
    obtain ⟨n, hn⟩ : ∃ n : ℕ, e - u = (n : ℤ) := ⟨(e - u).toNat, by omega⟩
    have h2 : (2 : ℚ) ≠ 0 := by norm_num
    have hq : (m : ℚ) * 2 ^ e / 2 ^ u = ((m * 2 ^ n : ℤ) : ℚ) := by
      rw [mul_div_assoc, ← zpow_sub₀ h2, hn, zpow_natCast]
      push_cast
      ring
    rw [hq, roundHalfEven_intCast]
    push_cast
    rw [mul_assoc, ← zpow_natCast, ← hn, ← zpow_add₀ h2]
    congr 2
    omega

/-- Half of the smallest positive `float` lies midway between 0 and that `float`, and
the conversion takes it to 0. -/
theorem narrowToFloat_half_of_least : narrowToFloat (1 / 2 ^ 149 / 2) = 0 := by
  have hq : ((1 : ℚ) / 2 ^ 149 / 2) = ((2 : ℕ) : ℚ) ^ (-150 : ℤ) := by
    rw [Nat.cast_ofNat, zpow_neg]
    norm_num
  have hu : floatUlpExponent ((1 : ℚ) / 2 ^ 149 / 2) = -149 := by
    unfold floatUlpExponent
    rw [hq, abs_of_pos (zpow_pos (by norm_num) _), Int.log_zpow (by norm_num)]
    rfl
  have hd : ((1 : ℚ) / 2 ^ 149 / 2) / 2 ^ (-149 : ℤ) = 1 / 2 := by
    rw [zpow_neg]
    norm_num
  have hr : roundHalfEven (1 / 2) = 0 := by
    unfold roundHalfEven
    have hf : ⌊(1 / 2 : ℚ)⌋ = 0 := by
      rw [Int.floor_eq_iff]
      norm_num
    simp only [hf]
    norm_num
  unfold narrowToFloat
  rw [hu, hd, hr]
  simp

/-- The smallest positive `float` is read back from a heightfield as it was written. -/
theorem getSkirtHeight_tinySkirtField : getSkirtHeight Sample.tinySkirtField = 1 / 2 ^ 149 := by
  have h := narrowToFloat_grid 1 (-149) (by norm_num) (by norm_num)
  have hq : ((1 : ℤ) : ℚ) * 2 ^ (-149 : ℤ) = 1 / 2 ^ 149 := by
    rw [zpow_neg]
    norm_num
  rw [hq] at h
  simpa [getSkirtHeight, Sample.tinySkirtField] using h

/-- C24, as stated, fails: the skirt height of the sample ancestor heightfield is the
smallest positive `float`, `2 ^ (-149)`; its half is no `float`, and the skirt height
of the heightfield that `createPlaceholderHeightfieldLayer` returns is 0, both as
written and as read back, not half the ancestor's. -/
theorem createPlaceholderHeightfieldLayer_half_not_exact :
    ∃ hfLayer newHF,
      createPlaceholderHeightfieldLayer (some Sample.tinySkirtField) Sample.keyL1 Sample.keyL2
        (some (GeoLocator.createForKey Sample.keyL2)) = Except.ok hfLayer ∧
      hfLayer.heightField = some newHF ∧
      getSkirtHeight Sample.tinySkirtField = 1 / 2 ^ 149 ∧
      newHF.skirtHeight = some 0 ∧
      getSkirtHeight newHF = 0 ∧
      getSkirtHeight newHF ≠ getSkirtHeight Sample.tinySkirtField / 2 := by
  have hw : ((createSubSample Sample.tinySkirtField Sample.keyL1.getGeoExtent
        Sample.keyL2.getGeoExtent).setSkirtHeight
          (narrowToFloat (getSkirtHeight Sample.tinySkirtField / 2))).skirtHeight = some 0 := by
    rw [getSkirtHeight_tinySkirtField, narrowToFloat_half_of_least]
    rfl
  have h0 : getSkirtHeight
      ((createSubSample Sample.tinySkirtField Sample.keyL1.getGeoExtent
        Sample.keyL2.getGeoExtent).setSkirtHeight
          (narrowToFloat (getSkirtHeight Sample.tinySkirtField / 2))) = 0 := by
    unfold getSkirtHeight at hw ⊢
    rw [hw]
    exact narrowToFloat_zero
  refine ⟨_, _, rfl, rfl, getSkirtHeight_tinySkirtField, hw, h0, ?_⟩
  rw [h0, getSkirtHeight_tinySkirtField]
  norm_num

/-- C24, amended: for every ancestor heightfield, `createPlaceholderHeightfieldLayer`
returns a layer whose heightfield is the sub-sample of the ancestor heightfield from
the ancestor key's extent to the key's extent, whose skirt height is the `float`
nearest to half the ancestor heightfield's skirt height (ties to even), and whose
locator is the key locator that was passed in. The skirt height, as written and as
read back, is exactly half the ancestor's whenever the ancestor's is `m * 2 ^ e` with
a significand `m` of at most 24 bits and an exponent `e` from -148 to 104, which is
every `float` but the odd multiples of `2 ^ (-149)`. -/
theorem createPlaceholderHeightfieldLayer_spec (ancestorHF : HeightField)
    (ancestorKey key : TileKey) (keyLocator : Option GeoLocator) :
    ∃ hfLayer newHF,
      createPlaceholderHeightfieldLayer (some ancestorHF) ancestorKey key keyLocator =
        Except.ok hfLayer ∧
      hfLayer.heightField = some newHF ∧
      newHF.source =
        HeightFieldSource.subSample ancestorHF.source ancestorKey.getGeoExtent
          key.getGeoExtent ∧
      newHF.scaledToDegrees = 0 ∧
      newHF.skirtHeight = some (narrowToFloat (getSkirtHeight ancestorHF / 2)) ∧
      (∀ m e : ℤ, |m| < 2 ^ 24 → -148 ≤ e → e ≤ 104 →
        getSkirtHeight ancestorHF = (m : ℚ) * 2 ^ e →
        newHF.skirtHeight = some (getSkirtHeight ancestorHF / 2) ∧
        getSkirtHeight newHF = getSkirtHeight ancestorHF / 2) ∧
      hfLayer.locator = keyLocator := by
  refine ⟨_, _, rfl, rfl, rfl, rfl, rfl, ?_, rfl⟩
  intro m e hm he _ hs
  have h2 : (2 : ℚ) ≠ 0 := by norm_num
  have hhalf : (m : ℚ) * 2 ^ e / 2 = (m : ℚ) * 2 ^ (e - 1) := by
    rw [zpow_sub₀ h2, zpow_one]
    ring
  have hg : narrowToFloat (getSkirtHeight ancestorHF / 2) = getSkirtHeight ancestorHF / 2 := by
    rw [hs, hhalf]
    exact narrowToFloat_grid m (e - 1) hm (by omega)
  have hw : ((createSubSample ancestorHF ancestorKey.getGeoExtent
      key.getGeoExtent).setSkirtHeight
        (narrowToFloat (getSkirtHeight ancestorHF / 2))).skirtHeight =
      some (getSkirtHeight ancestorHF / 2) := by
    rw [hg]
    rfl
  refine ⟨hw, ?_⟩
  show narrowToFloat (Option.getD _ 0) = _
  rw [hw]
  exact hg

/-- From an ancestor heightfield with skirt height 6 the layer gets a heightfield with
skirt height 3. -/
theorem createPlaceholderHeightfieldLayer_sample :
    ∃ hfLayer newHF,
      createPlaceholderHeightfieldLayer (some Sample.skirtSixField)
        Sample.keyL1 Sample.keyL2 (some (GeoLocator.createForKey Sample.keyL2)) =
        Except.ok hfLayer ∧
      hfLayer.heightField = some newHF ∧ newHF.skirtHeight = some 3 ∧
      hfLayer.locator = some (GeoLocator.createForKey Sample.keyL2) := by
  have h6 : getSkirtHeight Sample.skirtSixField = 6 := by
    have h := narrowToFloat_grid 6 0 (by norm_num) (by norm_num)
    simpa [getSkirtHeight, Sample.skirtSixField] using h
  have h3 : narrowToFloat (6 / 2) = 3 := by
    have h := narrowToFloat_grid 3 0 (by norm_num) (by norm_num)
    have e : ((3 : ℤ) : ℚ) * 2 ^ (0 : ℤ) = 6 / 2 := by norm_num
    rw [e] at h
    rw [h]
    norm_num
  have hw : ((createSubSample Sample.skirtSixField Sample.keyL1.getGeoExtent
        Sample.keyL2.getGeoExtent).setSkirtHeight
          (narrowToFloat (getSkirtHeight Sample.skirtSixField / 2))).skirtHeight = some 3 := by
    rw [h6, h3]
    rfl
  exact ⟨_, _, rfl, rfl, hw, rfl⟩

end OSGTileFactory

end OsgEarth
